import Mathlib

/-! # The BMP decoder of pixiretro (`bmpimage.cpp`) and its cutscene playback (`cutscene.cpp`)

A shallow embedding of `BmpImage::load`, `BmpImage::extractIndexedPixels` and
`BmpImage::extractPixels`, and of the constructors and `update` functions of `Animation` and
`Transition`, followed by the properties proved about them.

Conventions of the embedding.

* A file is a list of bytes (every element is taken modulo 256 when it is read); a file that
  cannot be opened is `none`.
* `std::ifstream` is the record `IFStream`: the bytes, the get position and the fail bit.  A
  read that finds fewer bytes than asked stores the bytes it found and sets the fail bit; once
  the fail bit is set every later `read` and `seekg` does nothing.
* `int` is a mathematical integer together with a range check: arithmetic that leaves the
  32-bit range is undefined behaviour and is reported as `Fault.signedOverflow`.  Unsigned
  arithmetic wraps and is written with an explicit modulus.
* Everything for which C++ defines no result (an index outside an array, a read of a byte
  that was never written, a shift by 32 or more) and every exception ends the run with a
  `Fault`; a run that returns ends with `Except.ok`.
* The `float` arithmetic of `cutscene.cpp` is a parameter (`FloatOps`) of its embedding; a
  failing `assert` of a constructor is `none`.
-/

namespace pxr

/-! ## Constants and records of `bmpimage.h` -/

/-- Modelled from the spec: `bmpimage.h` is not among the sources, so the named constants
that `bmpimage.cpp` uses are parameters of the embedding. -/
structure BmpConsts where
  BMPMAGIC : Nat
  SRGBMAGIC : Nat
  FILEHEADER_SIZE_BYTES : Nat
  V1INFOHEADER_SIZE_BYTES : Nat
  V2INFOHEADER_SIZE_BYTES : Nat
  V3INFOHEADER_SIZE_BYTES : Nat
  V4INFOHEADER_SIZE_BYTES : Nat
  V5INFOHEADER_SIZE_BYTES : Nat
  BI_RGB : Nat
  BI_BITFIELDS : Nat
deriving DecidableEq, Repr

/-- Modelled from the spec: the values of the constants of `bmpimage.h` (absent from the
sources).  The spec fixes the magic as the ASCII pair "BM" (read little-endian: 0x4D42), the
file header as 2+4+2+2+4 = 14 bytes, the base info header as eleven fields of 40 bytes, three
4-byte masks more for revision 2 (52), one 4-byte field more for revision 3 (56), and the
compression values 0 (uncompressed) and 3 (bit-fields).  The revision-4 and revision-5 sizes
(108, 124) and the sRGB tag ("sRGB", 0x73524742) are those of the BMP format. -/
def bmpConsts : BmpConsts where
  BMPMAGIC := 0x4D42
  SRGBMAGIC := 0x73524742
  FILEHEADER_SIZE_BYTES := 14
  V1INFOHEADER_SIZE_BYTES := 40
  V2INFOHEADER_SIZE_BYTES := 52
  V3INFOHEADER_SIZE_BYTES := 56
  V4INFOHEADER_SIZE_BYTES := 108
  V5INFOHEADER_SIZE_BYTES := 124
  BI_RGB := 0
  BI_BITFIELDS := 3

/-- Modelled from the spec: `Color4u` of `color.h` (absent from the sources), four 8-bit
channels given in the order red, green, blue, alpha. -/
structure Color4u where
  red : Nat
  green : Nat
  blue : Nat
  alpha : Nat
deriving DecidableEq, Repr

/-- Modelled from the spec: the file header record of `bmpimage.h`; field widths in bytes are
2, 4, 2, 2, 4. -/
structure FileHeader where
  _fileMagic : Nat
  _fileSize_bytes : Nat
  _reserved0 : Nat
  _reserved1 : Nat
  _pixelOffset_bytes : Nat
deriving DecidableEq, Repr

/-- Modelled from the spec: the info header record of `bmpimage.h`.  Width and height are
signed 32-bit fields, colour planes and bits per pixel are 16-bit, every other field is an
unsigned 32-bit value. -/
structure InfoHeader where
  _headerSize_bytes : Nat
  _bmpWidth_px : Int
  _bmpHeight_px : Int
  _numColorPlanes : Nat
  _bitsPerPixel : Nat
  _compression : Nat
  _imageSize_bytes : Nat
  _xResolution_pxPm : Nat
  _yResolution_pxPm : Nat
  _numPaletteColors : Nat
  _numImportantColors : Nat
  _redMask : Nat
  _greenMask : Nat
  _blueMask : Nat
  _alphaMask : Nat
  _colorSpaceMagic : Nat
deriving DecidableEq, Repr

/-- The state of a `BmpImage` object. -/
structure BmpImage where
  _pixels : List Color4u
  _width_px : Int
  _height_px : Int
deriving DecidableEq, Repr

/-- The four messages of `log.h` that `load` writes. -/
inductive LogMsg where
  | msg_bmp_fail_open
  | msg_bmp_corrupted
  | msg_bmp_unsupported_colorspace
  | msg_bmp_unsupported_compression
deriving DecidableEq, Repr

/-- Ways in which a run ends without returning. -/
inductive Fault where
  /-- An `int` computation leaves the 32-bit range. -/
  | signedOverflow
  /-- A left shift by 32 or more. -/
  | shiftTooLarge
  /-- An index outside the row buffer or outside the palette. -/
  | outOfBounds
  /-- The value of a byte that was never written is used. -/
  | uninitialisedRead
  /-- A negative size reaches `reserve` or `new[]`, which throw. -/
  | lengthError
  /-- The palette loop was cut off before it ended. -/
  | nonTermination
deriving DecidableEq, Repr

/-- Equality of outcomes is decidable, so that runs on concrete files can be checked by
evaluation. -/
instance instDecidableEqExcept {ε α : Type} [DecidableEq ε] [DecidableEq α] :
    DecidableEq (Except ε α)
  | .ok a, .ok b => if h : a = b then isTrue (by rw [h]) else isFalse (fun e => h (Except.ok.inj e))
  | .error a, .error b =>
    if h : a = b then isTrue (by rw [h]) else isFalse (fun e => h (Except.error.inj e))
  | .ok _, .error _ => isFalse (fun e => Except.noConfusion e)
  | .error _, .ok _ => isFalse (fun e => Except.noConfusion e)

/-- What a returning call of `load` leaves behind: the returned flag, the object and the
messages logged. -/
structure LoadResult where
  ok : Bool
  image : BmpImage
  log : List LogMsg
deriving DecidableEq, Repr

/-! ## The input stream -/

/-- An opened `std::ifstream`. -/
structure IFStream where
  bytes : List Nat
  pos : Nat
  failbit : Bool
deriving DecidableEq, Repr

/-- The member `read(buf, n)`: the bytes stored into the buffer and the stream afterwards.
Fewer than `n` bytes are stored only at the end of the file, and then the fail bit is set. -/
def IFStream.read (s : IFStream) (n : Nat) : List Nat × IFStream :=
  if s.failbit then ([], s)
  else
    let got := ((s.bytes.drop s.pos).take n).map (fun b => b % 256)
    (got, { s with pos := s.pos + got.length, failbit := decide (got.length < n) })

/-- The member `seekg(p)`: a negative position fails, any other position is accepted (also
one behind the end of the file). -/
def IFStream.seekg (s : IFStream) (p : Int) : IFStream :=
  if s.failbit then s
  else if p < 0 then { s with failbit := true }
  else { s with pos := p.toNat }

/-- Little-endian value of a list of bytes. -/
def leValue : List Nat → Nat
  | [] => 0
  | b :: bs => b % 256 + 256 * leValue bs

/-- A read of `n` bytes into a zero-initialised little-endian field (`FileHeader fileHead {}`,
`InfoHeader infoHead {}`): the bytes that are missing stay zero. -/
def IFStream.readField (s : IFStream) (n : Nat) : Nat × IFStream :=
  ((leValue (s.read n).1), (s.read n).2)

/-- The value of a 32-bit pattern as `int32_t` / `static_cast<int>`. -/
def toInt32 (v : Nat) : Int :=
  if v % 2 ^ 32 < 2 ^ 31 then ((v % 2 ^ 32 : Nat) : Int) else ((v % 2 ^ 32 : Nat) : Int) - 2 ^ 32

/-- The result of an `int` computation: the value when it is representable. -/
def checkInt (x : Int) : Except Fault Int :=
  if -(2 : Int) ^ 31 ≤ x ∧ x < (2 : Int) ^ 31 then .ok x else .error .signedOverflow

/-! ## Row size -/

/-- Number of bits dropped when a natural number below 2^31 is stored in a `float`
(24 significant bits). -/
def f32Exponent (m : Nat) : Nat :=
  if m < 2 ^ 24 then 0
  else if m < 2 ^ 25 then 1
  else if m < 2 ^ 26 then 2
  else if m < 2 ^ 27 then 3
  else if m < 2 ^ 28 then 4
  else if m < 2 ^ 29 then 5
  else if m < 2 ^ 30 then 6
  else 7

/-- The conversion `int → float` on magnitudes below 2^31: round to 24 significant bits,
ties to even. -/
def roundF32Nat (m : Nat) : Nat :=
  let e := f32Exponent m
  let q := m / 2 ^ e
  let r := m % 2 ^ e
  if 2 * r > 2 ^ e ∨ (2 * r = 2 ^ e ∧ q % 2 = 1) then (q + 1) * 2 ^ e else q * 2 ^ e

/-- The conversion `int → float`, as the integer the resulting `float` stands for. -/
def roundF32 (x : Int) : Int :=
  if x < 0 then -((roundF32Nat x.natAbs : Nat) : Int) else ((roundF32Nat x.natAbs : Nat) : Int)

/-- The expression `std::ceil((bitsPerPixel * width) / 32.f) * 4.f` converted to `int`.
The product is an `int` product; it is converted to `float` for the division, and dividing
by 32, rounding up and multiplying by 4 are exact on the values that can occur. -/
def rowSizeBytes (bitsPerPixel : Nat) (width : Int) : Except Fault Int := do
  let bits ← checkInt ((bitsPerPixel : Int) * width)
  pure (((roundF32 bits + 31) / 32) * 4)

/-! ## Header reading (`load`, lines 29-69) -/

/-- Lines 37-40: the file header fields after the magic. -/
def readFileHeader (fileMagic : Nat) (file : IFStream) : FileHeader × IFStream :=
  let (fileSize, file) := file.readField 4
  let (reserved0, file) := file.readField 2
  let (reserved1, file) := file.readField 2
  let (pixelOffset, file) := file.readField 4
  (⟨fileMagic, fileSize, reserved0, reserved1, pixelOffset⟩, file)

/-- Lines 42-53: the eleven base fields of the info header; the masks and the colour-space
tag keep their initial value zero. -/
def readInfoHeader (file : IFStream) : InfoHeader × IFStream :=
  let (headerSize, file) := file.readField 4
  let (width, file) := file.readField 4
  let (height, file) := file.readField 4
  let (planes, file) := file.readField 2
  let (bitsPerPixel, file) := file.readField 2
  let (compression, file) := file.readField 4
  let (imageSize, file) := file.readField 4
  let (xRes, file) := file.readField 4
  let (yRes, file) := file.readField 4
  let (numPaletteColors, file) := file.readField 4
  let (numImportantColors, file) := file.readField 4
  (⟨headerSize, toInt32 width, toInt32 height, planes, bitsPerPixel, compression, imageSize,
    xRes, yRes, numPaletteColors, numImportantColors, 0, 0, 0, 0, 0⟩, file)

/-- The local state of `load` while the versioned part of the info header is read: the
header record, the stream and `infoHeadVersion`. -/
structure HeaderState where
  infoHead : InfoHeader
  file : IFStream
  infoHeadVersion : Nat
deriving DecidableEq, Repr

/-- Lines 57-64: the red, green and blue masks are read when the declared size reaches the
revision-2 size, or equals the revision-1 size with bit-fields compression. -/
def readColorMasks (c : BmpConsts) (st : HeaderState) : HeaderState :=
  if st.infoHead._headerSize_bytes ≥ c.V2INFOHEADER_SIZE_BYTES ∨
      (st.infoHead._headerSize_bytes = c.V1INFOHEADER_SIZE_BYTES ∧
        st.infoHead._compression = c.BI_BITFIELDS) then
    { infoHead :=
        { st.infoHead with
          _redMask := (st.file.readField 4).1
          _greenMask := ((st.file.readField 4).2.readField 4).1
          _blueMask := (((st.file.readField 4).2.readField 4).2.readField 4).1 }
      file := (((st.file.readField 4).2.readField 4).2.readField 4).2
      infoHeadVersion := 2 }
  else st

/-- Lines 66-69: the alpha mask is read when the declared size reaches the revision-3 size. -/
def readAlphaMask (c : BmpConsts) (st : HeaderState) : HeaderState :=
  if st.infoHead._headerSize_bytes ≥ c.V3INFOHEADER_SIZE_BYTES then
    { infoHead := { st.infoHead with _alphaMask := (st.file.readField 4).1 }
      file := (st.file.readField 4).2
      infoHeadVersion := 3 }
  else st

/-- Lines 71-72 and 77: the colour-space tag is read when the declared size reaches the
revision-4 size (the comparison of line 73 is made in `load`). -/
def readColorSpace (c : BmpConsts) (st : HeaderState) : HeaderState :=
  if st.infoHead._headerSize_bytes ≥ c.V4INFOHEADER_SIZE_BYTES then
    { infoHead := { st.infoHead with _colorSpaceMagic := (st.file.readField 4).1 }
      file := (st.file.readField 4).2
      infoHeadVersion := 4 }
  else st

/-- Lines 80-82: a declared size that reaches the revision-5 size only sets the revision. -/
def markVersion5 (c : BmpConsts) (st : HeaderState) : HeaderState :=
  if st.infoHead._headerSize_bytes ≥ c.V5INFOHEADER_SIZE_BYTES then
    { st with infoHeadVersion := 5 }
  else st

/-- Lines 29-30: the magic read from a freshly opened file, and the stream behind it. -/
def readMagic (bytes : List Nat) : Nat × IFStream :=
  (⟨bytes, 0, false⟩ : IFStream).readField 2

/-- Lines 37-40 on a freshly opened file: the file header. -/
def fileHeaderOf (bytes : List Nat) : FileHeader :=
  (readFileHeader (readMagic bytes).1 (readMagic bytes).2).1

/-- Lines 42-72 on a freshly opened file: the state of `load` after the colour-space tag has
been read (when the declared size asks for it). -/
def headerStateOf (c : BmpConsts) (bytes : List Nat) : HeaderState :=
  readColorSpace c (readAlphaMask c (readColorMasks c
    { infoHead := (readInfoHeader (readFileHeader (readMagic bytes).1 (readMagic bytes).2).2).1
      file := (readInfoHeader (readFileHeader (readMagic bytes).1 (readMagic bytes).2).2).2
      infoHeadVersion := 1 }))

/-! ## Shared pieces of the two extractors -/

/-- The row buffer `char* row = new char[rowSize_bytes]`: no byte has a value yet. -/
def newRow (rowSize_bytes : Nat) : List (Option Nat) :=
  List.replicate rowSize_bytes none

/-- The call `file.read(row, rowSize_bytes)`: the bytes found overwrite the front of the
buffer, the rest of the buffer keeps what it held. -/
def readIntoRow (file : IFStream) (row : List (Option Nat)) (rowSize_bytes : Nat) :
    List (Option Nat) × IFStream :=
  (((file.read rowSize_bytes).1.map some) ++ row.drop (file.read rowSize_bytes).1.length,
    (file.read rowSize_bytes).2)

/-- The expression `row[k]`. -/
def readRow (row : List (Option Nat)) (k : Nat) : Except Fault Nat :=
  match row.get? k with
  | none => .error .outOfBounds
  | some none => .error .uninitialisedRead
  | some (some b) => .ok b

/-- Row count, start offset and row step (lines 157-164 and 210-217): for a negative height
the last row of the file is read first and the step is negative. -/
def rowPlan (fileHead : FileHeader) (infoHead : InfoHeader) (rowSize_bytes : Int) :
    Except Fault (Int × Int × Int) := do
  let numRows ← checkInt |infoHead._bmpHeight_px|
  let pixelOffset_bytes := toInt32 fileHead._pixelOffset_bytes
  if infoHead._bmpHeight_px < 0 then
    let span ← checkInt ((numRows - 1) * rowSize_bytes)
    let start ← checkInt (pixelOffset_bytes + span)
    let step ← checkInt (rowSize_bytes * -1)
    pure (numRows, start, step)
  else
    pure (numRows, pixelOffset_bytes, rowSize_bytes)

/-- The calls `_pixels.reserve(width * numRows)` and `new char[rowSize_bytes]`: the product is
an `int` product, and a negative size makes either call throw. -/
def allocate (infoHead : InfoHeader) (numRows rowSize_bytes : Int) :
    Except Fault (List (Option Nat)) :=
  match checkInt (infoHead._bmpWidth_px * numRows) with
  | .error e => .error e
  | .ok capacity =>
    if capacity < 0 then .error Fault.lengthError
    else if rowSize_bytes < 0 then .error Fault.lengthError
    else .ok (newRow rowSize_bytes.toNat)

/-- The row loop, which the two extractors share word for word (lines 172-174 with 192, and
lines 238-240 with 261): seek, read one row into the buffer, run the pixel loop `body` of
the extractor on the buffer, step the seek position.  The first argument counts the rows
still to be read. -/
def rowLoop (body : List (Option Nat) → List Color4u → Except Fault (List Color4u))
    (rowSize_bytes : Nat) (rowOffset_bytes : Int) :
    Nat → Int → IFStream → List (Option Nat) → List Color4u → Except Fault (List Color4u)
  | 0, _, _, _, pixels => .ok pixels
  | n + 1, seekPos, file, row, pixels =>
    match body (readIntoRow (file.seekg seekPos) row rowSize_bytes).1 pixels with
    | .error e => .error e
    | .ok pixels =>
      match checkInt (seekPos + rowOffset_bytes) with
      | .error e => .error e
      | .ok nextPos =>
        rowLoop body rowSize_bytes rowOffset_bytes n nextPos
          (readIntoRow (file.seekg seekPos) row rowSize_bytes).2
          (readIntoRow (file.seekg seekPos) row rowSize_bytes).1 pixels

/-! ## `BmpImage::extractIndexedPixels` -/

/-- Lines 137-148: the palette loop with its 8-bit counter `i`.  The first argument after the
colour count bounds the number of iterations. -/
def readPalette (numPaletteColors : Nat) :
    Nat → Nat → IFStream → List Color4u → Except Fault (List Color4u × IFStream)
  | 0, _, _, _ => .error .nonTermination
  | fuel + 1, i, file, palette =>
    if i < numPaletteColors then
      match (file.read 4).1 with
      | [b0, b1, b2, b3] =>
        readPalette numPaletteColors fuel ((i + 1) % 256) (file.read 4).2
          (palette ++ [⟨b2, b1, b0, b3⟩])
      | _ => .error .uninitialisedRead
    else .ok (palette, file)

/-- Lines 153-155: the 8-bit mask with the lowest `bitsPerPixel` bits set. -/
def indexMask (bitsPerPixel : Nat) : Nat :=
  (List.range bitsPerPixel).foldl (fun mask i => (mask ||| (0x01 <<< i)) % 256) 0

/-- Lines 181-191: the pixel loop of one row; the first argument counts the pixels still to
be extracted, the others are `byteNo`, `bytePixelNo`, `byte` and `_pixels`. -/
def indexedRow (bitsPerPixel numPixelsPerByte mask : Nat) (palette : List Color4u)
    (row : List (Option Nat)) :
    Nat → Nat → Nat → Nat → List Color4u → Except Fault (List Color4u)
  | 0, _, _, _, pixels => .ok pixels
  | n + 1, byteNo, bytePixelNo, byte, pixels =>
    if bytePixelNo ≥ numPixelsPerByte then
      match readRow row (byteNo + 1) with
      | .error e => .error e
      | .ok byte =>
        match palette.get? (((byte &&& (mask <<< (bitsPerPixel * (numPixelsPerByte - 1 - 0))))
            >>> (bitsPerPixel * (numPixelsPerByte - 1 - 0))) % 256) with
        | none => .error .outOfBounds
        | some color =>
          indexedRow bitsPerPixel numPixelsPerByte mask palette row n (byteNo + 1) (0 + 1) byte
            (pixels ++ [color])
    else
      match palette.get? (((byte &&& (mask <<< (bitsPerPixel * (numPixelsPerByte - 1 - bytePixelNo))))
          >>> (bitsPerPixel * (numPixelsPerByte - 1 - bytePixelNo))) % 256) with
      | none => .error .outOfBounds
      | some color =>
        indexedRow bitsPerPixel numPixelsPerByte mask palette row n byteNo (bytePixelNo + 1) byte
          (pixels ++ [color])

/-- Lines 176-191: what the row loop of `extractIndexedPixels` does with a row that was
read: `byte = row[0]`, then the pixel loop over `width` pixels. -/
def indexedRowBody (bitsPerPixel numPixelsPerByte mask : Nat) (palette : List Color4u)
    (width : Nat) (row : List (Option Nat)) (pixels : List Color4u) :
    Except Fault (List Color4u) :=
  match readRow row 0 with
  | .error e => .error e
  | .ok byte => indexedRow bitsPerPixel numPixelsPerByte mask palette row width 0 0 byte pixels

/-- The body of `BmpImage::extractIndexedPixels` (lines 134-194), called for 1, 2, 4 and 8
bits per pixel: the new content of `_pixels`.  The sum passed to `seekg` is an unsigned
32-bit sum.  The palette loop is given more iterations than it can use: every iteration
consumes four bytes of the file or stops the run. -/
def extractIndexedPixels (c : BmpConsts) (file : IFStream) (fileHead : FileHeader)
    (infoHead : InfoHeader) (pixels : List Color4u) : Except Fault (List Color4u) := do
  let file := file.seekg (((c.FILEHEADER_SIZE_BYTES + infoHead._headerSize_bytes) % 2 ^ 32 : Nat) : Int)
  let (palette, file) ← readPalette infoHead._numPaletteColors (file.bytes.length + 1) 0 file []
  let rowSize_bytes ← rowSizeBytes infoHead._bitsPerPixel infoHead._bmpWidth_px
  let numPixelsPerByte := 8 / infoHead._bitsPerPixel
  let mask := indexMask infoHead._bitsPerPixel
  let (numRows, seekPos, rowOffset_bytes) ← rowPlan fileHead infoHead rowSize_bytes
  let row ← allocate infoHead numRows rowSize_bytes
  rowLoop
    (indexedRowBody infoHead._bitsPerPixel numPixelsPerByte mask palette infoHead._bmpWidth_px.toNat)
    rowSize_bytes.toNat rowOffset_bytes numRows.toNat seekPos file row pixels

/-! ## `BmpImage::extractPixels` -/

/-- Lines 226-230: the scan `while((mask & (0x01 << shift)) == 0) ++shift;`.  The first
argument is 32 minus the shift: when it is used up the next shift would be by 32. -/
def scanShift (mask : Nat) : Nat → Nat → Except Fault Nat
  | 0, _ => .error .shiftTooLarge
  | fuel + 1, shift =>
    if mask &&& (0x01 <<< shift) = 0 then scanShift mask fuel (shift + 1) else .ok shift

/-- Lines 229-230: the alpha mask is scanned only when it is not zero. -/
def scanAlphaShift (alphaMask : Nat) : Except Fault Nat :=
  if alphaMask ≠ 0 then scanShift alphaMask 32 0 else .ok 0

/-- Lines 244-252: the bytes of pixel `j`, byte `k` placed at bit `8 * k` of a 32-bit value. -/
def rawPixelBytes (row : List (Option Nat)) (pixelSize_bytes j : Nat) : Except Fault Nat :=
  (List.range pixelSize_bytes).foldlM
    (fun rawPixelBytes k =>
      match readRow row (j * pixelSize_bytes + k) with
      | .error e => .error e
      | .ok pixelByte => .ok (rawPixelBytes ||| ((pixelByte <<< (k * 8)) % 2 ^ 32)))
    0

/-- Lines 254-259: the colour of a raw pixel value, every channel truncated to 8 bits. -/
def maskedColor (infoHead : InfoHeader) (redShift greenShift blueShift alphaShift : Nat)
    (rawPixelBytes : Nat) : Color4u :=
  ⟨((rawPixelBytes &&& infoHead._redMask) >>> redShift) % 256,
   ((rawPixelBytes &&& infoHead._greenMask) >>> greenShift) % 256,
   ((rawPixelBytes &&& infoHead._blueMask) >>> blueShift) % 256,
   ((rawPixelBytes &&& infoHead._alphaMask) >>> alphaShift) % 256⟩

/-- Lines 243-260: the pixel loop of one row; the first argument counts the pixels still to
be extracted, the second is `j`. -/
def directRow (infoHead : InfoHeader) (pixelSize_bytes redShift greenShift blueShift alphaShift : Nat)
    (row : List (Option Nat)) : Nat → Nat → List Color4u → Except Fault (List Color4u)
  | 0, _, pixels => .ok pixels
  | n + 1, j, pixels =>
    match rawPixelBytes row pixelSize_bytes j with
    | .error e => .error e
    | .ok raw =>
      directRow infoHead pixelSize_bytes redShift greenShift blueShift alphaShift row n (j + 1)
        (pixels ++ [maskedColor infoHead redShift greenShift blueShift alphaShift raw])

/-- Lines 243-260: what the row loop of `extractPixels` does with a row that was read: the
pixel loop over `width` pixels. -/
def directRowBody (infoHead : InfoHeader)
    (pixelSize_bytes redShift greenShift blueShift alphaShift : Nat)
    (row : List (Option Nat)) (pixels : List Color4u) : Except Fault (List Color4u) :=
  directRow infoHead pixelSize_bytes redShift greenShift blueShift alphaShift row
    infoHead._bmpWidth_px.toNat 0 pixels

/-- The body of `BmpImage::extractPixels` (lines 197-264), called for 16, 24 and 32 bits per
pixel: the new content of `_pixels`. -/
def extractPixels (file : IFStream) (fileHead : FileHeader) (infoHead : InfoHeader)
    (pixels : List Color4u) : Except Fault (List Color4u) := do
  let rowSize_bytes ← rowSizeBytes infoHead._bitsPerPixel infoHead._bmpWidth_px
  let pixelSize_bytes := infoHead._bitsPerPixel / 8
  let (numRows, seekPos, rowOffset_bytes) ← rowPlan fileHead infoHead rowSize_bytes
  let redShift ← scanShift infoHead._redMask 32 0
  let greenShift ← scanShift infoHead._greenMask 32 0
  let blueShift ← scanShift infoHead._blueMask 32 0
  let alphaShift ← scanAlphaShift infoHead._alphaMask
  let row ← allocate infoHead numRows rowSize_bytes
  rowLoop (directRowBody infoHead pixelSize_bytes redShift greenShift blueShift alphaShift)
    rowSize_bytes.toNat rowOffset_bytes numRows.toNat seekPos file row pixels

/-! ## `BmpImage::load` -/

/-- Lines 97-123 of the switch: the masks handed to `extractPixels`. -/
def resolveMasks (c : BmpConsts) (infoHead : InfoHeader) (infoHeadVersion : Nat) : InfoHeader :=
  if infoHead._bitsPerPixel = 16 then
    if infoHead._compression = c.BI_RGB then
      { infoHead with
        _redMask := 0x007c00, _greenMask := 0x0003e0, _blueMask := 0x00001f,
        _alphaMask := if infoHeadVersion < 3 then 0x8000 else infoHead._alphaMask }
    else infoHead
  else if infoHead._bitsPerPixel = 24 then
    { infoHead with
      _redMask := 0xff0000, _greenMask := 0x00ff00, _blueMask := 0x0000ff, _alphaMask := 0x000000 }
  else if infoHead._bitsPerPixel = 32 then
    if infoHead._compression = c.BI_RGB then
      { infoHead with
        _redMask := 0xff0000, _greenMask := 0x00ff00, _blueMask := 0x0000ff,
        _alphaMask := if infoHeadVersion < 3 then 0xff000000 else infoHead._alphaMask }
    else infoHead
  else infoHead

/-- Lines 89-124: the switch on the bits per pixel; any other depth extracts nothing. -/
def extract (c : BmpConsts) (file : IFStream) (fileHead : FileHeader) (infoHead : InfoHeader)
    (infoHeadVersion : Nat) (pixels : List Color4u) : Except Fault (List Color4u) :=
  if infoHead._bitsPerPixel = 1 ∨ infoHead._bitsPerPixel = 2 ∨ infoHead._bitsPerPixel = 4 ∨
      infoHead._bitsPerPixel = 8 then
    extractIndexedPixels c file fileHead infoHead pixels
  else if infoHead._bitsPerPixel = 16 ∨ infoHead._bitsPerPixel = 24 ∨
      infoHead._bitsPerPixel = 32 then
    extractPixels file fileHead (resolveMasks c infoHead infoHeadVersion) pixels
  else .ok pixels

/-- The member `BmpImage::load`.  The file is `none` when it cannot be opened.  The pixel
buffer is cleared first (line 21); the magic is compared before anything else is read; the
colour-space tag is compared before the compression; width and height are stored only on the
way to `return true`. -/
def load (c : BmpConsts) (file : Option (List Nat)) (self : BmpImage) : Except Fault LoadResult :=
  match file with
  | none => .ok ⟨false, { self with _pixels := [] }, [LogMsg.msg_bmp_fail_open]⟩
  | some bytes =>
    if (readMagic bytes).1 ≠ c.BMPMAGIC then
      .ok ⟨false, { self with _pixels := [] }, [LogMsg.msg_bmp_corrupted]⟩
    else if (headerStateOf c bytes).infoHead._headerSize_bytes ≥ c.V4INFOHEADER_SIZE_BYTES ∧
        (headerStateOf c bytes).infoHead._colorSpaceMagic ≠ c.SRGBMAGIC then
      .ok ⟨false, { self with _pixels := [] }, [LogMsg.msg_bmp_unsupported_colorspace]⟩
    else if (headerStateOf c bytes).infoHead._compression ≠ c.BI_RGB ∧
        (headerStateOf c bytes).infoHead._compression ≠ c.BI_BITFIELDS then
      .ok ⟨false, { self with _pixels := [] }, [LogMsg.msg_bmp_unsupported_compression]⟩
    else
      match extract c (markVersion5 c (headerStateOf c bytes)).file (fileHeaderOf bytes)
          (markVersion5 c (headerStateOf c bytes)).infoHead
          (markVersion5 c (headerStateOf c bytes)).infoHeadVersion [] with
      | .error e => .error e
      | .ok pixels =>
        .ok ⟨true,
          ⟨pixels, (headerStateOf c bytes).infoHead._bmpWidth_px,
            (headerStateOf c bytes).infoHead._bmpHeight_px⟩, []⟩

/-! ## Test inputs -/

/-- The `n` little-endian bytes of `v`. -/
def leBytes (n v : Nat) : List Nat :=
  (List.range n).map (fun i => (v / 256 ^ i) % 256)

/-- The 54 bytes of a file header and a base info header with the given declared size, width,
height, bits per pixel, compression, palette colour count and pixel-data offset (width and
height as 32-bit patterns). -/
def sampleHeader (size width height bitsPerPixel compression numPaletteColors pixelOffset : Nat) :
    List Nat :=
  [0x42, 0x4D] ++ leBytes 4 0 ++ leBytes 2 0 ++ leBytes 2 0 ++ leBytes 4 pixelOffset ++
  leBytes 4 size ++ leBytes 4 width ++ leBytes 4 height ++ leBytes 2 1 ++
  leBytes 2 bitsPerPixel ++ leBytes 4 compression ++ leBytes 4 0 ++ leBytes 4 0 ++
  leBytes 4 0 ++ leBytes 4 numPaletteColors ++ leBytes 4 0

/-- An image object that already holds one pixel of an earlier load. -/
def usedImage : BmpImage := ⟨[⟨9, 9, 9, 9⟩], 1, 1⟩

/-- Bit depths for which `load` calls an extractor. -/
def SupportedDepth (bitsPerPixel : Nat) : Prop :=
  bitsPerPixel = 1 ∨ bitsPerPixel = 2 ∨ bitsPerPixel = 4 ∨ bitsPerPixel = 8 ∨
    bitsPerPixel = 16 ∨ bitsPerPixel = 24 ∨ bitsPerPixel = 32

instance instDecidableSupportedDepth (bitsPerPixel : Nat) :
    Decidable (SupportedDepth bitsPerPixel) := by
  unfold SupportedDepth
  infer_instance

/-- A 24-bit image of 2 by 2 pixels, bottom-up, rows padded to 8 bytes. -/
def sample24 : List Nat :=
  sampleHeader 40 2 2 24 0 0 54 ++ [1, 2, 3, 4, 5, 6, 0, 0, 7, 8, 9, 10, 11, 12, 0, 0]

/-- Follows the spec's words (section 4.2 step 5 with the formula of claim C9), not the code:
pixel `x` of a row is the palette entry whose index is the group of `bitsPerPixel` bits of row
byte `x div p`, the most significant group first, `p = 8 / bitsPerPixel`.  The first argument
counts the pixels still to come, the second is `x`. -/
def specIndexedRow (bitsPerPixel : Nat) (palette : List Color4u) (row : List (Option Nat)) :
    Nat → Nat → List Color4u → Except Fault (List Color4u)
  | 0, _, pixels => .ok pixels
  | n + 1, x, pixels =>
    match readRow row (x / (8 / bitsPerPixel)) with
    | .error e => .error e
    | .ok rowByte =>
      match palette.get? ((rowByte >>> (bitsPerPixel * (8 / bitsPerPixel - 1 - x % (8 / bitsPerPixel))))
          &&& (2 ^ bitsPerPixel - 1)) with
      | none => .error .outOfBounds
      | some color => specIndexedRow bitsPerPixel palette row n (x + 1) (pixels ++ [color])

/-- Bit depths of palette-indexed images. -/
def IndexedDepth (bitsPerPixel : Nat) : Prop :=
  bitsPerPixel = 1 ∨ bitsPerPixel = 2 ∨ bitsPerPixel = 4 ∨ bitsPerPixel = 8

instance instDecidableIndexedDepth (bitsPerPixel : Nat) :
    Decidable (IndexedDepth bitsPerPixel) := by
  unfold IndexedDepth
  infer_instance

/-- The unpacked palette index of pixel `x` of a row, as claim C9 writes it:
`(rowByte[x div p] >> (b × (p − 1 − (x mod p)))) & (2^b − 1)` with `p = 8 / b`. -/
def unpackedIndex (bitsPerPixel : Nat) (rowBytes : List Nat) (x : Nat) : Nat :=
  ((rowBytes.getD (x / (8 / bitsPerPixel)) 0) >>>
      (bitsPerPixel * (8 / bitsPerPixel - 1 - x % (8 / bitsPerPixel)))) &&&
    (2 ^ bitsPerPixel - 1)

/-- The colour built from the four file bytes at offset `q`, stored as blue, green, red,
alpha. -/
def paletteEntryAt (bytes : List Nat) (q : Nat) : Color4u :=
  ⟨bytes.getD (q + 2) 0 % 256, bytes.getD (q + 1) 0 % 256, bytes.getD q 0 % 256,
    bytes.getD (q + 3) 0 % 256⟩

/-- An 8-bit image of one pixel with a palette of one colour; the pixel byte is 1, an index
equal to the palette length. -/
def sampleIndexBeyondPalette : List Nat :=
  sampleHeader 40 1 1 8 0 1 58 ++ [10, 20, 30, 40] ++ [1, 0, 0, 0]

/-- The image `sample24` cut off behind its first row: 8 of the 16 bytes of pixel rows. -/
def sample24Truncated : List Nat :=
  sampleHeader 40 2 2 24 0 0 54 ++ [1, 2, 3, 4, 5, 6, 0, 0]

/-- The bytes that a complete read of `rowSize_bytes` bytes at file offset `q` stores in the
row buffer. -/
def rowChunk (bytes : List Nat) (rowSize_bytes q : Nat) : List Nat :=
  ((bytes.drop q).take rowSize_bytes).map (fun b => b % 256)

/-- Follows the spec's words (section 4.2 step 4), not the code: the file rows in the order
in which the buffer rows are built, row `i` being the `rowSize_bytes` bytes at offset
`start + i × step`. -/
def rowsRead (bytes : List Nat) (rowSize_bytes : Nat) (start step : Int) (k : Nat) :
    List (List Nat) :=
  (List.range k).map (fun (i : Nat) => rowChunk bytes rowSize_bytes (start + (i : Int) * step).toNat)

/-- Follows the spec's words (section 4.2 step 5), not the code: the pixel loop `body` applied
to a list of rows, one row after the other, each row complete in the buffer. -/
def foldRows (body : List (Option Nat) → List Color4u → Except Fault (List Color4u)) :
    List (List Nat) → List Color4u → Except Fault (List Color4u)
  | [], pixels => .ok pixels
  | r :: rs, pixels =>
    match body (r.map some) pixels with
    | .error e => .error e
    | .ok pixels => foldRows body rs pixels

/-- The two rows of `sample24`, bottom row first. -/
def sample24Rows : List (List Nat) :=
  [[1, 2, 3, 4, 5, 6, 0, 0], [7, 8, 9, 10, 11, 12, 0, 0]]

/-- The picture of `sample24` stored top-down: height -2 (0xFFFFFFFE) and the rows in reverse
order. -/
def sample24TopDown : List Nat :=
  sampleHeader 40 2 0xFFFFFFFE 24 0 0 54 ++ sample24Rows.reverse.flatten

/-- The number of bytes of a row that hold pixels, `ceil(bitsPerPixel × width / 8)`; the
bytes of the row behind them are padding. -/
def usedRowBytes (bitsPerPixel : Nat) (width : Int) : Nat :=
  (bitsPerPixel * width.toNat + 7) / 8

/-- An 8-bit image of 3 by 2 pixels with a palette of three colours: rows of 3 pixel bytes
and one padding byte (row size 4). -/
def sample8 : List Nat :=
  sampleHeader 40 3 2 8 0 3 66 ++ [10, 20, 30, 0, 11, 21, 31, 0, 12, 22, 32, 0] ++
    [0, 1, 2, 0, 2, 1, 0, 0]

/-- The image `sample8` with both padding bytes changed. -/
def sample8Padded : List Nat :=
  sampleHeader 40 3 2 8 0 3 66 ++ [10, 20, 30, 0, 11, 21, 31, 0, 12, 22, 32, 0] ++
    [0, 1, 2, 200, 2, 1, 0, 77]

/-- The position `s` is the lowest set bit of `mask`. -/
def LowestSetBit (mask s : Nat) : Prop :=
  mask.testBit s = true ∧ ∀ j, j < s → mask.testBit j = false

/-- The value `b 0 + b 1 × 256 + ... + b (n-1) × 256^(n-1)` of `n` pixel bytes. -/
def rawValue (b : Nat → Nat) (n : Nat) : Nat :=
  ((List.range n).map (fun k => b k * 256 ^ k)).sum

/-- The decoded channel as claim C11 writes it: `((v & m) >> s) mod 256`. -/
def channelValue (v mask shift : Nat) : Nat :=
  ((v &&& mask) >>> shift) % 256

/-- A 16-bit uncompressed image of one pixel with the raw value 0x7FFF. -/
def sample16 : List Nat :=
  sampleHeader 40 1 1 16 0 0 54 ++ [0xFF, 0x7F, 0, 0]

/-- A 16-bit uncompressed image of one pixel whose header has the revision-2 size 52 and
supplies the 5-6-5 masks 0xF800, 0x07E0, 0x001F. -/
def sample16Masks : List Nat :=
  sampleHeader 52 1 1 16 0 0 66 ++ leBytes 4 0xF800 ++ leBytes 4 0x07E0 ++ leBytes 4 0x001F ++
    [0xFF, 0x7F, 0, 0]

/-- A 24-bit image of one pixel with bit-fields compression whose header (base size 40)
supplies the masks 0x0000FF, 0x00FF00, 0xFF0000. -/
def sample24Bitfields : List Nat :=
  sampleHeader 40 1 1 24 3 0 66 ++ leBytes 4 0x0000FF ++ leBytes 4 0x00FF00 ++
    leBytes 4 0xFF0000 ++ [1, 2, 3, 0]

/-- A 16-bit image of one pixel with bit-fields compression whose header (base size 40)
supplies the 5-6-5 masks 0xF800, 0x07E0, 0x001F. -/
def sample16Bitfields : List Nat :=
  sampleHeader 40 1 1 16 3 0 66 ++ leBytes 4 0xF800 ++ leBytes 4 0x07E0 ++ leBytes 4 0x001F ++
    [0xFF, 0xFF, 0, 0]

/-- An 8-bit image of one pixel whose header declares 256 palette colours; the file holds all
1024 palette bytes (grey ramp) and the row of the pixel. -/
def sample256 : List Nat :=
  sampleHeader 40 1 1 8 0 256 1078 ++
    (List.range 256).flatMap (fun i => [i, i, i, 0]) ++ [5, 0, 0, 0]

/-- Follows the spec's words (claim C17), not the code: the header revision as a function of
the declared info-header size `s` and the compression. -/
def specRevision (c : BmpConsts) (s compression : Nat) : Nat :=
  if s ≥ c.V5INFOHEADER_SIZE_BYTES then 5
  else if s ≥ c.V4INFOHEADER_SIZE_BYTES then 4
  else if s ≥ c.V3INFOHEADER_SIZE_BYTES then 3
  else if s ≥ c.V2INFOHEADER_SIZE_BYTES ∨
      (s = c.V1INFOHEADER_SIZE_BYTES ∧ compression = c.BI_BITFIELDS) then 2
  else 1

/-- A 32-bit uncompressed image of one pixel stored as the bytes 1, 2, 3, 4. -/
def sample32 : List Nat :=
  sampleHeader 40 1 1 32 0 0 54 ++ [1, 2, 3, 4]

/-- A header for a 2 by 2 image with 3 bits per pixel, a depth that no extractor handles,
followed by 8 bytes. -/
def sampleDepth3 : List Nat :=
  sampleHeader 40 2 2 3 0 0 54 ++ [1, 2, 3, 4, 5, 6, 7, 8]

/-- The image `sample16Bitfields` with a red mask of zero in the file. -/
def sample16ZeroMask : List Nat :=
  sampleHeader 40 1 1 16 3 0 66 ++ leBytes 4 0 ++ leBytes 4 0x07E0 ++ leBytes 4 0x001F ++
    [0xFF, 0xFF, 0, 0]

/-- An 8-bit image of width 0 and height 1, without a palette. -/
def sample8NoWidth : List Nat :=
  sampleHeader 40 0 1 8 0 0 54

/-- A 24-bit image of width 0 and height 1. -/
def sample24NoWidth : List Nat :=
  sampleHeader 40 0 1 24 0 0 54

/-- The object after `sample24` was loaded into it. -/
def loadedImage : BmpImage :=
  ⟨[⟨3, 2, 1, 0⟩, ⟨6, 5, 4, 0⟩, ⟨9, 8, 7, 0⟩, ⟨12, 11, 10, 0⟩], 2, 2⟩

/-! ## Cutscene playback (`cutscene.cpp`) -/

/-- The operations on `float` values that `cutscene.cpp` uses, on a carrier `F` (comparisons
as the `bool` the code branches on; `lerp` is declared outside `cutscene.cpp`).  Definitions
and general theorems take the arithmetic as a parameter, so they hold for every one, IEEE
single precision with its rounding, infinities and NaN included. -/
structure FloatOps (F : Type) where
  zero : F
  one : F
  add : F → F → F
  sub : F → F → F
  div : F → F → F
  gt : F → F → Bool
  le : F → F → Bool
  eq : F → F → Bool
  lerp : F → F → F → F

/-- A fraction `num / den`, not normalised. -/
structure Frac where
  num : Int
  den : Nat
deriving DecidableEq, Repr

/-- Exact arithmetic on fractions, used to evaluate examples: on the values of the examples
(0, 1, 2 and 1/2) single-precision arithmetic is exact as well. -/
def fracOps : FloatOps Frac where
  zero := ⟨0, 1⟩
  one := ⟨1, 1⟩
  add := fun a b => ⟨a.num * b.den + b.num * a.den, a.den * b.den⟩
  sub := fun a b => ⟨a.num * b.den - b.num * a.den, a.den * b.den⟩
  div := fun a b => ⟨a.num * b.den * b.num.sign, a.den * b.num.natAbs⟩
  gt := fun a b => decide (a.num * b.den > b.num * a.den)
  le := fun a b => decide (a.num * b.den ≤ b.num * a.den)
  eq := fun a b => decide (a.num * b.den = b.num * a.den)
  lerp := fun v0 v1 t =>
    ⟨v0.num * (t.den * (v1.den * v0.den)) + t.num * (v1.num * v0.den - v0.num * v1.den) * v0.den,
      v0.den * (t.den * (v1.den * v0.den))⟩

/-- The enumeration `Animation::Mode`; the constructor asserts
`STATIC <= _mode && _mode <= RAND`. -/
inductive Mode where
  | STATIC
  | LOOP
  | RAND
deriving DecidableEq, Repr

/-- The data members of `Animation` (initialiser list of lines 27-37). -/
structure Animation (F : Type) where
  _mode : Mode
  _spriteKey : Int
  _frame : Int
  _startFrame : Int
  _layer : Int
  _frameCount : Int
  _framePeriod : F
  _frameFrequency : F
  _frameClock : F
deriving DecidableEq, Repr

/-- The constructor `Animation::Animation` (lines 27-45).  `getSpriteFrameCount` stands for
`gfx::getSpriteFrameCount`, which is defined outside `cutscene.cpp`; a failing
`assert(startFrame < _frameCount)` is `none`. -/
def newAnimation {F : Type} (ops : FloatOps F) (getSpriteFrameCount : Int → Int)
    (spriteKey startFrame layer : Int) (frameFrequency : F) (mode : Mode) :
    Option (Animation F) :=
  if startFrame < getSpriteFrameCount spriteKey then
    some
      { _mode := if ops.eq frameFrequency ops.zero then Mode.STATIC else mode
        _spriteKey := spriteKey
        _frame := startFrame
        _startFrame := startFrame
        _layer := layer
        _frameCount := getSpriteFrameCount spriteKey
        _framePeriod := ops.div ops.one frameFrequency
        _frameFrequency := frameFrequency
        _frameClock := ops.zero }
  else none

/-- Line 67 of `Animation::update`: `if(_frame > _frameCount) _frame = 0;`. -/
def wrapFrame (frame frameCount : Int) : Int :=
  if frame > frameCount then 0 else frame

/-- The member function `Animation::update` (lines 47-69): the returned flag and the object
afterwards.  `++_frame` is an `int` increment. -/
def Animation.update {F : Type} (ops : FloatOps F) (self : Animation F) (dt : F) :
    Except Fault (Bool × Animation F) :=
  if self._mode = Mode.STATIC then .ok (false, self)
  else if ops.gt (ops.add self._frameClock dt) self._framePeriod then
    match (if self._mode = Mode.LOOP then checkInt (self._frame + 1)
        else if self._mode = Mode.RAND then checkInt (self._frame + 1)
        else .ok self._frame) with
    | .error e => .error e
    | .ok frame =>
      .ok (true, { self with
        _frame := wrapFrame frame self._frameCount
        _frameClock := ops.zero })
  else
    .ok (false, { self with
      _frame := wrapFrame self._frame self._frameCount
      _frameClock := ops.add self._frameClock dt })

/-- A sequence of calls of `Animation::update`, one for each time step. -/
def Animation.updates {F : Type} (ops : FloatOps F) (self : Animation F) (dts : List F) :
    Except Fault (Animation F) :=
  dts.foldlM (fun a dt => (Animation.update ops a dt).map Prod.snd) self

/-- The type `Vector2f` of a position. -/
structure Vector2f (F : Type) where
  _x : F
  _y : F
deriving DecidableEq, Repr

/-- A point `Transition::TPoint` of a transition: a position and the phase at which it is
reached. -/
structure TPoint (F : Type) where
  _position : Vector2f F
  _phase : F
deriving DecidableEq, Repr

/-- The data members of `Transition` (initialiser list of lines 77-84); `_from` and `_to`
index `_points`. -/
structure Transition (F : Type) where
  _points : List (TPoint F)
  _position : Vector2f F
  _duration : F
  _clock : F
  _from : Nat
  _to : Nat
  _isDone : Bool
deriving DecidableEq, Repr

/-- Insertion of a point before the first point that the comparator of line 91
(`p0._phase <= p1._phase`) places it before. -/
def insertPoint {F : Type} (ops : FloatOps F) (p : TPoint F) : List (TPoint F) → List (TPoint F)
  | [] => [p]
  | q :: rest =>
    if ops.le p._phase q._phase then p :: q :: rest else q :: insertPoint ops p rest

/-- The call `std::sort(_points.begin(), _points.end(), ...)` of lines 90-92, as an insertion
sort: for phases that differ pairwise the ascending order is the only possible result. -/
def sortPoints {F : Type} (ops : FloatOps F) : List (TPoint F) → List (TPoint F)
  | [] => []
  | p :: rest => insertPoint ops p (sortPoints ops rest)

/-- The constructor `Transition::Transition` (lines 77-100).  A failing
`assert(_points.size() != 0)` is `none`.  The loop of lines 87-88 discards the result of
`std::clamp`, so it leaves the phases as they are. -/
def newTransition {F : Type} (ops : FloatOps F) (points : List (TPoint F)) (duration : F) :
    Option (Transition F) :=
  if points.length = 0 then none
  else
    match sortPoints ops points with
    | [] => none
    | front :: rest =>
      if (front :: rest).length = 1 ∨ ops.eq duration ops.zero = true then
        some ⟨front :: rest, front._position, duration, ops.zero, 0, 0, true⟩
      else
        some ⟨front :: rest, ⟨ops.zero, ops.zero⟩, duration, ops.zero, 0, 1, false⟩

/-- The expression `_points[i]`. -/
def readPoint {F : Type} (points : List (TPoint F)) (i : Nat) : Except Fault (TPoint F) :=
  match points.get? i with
  | none => .error .outOfBounds
  | some p => .ok p

/-- Lines 111-120 of `Transition::update`: the phase, `_from`, `_to` and `_isDone` after the
comparison of the phase with the phase of the point `_points[_to]`. -/
def advance {F : Type} (ops : FloatOps F) (self : Transition F) (phase : F) (pTo : TPoint F) :
    F × Nat × Nat × Bool :=
  if ops.gt phase pTo._phase then
    if ops.eq pTo._phase ops.one then (ops.one, self._from, self._to, true)
    else (phase, self._from + 1, self._to + 1, self._isDone)
  else (phase, self._from, self._to, self._isDone)

/-- The member function `Transition::update` (lines 102-128): the returned flag and the
object afterwards. -/
def Transition.update {F : Type} (ops : FloatOps F) (self : Transition F) (dt : F) :
    Except Fault (Bool × Transition F) :=
  if self._isDone then .ok (false, self)
  else
    match readPoint self._points self._to with
    | .error e => .error e
    | .ok pTo =>
      match readPoint self._points
          (advance ops self (ops.div (ops.add self._clock dt) self._duration) pTo).2.1,
        readPoint self._points
          (advance ops self (ops.div (ops.add self._clock dt) self._duration) pTo).2.2.1 with
      | .error e, _ => .error e
      | .ok _, .error e => .error e
      | .ok p0, .ok p1 =>
        .ok (true,
          { self with
            _clock := ops.add self._clock dt
            _from := (advance ops self (ops.div (ops.add self._clock dt) self._duration) pTo).2.1
            _to := (advance ops self (ops.div (ops.add self._clock dt) self._duration) pTo).2.2.1
            _isDone :=
              (advance ops self (ops.div (ops.add self._clock dt) self._duration) pTo).2.2.2
            _position :=
              ⟨ops.lerp p0._position._x p1._position._x
                (ops.sub (advance ops self (ops.div (ops.add self._clock dt) self._duration)
                  pTo).1 p0._phase),
               ops.lerp p0._position._y p1._position._y
                (ops.sub (advance ops self (ops.div (ops.add self._clock dt) self._duration)
                  pTo).1 p0._phase)⟩ })

/-- A sequence of calls of `Transition::update`, one for each time step. -/
def Transition.updates {F : Type} (ops : FloatOps F) (self : Transition F) (dts : List F) :
    Except Fault (Transition F) :=
  dts.foldlM (fun t dt => (Transition.update ops t dt).map Prod.snd) self

/-- The indices of a transition are in range: both index a point, and while the transition is
not done `_from` is below `_to`. -/
def Transition.InRange {F : Type} (t : Transition F) : Prop :=
  t._from < t._points.length ∧ t._to < t._points.length ∧ (t._isDone = false → t._from < t._to)

/-- Two points with the phases 0 and 1/2, and no point of phase 1. -/
def samplePoints : List (TPoint Frac) :=
  [⟨⟨⟨0, 1⟩, ⟨0, 1⟩⟩, ⟨0, 1⟩⟩, ⟨⟨⟨8, 1⟩, ⟨8, 1⟩⟩, ⟨1, 2⟩⟩]

/-- Two points with the phases 0 and 1. -/
def samplePointsToOne : List (TPoint Frac) :=
  [⟨⟨⟨0, 1⟩, ⟨0, 1⟩⟩, ⟨0, 1⟩⟩, ⟨⟨⟨8, 1⟩, ⟨8, 1⟩⟩, ⟨1, 1⟩⟩]

/-! # Properties -/

/-! ## Header checks -/

theorem readMagic_eq_iff (bytes : List Nat) :
    (readMagic bytes).1 = 0x4D42 ↔ (bytes.take 2).map (fun b => b % 256) = [0x42, 0x4D] := by
  rcases bytes with _ | ⟨a, _ | ⟨b, rest⟩⟩
  · simp [readMagic, IFStream.readField, IFStream.read, leValue]
  · simp [readMagic, IFStream.readField, IFStream.read, leValue]
    omega
  · simp [readMagic, IFStream.readField, IFStream.read, leValue]
    omega

/-- C2: a stream whose first two bytes are not "BM" (also a stream of fewer than two bytes)
makes `load` return false with the corrupt-file message, whatever the object held before; the
result is the same for every continuation of the stream, and the pixel buffer is empty. -/
theorem load_bad_magic (c : BmpConsts) (bytes : List Nat) (self : BmpImage)
    (hc : c.BMPMAGIC = 0x4D42)
    (h : (bytes.take 2).map (fun b => b % 256) ≠ [0x42, 0x4D]) :
    load c (some bytes) self =
      .ok ⟨false, ⟨[], self._width_px, self._height_px⟩, [LogMsg.msg_bmp_corrupted]⟩ := by
  have hm : (readMagic bytes).1 ≠ c.BMPMAGIC := by
    rw [hc]
    exact fun e => h ((readMagic_eq_iff bytes).1 e)
  simp [load, hm]

theorem load_bad_magic_witness :
    load bmpConsts (some [0x42]) usedImage =
      .ok ⟨false, ⟨[], 1, 1⟩, [LogMsg.msg_bmp_corrupted]⟩ :=
  load_bad_magic bmpConsts [0x42] usedImage rfl (by decide)

/-- C3: whenever `load` returns false the pixel buffer is empty afterwards, for every input
(also a file that cannot be opened) and every prior content of the buffer. -/
theorem load_failure_clears_pixels (c : BmpConsts) (file : Option (List Nat)) (self : BmpImage)
    (r : LoadResult) (h : load c file self = .ok r) (hf : r.ok = false) :
    r.image._pixels = [] := by
  unfold load at h
  split at h
  · cases h; rfl
  · split_ifs at h
    · cases h; rfl
    · cases h; rfl
    · cases h; rfl
    · split at h
      · cases h
      · cases h; simp at hf

theorem load_failure_clears_pixels_witness :
    load bmpConsts (some (sampleHeader 40 1 1 24 2 0 54 ++ [1, 2, 3, 0])) usedImage =
        .ok ⟨false, ⟨[], 1, 1⟩, [LogMsg.msg_bmp_unsupported_compression]⟩ ∧
      ([] : List Color4u) = [] :=
  ⟨by decide,
    (load_failure_clears_pixels bmpConsts (some (sampleHeader 40 1 1 24 2 0 54 ++ [1, 2, 3, 0]))
      usedImage ⟨false, ⟨[], 1, 1⟩, [LogMsg.msg_bmp_unsupported_compression]⟩ (by decide) rfl).symm⟩

/-- C4 as stated fails: a revision-4 header (declared size 108) with the RLE compression
value 2 and a colour-space tag that is not the sRGB constant has a valid magic and an
unsupported compression, and `load` reports the colour space, not the compression. -/
theorem load_rle_reports_colorspace :
    (readMagic (sampleHeader 108 1 1 24 2 0 122 ++ List.replicate 72 0)).1 = bmpConsts.BMPMAGIC ∧
      (headerStateOf bmpConsts
        (sampleHeader 108 1 1 24 2 0 122 ++ List.replicate 72 0)).infoHead._compression = 2 ∧
      load bmpConsts (some (sampleHeader 108 1 1 24 2 0 122 ++ List.replicate 72 0)) usedImage =
        .ok ⟨false, ⟨[], 1, 1⟩, [LogMsg.msg_bmp_unsupported_colorspace]⟩ := by
  decide

/-- C4 (amended): with a valid magic and a compression that is neither uncompressed nor
bit-fields, `load` returns false with the unsupported-compression message and an empty pixel
buffer, provided the colour-space check is passed: the declared header size is below the
revision-4 size or the colour-space tag is the sRGB constant. -/
theorem load_unsupported_compression (c : BmpConsts) (bytes : List Nat) (self : BmpImage)
    (hm : (readMagic bytes).1 = c.BMPMAGIC)
    (hcomp : (headerStateOf c bytes).infoHead._compression ≠ c.BI_RGB ∧
      (headerStateOf c bytes).infoHead._compression ≠ c.BI_BITFIELDS)
    (hcs : (headerStateOf c bytes).infoHead._headerSize_bytes < c.V4INFOHEADER_SIZE_BYTES ∨
      (headerStateOf c bytes).infoHead._colorSpaceMagic = c.SRGBMAGIC) :
    load c (some bytes) self =
      .ok ⟨false, ⟨[], self._width_px, self._height_px⟩,
        [LogMsg.msg_bmp_unsupported_compression]⟩ := by
  have h4 : ¬ ((headerStateOf c bytes).infoHead._headerSize_bytes ≥ c.V4INFOHEADER_SIZE_BYTES ∧
      (headerStateOf c bytes).infoHead._colorSpaceMagic ≠ c.SRGBMAGIC) := by
    rintro ⟨h1, h2⟩
    rcases hcs with h | h
    · omega
    · exact h2 h
  simp only [load, hm, ne_eq, not_true_eq_false, if_false, h4, hcomp, not_false_eq_true,
    and_self, if_true]

theorem load_unsupported_compression_witness :
    load bmpConsts (some (sampleHeader 40 1 1 24 2 0 54 ++ [1, 2, 3, 0])) usedImage =
      .ok ⟨false, ⟨[], 1, 1⟩, [LogMsg.msg_bmp_unsupported_compression]⟩ :=
  load_unsupported_compression bmpConsts (sampleHeader 40 1 1 24 2 0 54 ++ [1, 2, 3, 0]) usedImage
    (by decide) (by decide) (by decide)

/-- C5: with a valid magic, a declared info-header size of at least the revision-4 size and a
colour-space tag other than the sRGB constant, `load` returns false with the
unsupported-colour-space message and an empty pixel buffer.  With a declared size below the
revision-4 size the tag is not read (the step that reads it leaves the header and the stream
as they are, so the field keeps its initial zero) and no run logs that message. -/
theorem load_colorspace (c : BmpConsts) (bytes : List Nat) (self : BmpImage) :
    ((readMagic bytes).1 = c.BMPMAGIC →
      (headerStateOf c bytes).infoHead._headerSize_bytes ≥ c.V4INFOHEADER_SIZE_BYTES →
      (headerStateOf c bytes).infoHead._colorSpaceMagic ≠ c.SRGBMAGIC →
      load c (some bytes) self =
        .ok ⟨false, ⟨[], self._width_px, self._height_px⟩,
          [LogMsg.msg_bmp_unsupported_colorspace]⟩) ∧
    ((headerStateOf c bytes).infoHead._headerSize_bytes < c.V4INFOHEADER_SIZE_BYTES →
      (∀ st : HeaderState, st.infoHead._headerSize_bytes < c.V4INFOHEADER_SIZE_BYTES →
        readColorSpace c st = st) ∧
      (headerStateOf c bytes).infoHead._colorSpaceMagic = 0 ∧
      ∀ r, load c (some bytes) self = .ok r →
        LogMsg.msg_bmp_unsupported_colorspace ∉ r.log) := by
  refine ⟨fun hm h4 htag => ?_, fun hlt => ⟨fun st hst => ?_, ?_, fun r hr => ?_⟩⟩
  · simp only [load, hm, ne_eq, not_true_eq_false, if_false, h4, htag, not_false_eq_true,
      and_self, if_true]
  · have : ¬ (st.infoHead._headerSize_bytes ≥ c.V4INFOHEADER_SIZE_BYTES) := by omega
    simp only [readColorSpace, this, if_false]
  · unfold headerStateOf at hlt ⊢
    unfold readColorSpace at hlt ⊢
    split_ifs at hlt ⊢ with h
    · simp only at hlt
      omega
    · simp only [readAlphaMask, readColorMasks, readInfoHeader]
      split_ifs <;> rfl
  · unfold load at hr
    simp only at hr
    split_ifs at hr with h1 h2 h3
    · cases hr; simp
    · omega
    · cases hr; simp
    · split at hr
      · cases hr
      · cases hr; simp

theorem load_colorspace_witness :
    load bmpConsts (some (sampleHeader 108 1 1 24 0 0 122 ++ List.replicate 72 0)) usedImage =
        .ok ⟨false, ⟨[], 1, 1⟩, [LogMsg.msg_bmp_unsupported_colorspace]⟩ ∧
      (headerStateOf bmpConsts
        (sampleHeader 40 1 1 24 0 0 54 ++ [1, 2, 3, 0])).infoHead._colorSpaceMagic = 0 :=
  ⟨(load_colorspace bmpConsts (sampleHeader 108 1 1 24 0 0 122 ++ List.replicate 72 0)
      usedImage).1 (by decide) (by decide) (by decide),
    ((load_colorspace bmpConsts (sampleHeader 40 1 1 24 0 0 54 ++ [1, 2, 3, 0])
      usedImage).2 (by decide)).2.1⟩

/-! ## Length of the pixel buffer -/

theorem bind_eq_ok {ε α β : Type} (x : Except ε α) (f : α → Except ε β) (b : β) :
    (x >>= f) = .ok b ↔ ∃ a, x = .ok a ∧ f a = .ok b := by
  cases x <;> simp [bind, Except.bind]

theorem checkInt_eq_ok (x y : Int) (h : checkInt x = .ok y) :
    y = x ∧ -(2 : Int) ^ 31 ≤ x ∧ x < (2 : Int) ^ 31 := by
  unfold checkInt at h
  split_ifs at h with hx
  cases h
  exact ⟨rfl, hx⟩

theorem indexedRow_length (bitsPerPixel numPixelsPerByte mask : Nat) (palette : List Color4u)
    (row : List (Option Nat)) (n : Nat) :
    ∀ (byteNo bytePixelNo byte : Nat) (pixels out : List Color4u),
      indexedRow bitsPerPixel numPixelsPerByte mask palette row n byteNo bytePixelNo byte pixels
        = .ok out → out.length = pixels.length + n := by
  induction n with
  | zero =>
    intro byteNo bytePixelNo byte pixels out h
    simp only [indexedRow] at h
    cases h
    rfl
  | succ n ih =>
    intro byteNo bytePixelNo byte pixels out h
    simp only [indexedRow] at h
    split_ifs at h
    · split at h
      · cases h
      · split at h
        · cases h
        · have := ih _ _ _ _ _ h
          simp at this
          omega
    · split at h
      · cases h
      · have := ih _ _ _ _ _ h
        simp at this
        omega

theorem rowLoop_length
    (body : List (Option Nat) → List Color4u → Except Fault (List Color4u)) (width : Nat)
    (hbody : ∀ row pixels out, body row pixels = .ok out → out.length = pixels.length + width)
    (rowSize_bytes : Nat) (rowOffset_bytes : Int) (n : Nat) :
    ∀ (seekPos : Int) (file : IFStream) (row : List (Option Nat)) (pixels out : List Color4u),
      rowLoop body rowSize_bytes rowOffset_bytes n seekPos file row pixels = .ok out →
      out.length = pixels.length + n * width := by
  induction n with
  | zero =>
    intro seekPos file row pixels out h
    simp only [rowLoop] at h
    cases h
    simp
  | succ n ih =>
    intro seekPos file row pixels out h
    simp only [rowLoop] at h
    split at h
    · cases h
    · rename_i px hrow
      split at h
      · cases h
      · have h1 := hbody _ _ _ hrow
        have h2 := ih _ _ _ _ _ h
        rw [h2, h1, Nat.succ_mul]
        omega

theorem indexedRowBody_length (bitsPerPixel numPixelsPerByte mask : Nat)
    (palette : List Color4u) (width : Nat) (row : List (Option Nat)) (pixels out : List Color4u)
    (h : indexedRowBody bitsPerPixel numPixelsPerByte mask palette width row pixels = .ok out) :
    out.length = pixels.length + width := by
  unfold indexedRowBody at h
  split at h
  · cases h
  · exact indexedRow_length _ _ _ _ _ _ _ _ _ _ _ h

theorem directRow_length (infoHead : InfoHeader)
    (pixelSize_bytes redShift greenShift blueShift alphaShift : Nat) (row : List (Option Nat))
    (n : Nat) :
    ∀ (j : Nat) (pixels out : List Color4u),
      directRow infoHead pixelSize_bytes redShift greenShift blueShift alphaShift row n j pixels
        = .ok out → out.length = pixels.length + n := by
  induction n with
  | zero =>
    intro j pixels out h
    simp only [directRow] at h
    cases h
    rfl
  | succ n ih =>
    intro j pixels out h
    simp only [directRow] at h
    split at h
    · cases h
    · have := ih _ _ _ h
      simp at this
      omega

theorem rowPlan_numRows (fileHead : FileHeader) (infoHead : InfoHeader) (rowSize_bytes : Int)
    (numRows seekPos rowOffset_bytes : Int)
    (h : rowPlan fileHead infoHead rowSize_bytes = .ok (numRows, seekPos, rowOffset_bytes)) :
    numRows = |infoHead._bmpHeight_px| := by
  unfold rowPlan at h
  rw [bind_eq_ok] at h
  obtain ⟨a, ha, h⟩ := h
  have ha := (checkInt_eq_ok _ _ ha).1
  split_ifs at h
  · simp only [bind_eq_ok] at h
    obtain ⟨_, _, _, _, _, _, h⟩ := h
    cases h
    exact ha
  · cases h
    exact ha

theorem extractIndexedPixels_length (c : BmpConsts) (file : IFStream) (fileHead : FileHeader)
    (infoHead : InfoHeader) (pixels out : List Color4u)
    (h : extractIndexedPixels c file fileHead infoHead pixels = .ok out) :
    out.length = pixels.length + |infoHead._bmpHeight_px|.toNat * infoHead._bmpWidth_px.toNat := by
  unfold extractIndexedPixels at h
  simp only [bind_eq_ok] at h
  obtain ⟨⟨palette, file2⟩, _, rowSize, _, ⟨numRows, seekPos, step⟩, hplan, row, _, h⟩ := h
  have hn := rowPlan_numRows _ _ _ _ _ _ hplan
  rw [rowLoop_length _ _ (indexedRowBody_length _ _ _ _ _) _ _ _ _ _ _ _ _ h, hn]

theorem extractPixels_length (file : IFStream) (fileHead : FileHeader)
    (infoHead : InfoHeader) (pixels out : List Color4u)
    (h : extractPixels file fileHead infoHead pixels = .ok out) :
    out.length = pixels.length + |infoHead._bmpHeight_px|.toNat * infoHead._bmpWidth_px.toNat := by
  unfold extractPixels at h
  simp only [bind_eq_ok] at h
  obtain ⟨rowSize, _, ⟨numRows, seekPos, step⟩, hplan, _, _, _, _, _, _, _, _, row, _, h⟩ := h
  have hn := rowPlan_numRows _ _ _ _ _ _ hplan
  rw [rowLoop_length _ _
    (fun row px out hb => directRow_length _ _ _ _ _ _ _ _ _ _ _ hb) _ _ _ _ _ _ _ _ h, hn]

theorem resolveMasks_size (c : BmpConsts) (infoHead : InfoHeader) (v : Nat) :
    (resolveMasks c infoHead v)._bmpWidth_px = infoHead._bmpWidth_px ∧
    (resolveMasks c infoHead v)._bmpHeight_px = infoHead._bmpHeight_px ∧
    (resolveMasks c infoHead v)._bitsPerPixel = infoHead._bitsPerPixel := by
  unfold resolveMasks
  split_ifs <;> simp

theorem markVersion5_infoHead (c : BmpConsts) (st : HeaderState) :
    (markVersion5 c st).infoHead = st.infoHead ∧ (markVersion5 c st).file = st.file := by
  unfold markVersion5
  split_ifs <;> simp

theorem extract_length (c : BmpConsts) (file : IFStream) (fileHead : FileHeader)
    (infoHead : InfoHeader) (v : Nat) (pixels out : List Color4u)
    (hd : SupportedDepth infoHead._bitsPerPixel)
    (h : extract c file fileHead infoHead v pixels = .ok out) :
    out.length = pixels.length + |infoHead._bmpHeight_px|.toNat * infoHead._bmpWidth_px.toNat := by
  unfold extract at h
  split_ifs at h with h1 h2
  · exact extractIndexedPixels_length _ _ _ _ _ _ h
  · have := extractPixels_length _ _ _ _ _ h
    rw [(resolveMasks_size c infoHead v).1, (resolveMasks_size c infoHead v).2.1] at this
    exact this
  · unfold SupportedDepth at hd
    omega

/-- C1: when `load` returns true for a header with a supported bit depth and a non-negative
width, the pixel buffer holds exactly width × |height| pixels, width and height being the
signed fields of the header. -/
theorem load_pixel_count (c : BmpConsts) (bytes : List Nat) (self : BmpImage) (r : LoadResult)
    (h : load c (some bytes) self = .ok r) (hok : r.ok = true)
    (hd : SupportedDepth (headerStateOf c bytes).infoHead._bitsPerPixel)
    (hw : 0 ≤ (headerStateOf c bytes).infoHead._bmpWidth_px) :
    (r.image._pixels.length : Int) =
      (headerStateOf c bytes).infoHead._bmpWidth_px *
        |(headerStateOf c bytes).infoHead._bmpHeight_px| := by
  unfold load at h
  simp only at h
  split_ifs at h with h1 h2 h3
  · cases h; simp at hok
  · cases h; simp at hok
  · cases h; simp at hok
  · split at h
    · cases h
    · rename_i pixels hex
      cases h
      rw [(markVersion5_infoHead c _).1] at hex
      have := extract_length c _ _ _ _ _ _ hd hex
      simp only [this, List.length_nil, zero_add, Nat.cast_mul]
      rw [Int.toNat_of_nonneg hw, Int.toNat_of_nonneg (abs_nonneg _)]
      ring

theorem load_pixel_count_witness :
    load bmpConsts (some sample24) usedImage =
        .ok ⟨true, ⟨[⟨3, 2, 1, 0⟩, ⟨6, 5, 4, 0⟩, ⟨9, 8, 7, 0⟩, ⟨12, 11, 10, 0⟩], 2, 2⟩, []⟩ ∧
      ((4 : Nat) : Int) = (headerStateOf bmpConsts sample24).infoHead._bmpWidth_px *
        |(headerStateOf bmpConsts sample24).infoHead._bmpHeight_px| :=
  ⟨by decide,
    load_pixel_count bmpConsts sample24 usedImage
      ⟨true, ⟨[⟨3, 2, 1, 0⟩, ⟨6, 5, 4, 0⟩, ⟨9, 8, 7, 0⟩, ⟨12, 11, 10, 0⟩], 2, 2⟩, []⟩
      (by decide) rfl (by decide) (by decide)⟩

/-! ## Unpacking of palette indices -/

theorem land_shift_eq (byte mask shift : Nat) :
    (byte &&& (mask <<< shift)) >>> shift = (byte >>> shift) &&& mask := by
  apply Nat.eq_of_testBit_eq
  intro i
  simp only [Nat.testBit_shiftRight, Nat.testBit_land, Nat.testBit_shiftLeft]
  have : shift + i ≥ shift := by omega
  simp [this]

theorem index_eq (byte mask shift : Nat) (hm : mask < 256) :
    ((byte &&& (mask <<< shift)) >>> shift) % 256 = (byte >>> shift) &&& mask := by
  rw [land_shift_eq]
  apply Nat.mod_eq_of_lt
  exact lt_of_le_of_lt Nat.and_le_right hm

theorem indexMask_eq (b : Nat) (hb : IndexedDepth b) : indexMask b = 2 ^ b - 1 := by
  rcases hb with h | h | h | h <;> subst h <;> decide

theorem indexedRow_eq_spec (b : Nat) (hb : IndexedDepth b) (palette : List Color4u)
    (row : List (Option Nat)) (n : Nat) :
    ∀ (byteNo bytePixelNo byte : Nat) (pixels : List Color4u),
      bytePixelNo ≤ 8 / b →
      (bytePixelNo < 8 / b → readRow row byteNo = .ok byte) →
      indexedRow b (8 / b) (indexMask b) palette row n byteNo bytePixelNo byte pixels =
        specIndexedRow b palette row n (byteNo * (8 / b) + bytePixelNo) pixels := by
  have hp : 0 < 8 / b := by
    rcases hb with h | h | h | h <;> subst h <;> decide
  have hmask : indexMask b < 256 := by
    rcases hb with h | h | h | h <;> subst h <;> decide
  rw [indexMask_eq b hb] at hmask ⊢
  induction n with
  | zero =>
    intro byteNo bytePixelNo byte pixels _ _
    simp only [indexedRow, specIndexedRow]
  | succ n ih =>
    intro byteNo bytePixelNo byte pixels hle hbyte
    simp only [indexedRow, specIndexedRow]
    by_cases hge : bytePixelNo ≥ 8 / b
    · have heq : bytePixelNo = 8 / b := by omega
      subst heq
      have hx : byteNo * (8 / b) + 8 / b = (byteNo + 1) * (8 / b) := by ring
      rw [if_pos hge, hx, Nat.mul_div_cancel _ hp, Nat.mul_mod_left]
      cases hr : readRow row (byteNo + 1) with
      | error e => rfl
      | ok v =>
        simp only [index_eq _ _ _ hmask]
        cases hpal : palette.get? ((v >>> (b * (8 / b - 1 - 0))) &&& (2 ^ b - 1)) with
        | none => rfl
        | some color =>
          simp only []
          rw [ih (byteNo + 1) (0 + 1) v (pixels ++ [color]) (by omega) (fun _ => hr)]
    · have hlt : bytePixelNo < 8 / b := by omega
      have hdiv : (byteNo * (8 / b) + bytePixelNo) / (8 / b) = byteNo := by
        rw [Nat.mul_comm, Nat.mul_add_div hp, Nat.div_eq_of_lt hlt, Nat.add_zero]
      have hmod : (byteNo * (8 / b) + bytePixelNo) % (8 / b) = bytePixelNo := by
        rw [Nat.mul_comm, Nat.mul_add_mod, Nat.mod_eq_of_lt hlt]
      rw [if_neg hge, hdiv, hmod, hbyte hlt]
      simp only [index_eq _ _ _ hmask]
      cases hpal : palette.get? ((byte >>> (b * (8 / b - 1 - bytePixelNo))) &&& (2 ^ b - 1)) with
      | none => rfl
      | some color =>
        simp only []
        rw [ih byteNo (bytePixelNo + 1) byte (pixels ++ [color]) (by omega)
          (fun _ => hbyte hlt)]
        rfl

theorem readRow_map_some (rowBytes : List Nat) (k : Nat) (h : k < rowBytes.length) :
    readRow (rowBytes.map some) k = .ok (rowBytes.getD k 0) := by
  unfold readRow
  simp [List.getD_eq_getElem?_getD, List.getElem?_eq_getElem h]

theorem specIndexedRow_total (b : Nat) (palette : List Color4u) (rowBytes : List Nat) (n : Nat) :
    ∀ (x : Nat) (pixels : List Color4u),
      (∀ k, k < n → (x + k) / (8 / b) < rowBytes.length ∧
        unpackedIndex b rowBytes (x + k) < palette.length) →
      specIndexedRow b palette (rowBytes.map some) n x pixels =
        .ok (pixels ++ (List.range' x n).map
          (fun y => palette.getD (unpackedIndex b rowBytes y) ⟨0, 0, 0, 0⟩)) := by
  induction n with
  | zero =>
    intro x pixels _
    simp [specIndexedRow]
  | succ n ih =>
    intro x pixels h
    have h0 := h 0 (by omega)
    simp only [Nat.add_zero] at h0
    simp only [specIndexedRow, readRow_map_some _ _ h0.1]
    have hget : palette.get? (unpackedIndex b rowBytes x) =
        some (palette.getD (unpackedIndex b rowBytes x) ⟨0, 0, 0, 0⟩) := by
      simp [List.getD_eq_getElem?_getD, List.getElem?_eq_getElem h0.2]
    unfold unpackedIndex at hget
    rw [hget]
    simp only []
    rw [ih (x + 1) _ (fun k hk => by
      have := h (k + 1) (by omega)
      rw [show x + 1 + k = x + (k + 1) by omega]
      exact this)]
    simp [List.range'_succ, unpackedIndex]

/-! ## Reads that find all their bytes -/

theorem read_full (file : IFStream) (n : Nat) (hf : file.failbit = false)
    (hlen : file.pos + n ≤ file.bytes.length) :
    file.read n =
      (((file.bytes.drop file.pos).take n).map (fun b => b % 256),
        ⟨file.bytes, file.pos + n, false⟩) := by
  unfold IFStream.read
  have h1 : ((file.bytes.drop file.pos).take n).length = n := by
    rw [List.length_take, List.length_drop]
    omega
  simp only [hf, h1, Bool.false_eq_true, if_false, List.length_map, lt_irrefl, decide_False]

theorem take_four_drop (bytes : List Nat) (q : Nat) (h : q + 4 ≤ bytes.length) :
    (bytes.drop q).take 4 =
      [bytes.getD q 0, bytes.getD (q + 1) 0, bytes.getD (q + 2) 0, bytes.getD (q + 3) 0] := by
  apply List.ext_getElem
  · simp [List.length_take, List.length_drop]
    omega
  · intro i h1 h2
    simp only [List.length_cons, List.length_nil] at h2
    have hi : i = 0 ∨ i = 1 ∨ i = 2 ∨ i = 3 := by omega
    rcases hi with rfl | rfl | rfl | rfl <;>
      simp [List.getElem_take, List.getD_eq_getElem?_getD, List.getElem?_eq_getElem,
        show q < bytes.length by omega, show q + 1 < bytes.length by omega,
        show q + 2 < bytes.length by omega, show q + 3 < bytes.length by omega]

theorem readPalette_entries (n : Nat) (hn : n ≤ 255) (k : Nat) :
    ∀ (i : Nat) (palette : List Color4u) (file : IFStream) (fuel : Nat),
      file.failbit = false → i + k = n → file.pos + 4 * k ≤ file.bytes.length → k < fuel →
      readPalette n fuel i file palette =
        .ok (palette ++ (List.range k).map (fun j => paletteEntryAt file.bytes (file.pos + 4 * j)),
          ⟨file.bytes, file.pos + 4 * k, false⟩) := by
  induction k with
  | zero =>
    intro i palette file fuel hf hi _ hfuel
    obtain ⟨fuel, rfl⟩ : ∃ m, fuel = m + 1 := ⟨fuel - 1, by omega⟩
    have : ¬ i < n := by omega
    cases file
    simp only at hf
    simp [readPalette, this, hf]
  | succ k ih =>
    intro i palette file fuel hf hi hlen hfuel
    obtain ⟨fuel, rfl⟩ : ∃ m, fuel = m + 1 := ⟨fuel - 1, by omega⟩
    have hlt : i < n := by omega
    have hr := read_full file 4 hf (by omega)
    rw [take_four_drop _ _ (by omega)] at hr
    simp only [readPalette, if_pos hlt, hr, List.map_cons, List.map_nil]
    have hmod : (i + 1) % 256 = i + 1 := Nat.mod_eq_of_lt (by omega)
    rw [hmod, ih (i + 1) _ ⟨file.bytes, file.pos + 4, false⟩ fuel rfl (by omega)
      (by simp only; omega) (by omega)]
    simp only [List.range_succ_eq_map, List.map_cons, List.map_map, List.append_assoc,
      List.singleton_append, paletteEntryAt, Nat.mul_zero, Nat.add_zero]
    have hshift : ∀ j : Nat, file.pos + 4 + 4 * j = file.pos + 4 * (j + 1) := fun j => by ring
    have hend : file.pos + 4 + 4 * k = file.pos + 4 * (k + 1) := by ring
    simp only [hshift, hend]
    rfl

/-! ## The palette loop ends -/

theorem readPalette_fuel (n fuel : Nat) :
    ∀ (i : Nat) (file : IFStream) (palette : List Color4u),
      (file.failbit = false → file.bytes.length - file.pos < 4 * fuel) → 0 < fuel →
      readPalette n fuel i file palette ≠ .error .nonTermination := by
  induction fuel with
  | zero => intro i file palette _ h; omega
  | succ fuel ih =>
    intro i file palette hm _
    simp only [readPalette]
    split_ifs with hi
    · split
      · rename_i b0 b1 b2 b3 hread
        have hf : file.failbit = false := by
          by_contra hne
          simp [IFStream.read, hne] at hread
        have hlen : ((file.bytes.drop file.pos).take 4).length = 4 := by
          have := congrArg List.length hread
          simpa [IFStream.read, hf] using this
        rw [List.length_take, List.length_drop] at hlen
        have hm2 := hm hf
        have hfile : (file.read 4).2 = ⟨file.bytes, file.pos + 4, false⟩ := by
          rw [read_full file 4 hf (by omega)]
        rw [hfile]
        apply ih
        · intro _
          show file.bytes.length - (file.pos + 4) < 4 * fuel
          omega
        · omega
      · simp
    · simp

theorem readPalette_terminates (n : Nat) (file : IFStream) :
    readPalette n (file.bytes.length + 1) 0 file [] ≠ .error .nonTermination :=
  readPalette_fuel n (file.bytes.length + 1) 0 file [] (fun _ => by omega) (by omega)

/-! ## The pixel formula of indexed images -/

/-- C9: for a bit depth `b` of 1, 2, 4 or 8 and `p = 8 / b`, the pixel loop of a row turns
pixel `x` into the palette entry at index
`(rowByte[x div p] >> (b × (p − 1 − (x mod p)))) & (2^b − 1)`, whenever the row holds the
bytes needed and these indices are below the palette length: the most significant group of a
byte is the leftmost pixel.  The palette loop turns the four file bytes blue, green, red,
alpha of entry `j` into the colour (red, green, blue, alpha). -/
theorem indexed_pixel_formula (b : Nat) (hb : IndexedDepth b) (palette : List Color4u)
    (rowBytes : List Nat) (width : Nat) (pixels : List Color4u)
    (hrow : ∀ x, x < width → x / (8 / b) < rowBytes.length)
    (hidx : ∀ x, x < width → unpackedIndex b rowBytes x < palette.length) :
    indexedRow b (8 / b) (indexMask b) palette (rowBytes.map some) width 0 0
        (rowBytes.getD 0 0) pixels =
      .ok (pixels ++ (List.range width).map
        (fun x => palette.getD (unpackedIndex b rowBytes x) ⟨0, 0, 0, 0⟩)) ∧
    ∀ (n : Nat) (file : IFStream), n ≤ 255 → file.failbit = false →
      file.pos + 4 * n ≤ file.bytes.length →
      readPalette n (file.bytes.length + 1) 0 file [] =
        .ok ((List.range n).map (fun j => paletteEntryAt file.bytes (file.pos + 4 * j)),
          ⟨file.bytes, file.pos + 4 * n, false⟩) := by
  constructor
  · rcases Nat.eq_zero_or_pos width with h0 | hpos
    · subst h0
      simp [indexedRow]
    · have hlen : 0 < rowBytes.length := by
        have := hrow 0 hpos
        simpa using this
      rw [indexedRow_eq_spec b hb _ _ _ 0 0 _ _ (Nat.zero_le _)
        (fun _ => readRow_map_some _ _ hlen)]
      simp only [Nat.zero_mul, Nat.add_zero]
      rw [specIndexedRow_total b palette rowBytes width 0 pixels (fun k hk => by
        simp only [Nat.zero_add]
        exact ⟨hrow k hk, hidx k hk⟩)]
      rw [List.range_eq_range']
  · intro n file hn hf hlen
    have := readPalette_entries n hn n 0 [] file (file.bytes.length + 1) hf (by omega) hlen
      (by omega)
    simpa using this

theorem indexed_pixel_formula_witness :
    indexedRow 1 (8 / 1) (indexMask 1) [⟨1, 1, 1, 1⟩, ⟨2, 2, 2, 2⟩] ([0x80, 0, 0, 0].map some) 8
        0 0 ([0x80, 0, 0, 0].getD 0 0) [] =
      .ok ([] ++ (List.range 8).map
        (fun x => [⟨1, 1, 1, 1⟩, ⟨2, 2, 2, 2⟩].getD (unpackedIndex 1 [0x80, 0, 0, 0] x)
          (⟨0, 0, 0, 0⟩ : Color4u))) ∧
      (List.range 8).map (unpackedIndex 1 [0x80, 0, 0, 0]) = [1, 0, 0, 0, 0, 0, 0, 0] ∧
      readPalette 1 (4 + 1) 0 ⟨[10, 20, 30, 40], 0, false⟩ [] =
        .ok ([⟨30, 20, 10, 40⟩], ⟨[10, 20, 30, 40], 4, false⟩) :=
  ⟨(indexed_pixel_formula 1 (by decide) [⟨1, 1, 1, 1⟩, ⟨2, 2, 2, 2⟩] [0x80, 0, 0, 0] 8 []
      (by decide) (by decide)).1,
    by decide,
    (indexed_pixel_formula 1 (by decide) [⟨1, 1, 1, 1⟩, ⟨2, 2, 2, 2⟩] [0x80, 0, 0, 0] 8 []
      (by decide) (by decide)).2 1 ⟨[10, 20, 30, 40], 0, false⟩ (by decide) rfl (by decide)⟩

/-! ## Reads that are not checked -/

theorem specIndexedRow_first_bad_index (b : Nat) (palette : List Color4u) (rowBytes : List Nat)
    (n : Nat) :
    ∀ (x0 k : Nat) (pixels : List Color4u), k < n →
      (∀ j, j ≤ k → (x0 + j) / (8 / b) < rowBytes.length) →
      (∀ j, j < k → unpackedIndex b rowBytes (x0 + j) < palette.length) →
      palette.length ≤ unpackedIndex b rowBytes (x0 + k) →
      specIndexedRow b palette (rowBytes.map some) n x0 pixels = .error .outOfBounds := by
  induction n with
  | zero => intro x0 k pixels hk; omega
  | succ n ih =>
    intro x0 k pixels hk hrow hprev hbad
    have h0 := hrow 0 (Nat.zero_le _)
    simp only [Nat.add_zero] at h0
    simp only [specIndexedRow, readRow_map_some _ _ h0]
    rcases Nat.eq_zero_or_pos k with hk0 | hkpos
    · subst hk0
      simp only [Nat.add_zero] at hbad
      have hget : palette.get? (unpackedIndex b rowBytes x0) = none := by
        simp [List.getElem?_eq_none hbad]
      unfold unpackedIndex at hget
      rw [hget]
    · have hlt := hprev 0 hkpos
      simp only [Nat.add_zero] at hlt
      have hget : palette.get? (unpackedIndex b rowBytes x0) =
          some (palette.getD (unpackedIndex b rowBytes x0) ⟨0, 0, 0, 0⟩) := by
        simp [List.getD_eq_getElem?_getD, List.getElem?_eq_getElem hlt]
      unfold unpackedIndex at hget
      rw [hget]
      simp only []
      apply ih (x0 + 1) (k - 1) _ (by omega)
      · intro j hj
        have := hrow (j + 1) (by omega)
        rw [show x0 + 1 + j = x0 + (j + 1) by omega]
        exact this
      · intro j hj
        have := hprev (j + 1) (by omega)
        rw [show x0 + 1 + j = x0 + (j + 1) by omega]
        exact this
      · rw [show x0 + 1 + (k - 1) = x0 + k by omega]
        exact hbad

theorem load_failure_log (c : BmpConsts) (file : Option (List Nat)) (self : BmpImage)
    (r : LoadResult) (h : load c file self = .ok r) (hf : r.ok = false) :
    r.log = [LogMsg.msg_bmp_fail_open] ∨ r.log = [LogMsg.msg_bmp_corrupted] ∨
      r.log = [LogMsg.msg_bmp_unsupported_colorspace] ∨
      r.log = [LogMsg.msg_bmp_unsupported_compression] := by
  unfold load at h
  split at h
  · cases h; simp
  · split_ifs at h
    · cases h; simp
    · cases h; simp
    · cases h; simp
    · split at h
      · cases h
      · cases h; simp at hf

/-- C6 as stated fails: in an 8-bit image with a palette of one colour, the pixel byte 1 is
an index equal to the palette length; the run of `load` ends in the unchecked read outside
the palette and returns no failure. -/
theorem load_index_beyond_palette :
    (headerStateOf bmpConsts sampleIndexBeyondPalette).infoHead._bitsPerPixel = 8 ∧
      (headerStateOf bmpConsts sampleIndexBeyondPalette).infoHead._numPaletteColors = 1 ∧
      unpackedIndex 8 [1, 0, 0, 0] 0 = 1 ∧
      load bmpConsts (some sampleIndexBeyondPalette) usedImage = .error Fault.outOfBounds := by
  decide

/-- C6 (amended): the palette lookup is not checked.  When pixel `x` of a row is the first
whose unpacked index is not below the palette length, the pixel loop of that row ends in a
read outside the palette and yields no pixels; and `load` has no failure for it: a run of
`load` that returns false has logged the open, magic, colour-space or compression message. -/
theorem palette_lookup_unchecked (c : BmpConsts) (b : Nat) (hb : IndexedDepth b)
    (palette : List Color4u) (rowBytes : List Nat) (width x : Nat) (pixels : List Color4u)
    (hx : x < width)
    (hrow : ∀ y, y ≤ x → y / (8 / b) < rowBytes.length)
    (hprev : ∀ y, y < x → unpackedIndex b rowBytes y < palette.length)
    (hbad : palette.length ≤ unpackedIndex b rowBytes x) :
    indexedRow b (8 / b) (indexMask b) palette (rowBytes.map some) width 0 0
        (rowBytes.getD 0 0) pixels = .error Fault.outOfBounds ∧
    ∀ (file : Option (List Nat)) (self : BmpImage) (r : LoadResult),
      load c file self = .ok r → r.ok = false →
      r.image._pixels = [] ∧
      (r.log = [LogMsg.msg_bmp_fail_open] ∨ r.log = [LogMsg.msg_bmp_corrupted] ∨
        r.log = [LogMsg.msg_bmp_unsupported_colorspace] ∨
        r.log = [LogMsg.msg_bmp_unsupported_compression]) := by
  constructor
  · have hlen : 0 < rowBytes.length := by
      have := hrow 0 (Nat.zero_le _)
      simpa using this
    rw [indexedRow_eq_spec b hb _ _ _ 0 0 _ _ (Nat.zero_le _)
      (fun _ => readRow_map_some _ _ hlen)]
    simp only [Nat.zero_mul, Nat.add_zero]
    apply specIndexedRow_first_bad_index b palette rowBytes width 0 x pixels hx
    · intro j hj
      simpa using hrow j hj
    · intro j hj
      simpa using hprev j hj
    · simpa using hbad
  · intro file self r h hf
    refine ⟨?_, load_failure_log c file self r h hf⟩
    unfold load at h
    split at h
    · cases h; rfl
    · split_ifs at h
      · cases h; rfl
      · cases h; rfl
      · cases h; rfl
      · split at h
        · cases h
        · cases h; simp at hf

theorem palette_lookup_unchecked_witness :
    indexedRow 8 (8 / 8) (indexMask 8) [⟨30, 20, 10, 40⟩] ([1, 0, 0, 0].map some) 1 0 0
        ([1, 0, 0, 0].getD 0 0) [] = .error Fault.outOfBounds :=
  (palette_lookup_unchecked bmpConsts 8 (by decide) [⟨30, 20, 10, 40⟩] [1, 0, 0, 0] 1 0 []
    (by decide) (by decide) (by decide) (by decide)).1

/-- C7 as stated fails: `sample24Truncated` has a valid header for 2 rows of 8 bytes and ends
behind the first row; `load` returns true with four pixels, the second row being a copy of
the first, which the row buffer still held. -/
theorem load_truncated_reports_success :
    sample24Truncated.length = 54 + 8 ∧
      load bmpConsts (some sample24Truncated) usedImage =
        .ok ⟨true, ⟨[⟨3, 2, 1, 0⟩, ⟨6, 5, 4, 0⟩, ⟨3, 2, 1, 0⟩, ⟨6, 5, 4, 0⟩], 2, 2⟩, []⟩ := by
  decide

/-- C7 (amended): reads behind the open are not checked.  A read that finds too few bytes
sets the fail bit; once it is set, seeking and reading a row leaves the row buffer and the
stream as they were; and a run of `load` that returns for a header that passed the magic,
colour-space and compression checks returns true with no message logged, however short the
stream is. -/
theorem short_read_unchecked (c : BmpConsts) (bytes : List Nat) (self : BmpImage)
    (hm : (readMagic bytes).1 = c.BMPMAGIC)
    (hcs : (headerStateOf c bytes).infoHead._headerSize_bytes < c.V4INFOHEADER_SIZE_BYTES ∨
      (headerStateOf c bytes).infoHead._colorSpaceMagic = c.SRGBMAGIC)
    (hcomp : (headerStateOf c bytes).infoHead._compression = c.BI_RGB ∨
      (headerStateOf c bytes).infoHead._compression = c.BI_BITFIELDS) :
    (∀ (file : IFStream) (n : Nat), file.failbit = false → file.bytes.length - file.pos < n →
      (file.read n).2.failbit = true) ∧
    (∀ (file : IFStream) (row : List (Option Nat)) (n : Nat) (p : Int), file.failbit = true →
      readIntoRow (file.seekg p) row n = (row, file)) ∧
    ∀ r, load c (some bytes) self = .ok r → r.ok = true ∧ r.log = [] := by
  refine ⟨fun file n hf hlen => ?_, fun file row n p hf => ?_, fun r h => ?_⟩
  · unfold IFStream.read
    simp only [hf, Bool.false_eq_true, if_false, List.length_map, List.length_take,
      List.length_drop, decide_eq_true_eq]
    omega
  · simp [readIntoRow, IFStream.seekg, IFStream.read, hf]
  · have h4 : ¬ ((headerStateOf c bytes).infoHead._headerSize_bytes ≥ c.V4INFOHEADER_SIZE_BYTES ∧
        (headerStateOf c bytes).infoHead._colorSpaceMagic ≠ c.SRGBMAGIC) := by
      rintro ⟨h1, h2⟩
      rcases hcs with h | h
      · omega
      · exact h2 h
    have h5 : ¬ ((headerStateOf c bytes).infoHead._compression ≠ c.BI_RGB ∧
        (headerStateOf c bytes).infoHead._compression ≠ c.BI_BITFIELDS) := by
      rintro ⟨h1, h2⟩
      rcases hcomp with h | h
      · exact h1 h
      · exact h2 h
    unfold load at h
    simp only [hm, ne_eq, not_true_eq_false, if_false, h4, h5] at h
    split at h
    · cases h
    · cases h
      exact ⟨rfl, rfl⟩

theorem short_read_unchecked_witness :
    load bmpConsts (some sample24Truncated) usedImage =
        .ok ⟨true, ⟨[⟨3, 2, 1, 0⟩, ⟨6, 5, 4, 0⟩, ⟨3, 2, 1, 0⟩, ⟨6, 5, 4, 0⟩], 2, 2⟩, []⟩ ∧
      true = true ∧ ([] : List LogMsg) = [] :=
  ⟨by decide,
    (short_read_unchecked bmpConsts sample24Truncated usedImage (by decide) (by decide)
      (by decide)).2.2
      ⟨true, ⟨[⟨3, 2, 1, 0⟩, ⟨6, 5, 4, 0⟩, ⟨3, 2, 1, 0⟩, ⟨6, 5, 4, 0⟩], 2, 2⟩, []⟩ (by decide)⟩

/-! ## The row loop on a file that holds every row -/

theorem rowChunk_length (bytes : List Nat) (rowSize_bytes q : Nat)
    (h : q + rowSize_bytes ≤ bytes.length) : (rowChunk bytes rowSize_bytes q).length = rowSize_bytes := by
  unfold rowChunk
  rw [List.length_map, List.length_take, List.length_drop]
  omega

theorem readIntoRow_complete (bytes : List Nat) (pos : Nat) (row : List (Option Nat))
    (rowSize_bytes : Nat) (seekPos : Int) (h0 : 0 ≤ seekPos)
    (hlen : seekPos.toNat + rowSize_bytes ≤ bytes.length) (hrow : row.length = rowSize_bytes) :
    readIntoRow ((⟨bytes, pos, false⟩ : IFStream).seekg seekPos) row rowSize_bytes =
      ((rowChunk bytes rowSize_bytes seekPos.toNat).map some,
        ⟨bytes, seekPos.toNat + rowSize_bytes, false⟩) := by
  have hseek : (⟨bytes, pos, false⟩ : IFStream).seekg seekPos = ⟨bytes, seekPos.toNat, false⟩ := by
    have : ¬ seekPos < 0 := by omega
    simp [IFStream.seekg, this]
  have hread := read_full ⟨bytes, seekPos.toNat, false⟩ rowSize_bytes rfl hlen
  simp only at hread
  have hchunk := rowChunk_length bytes rowSize_bytes seekPos.toNat hlen
  have hdrop : row.drop rowSize_bytes = [] := List.drop_of_length_le (by omega)
  unfold rowChunk at hchunk ⊢
  rw [readIntoRow, hseek, hread]
  simp only [hchunk, hdrop, List.append_nil]

theorem rowsRead_succ (bytes : List Nat) (rowSize_bytes : Nat) (start step : Int) (k : Nat) :
    rowsRead bytes rowSize_bytes start step (k + 1) =
      rowChunk bytes rowSize_bytes start.toNat ::
        rowsRead bytes rowSize_bytes (start + step) step k := by
  unfold rowsRead
  rw [List.range_succ_eq_map, List.map_cons, List.map_map]
  congr 1
  · simp
  · apply List.map_congr_left
    intro i _
    simp only [Function.comp, Nat.succ_eq_add_one, Nat.cast_add, Nat.cast_one]
    congr 2
    ring

theorem rowLoop_complete
    (body : List (Option Nat) → List Color4u → Except Fault (List Color4u))
    (bytes : List Nat) (rowSize_bytes : Nat) (step : Int) (k : Nat) :
    ∀ (seekPos : Int) (pos : Nat) (row : List (Option Nat)) (pixels : List Color4u),
      row.length = rowSize_bytes →
      (∀ i : Nat, i < k → 0 ≤ seekPos + i * step ∧
        (seekPos + i * step).toNat + rowSize_bytes ≤ bytes.length ∧
        -(2 : Int) ^ 31 ≤ seekPos + (i + 1) * step ∧ seekPos + (i + 1) * step < (2 : Int) ^ 31) →
      rowLoop body rowSize_bytes step k seekPos ⟨bytes, pos, false⟩ row pixels =
        foldRows body (rowsRead bytes rowSize_bytes seekPos step k) pixels := by
  induction k with
  | zero =>
    intro seekPos pos row pixels _ _
    simp [rowLoop, rowsRead, foldRows]
  | succ k ih =>
    intro seekPos pos row pixels hrow hiter
    have h0 := hiter 0 (by omega)
    simp only [Nat.cast_zero, zero_mul, add_zero, zero_add, one_mul] at h0
    obtain ⟨hpos, hlen, hlo, hhi⟩ := h0
    rw [rowsRead_succ]
    simp only [rowLoop, foldRows, readIntoRow_complete bytes pos row rowSize_bytes seekPos hpos hlen hrow]
    cases hb : body ((rowChunk bytes rowSize_bytes seekPos.toNat).map some) pixels with
    | error e => rfl
    | ok px =>
      simp only []
      have hcheck : checkInt (seekPos + step) = .ok (seekPos + step) := by
        unfold checkInt
        rw [if_pos ⟨hlo, hhi⟩]
      rw [hcheck]
      simp only []
      apply ih
      · rw [List.length_map]
        exact rowChunk_length bytes rowSize_bytes seekPos.toNat hlen
      · intro i hi
        have := hiter (i + 1) (by omega)
        simp only [Nat.cast_add, Nat.cast_one] at this
        have e1 : seekPos + step + (i : Int) * step = seekPos + ((i : Int) + 1) * step := by ring
        have e2 : seekPos + step + ((i : Int) + 1) * step = seekPos + ((i : Int) + 1 + 1) * step := by
          ring
        rw [e1, e2]
        exact this

/-! ## Origin normalization -/

theorem rowChunk_flatten (s : Nat) (rows : List (List Nat)) :
    ∀ (pre post : List Nat) (i : Nat), (∀ r ∈ rows, r.length = s) → i < rows.length →
      rowChunk (pre ++ rows.flatten ++ post) s (pre.length + i * s) =
        (rows.getD i []).map (fun b => b % 256) := by
  induction rows with
  | nil => intro pre post i _ hi; simp at hi
  | cons r rs ih =>
    intro pre post i hrows hi
    have hr : r.length = s := hrows r (List.mem_cons_self _ _)
    have hrs : ∀ r' ∈ rs, r'.length = s := fun r' h => hrows r' (List.mem_cons_of_mem _ h)
    cases i with
    | zero =>
      unfold rowChunk
      simp only [Nat.zero_mul, Nat.add_zero, List.flatten_cons, List.append_assoc,
        List.drop_left, List.getD_cons_zero]
      rw [← hr, List.take_left]
    | succ j =>
      have h := ih (pre ++ r) post j hrs (by simpa using hi)
      simp only [List.length_append, hr] at h
      have e : pre.length + (j + 1) * s = pre.length + s + j * s := by ring
      rw [e]
      simpa [List.flatten_cons, List.append_assoc] using h

theorem rowsRead_bottom_up (s : Nat) (rows : List (List Nat)) (pre post : List Nat)
    (hrows : ∀ r ∈ rows, r.length = s) :
    rowsRead (pre ++ rows.flatten ++ post) s (pre.length : Int) (s : Int) rows.length =
      (List.range rows.length).map (fun i => (rows.getD i []).map (fun b => b % 256)) := by
  unfold rowsRead
  apply List.map_congr_left
  intro i hi
  rw [List.mem_range] at hi
  have e : ((pre.length : Int) + (i : Int) * (s : Int)).toNat = pre.length + i * s := by
    have : (pre.length : Int) + (i : Int) * (s : Int) = ((pre.length + i * s : Nat) : Int) := by
      push_cast; ring
    rw [this, Int.toNat_ofNat]
  rw [e]
  exact rowChunk_flatten s rows pre post i hrows hi

theorem rowsRead_top_down (s : Nat) (rows : List (List Nat)) (pre post : List Nat)
    (hrows : ∀ r ∈ rows, r.length = s) :
    rowsRead (pre ++ rows.reverse.flatten ++ post) s
        ((pre.length : Int) + ((rows.length : Int) - 1) * (s : Int)) (-(s : Int)) rows.length =
      (List.range rows.length).map (fun i => (rows.getD i []).map (fun b => b % 256)) := by
  unfold rowsRead
  apply List.map_congr_left
  intro i hi
  rw [List.mem_range] at hi
  have e : ((pre.length : Int) + ((rows.length : Int) - 1) * (s : Int) + (i : Int) * (-(s : Int))).toNat
      = pre.length + (rows.length - 1 - i) * s := by
    have : (pre.length : Int) + ((rows.length : Int) - 1) * (s : Int) + (i : Int) * (-(s : Int)) =
        ((pre.length + (rows.length - 1 - i) * s : Nat) : Int) := by
      have h1 : ((rows.length - 1 - i : Nat) : Int) = (rows.length : Int) - 1 - i := by omega
      push_cast
      rw [h1]
      ring
    rw [this, Int.toNat_ofNat]
  rw [e]
  have hrev : ∀ r ∈ rows.reverse, r.length = s := fun r h => hrows r (List.mem_reverse.1 h)
  rw [rowChunk_flatten s rows.reverse pre post (rows.length - 1 - i) hrev
    (by rw [List.length_reverse]; omega)]
  congr 1
  rw [List.getD_eq_getElem?_getD, List.getD_eq_getElem?_getD,
    List.getElem?_reverse (by omega)]
  congr 2
  omega

theorem rowPlan_bottom_up (fileHead : FileHeader) (infoHead : InfoHeader) (rowSize_bytes : Int)
    (n : Nat) (hh : infoHead._bmpHeight_px = (n : Int)) (hn : (n : Int) < 2 ^ 31) :
    rowPlan fileHead infoHead rowSize_bytes =
      .ok ((n : Int), toInt32 fileHead._pixelOffset_bytes, rowSize_bytes) := by
  have habs : |(n : Int)| = (n : Int) := abs_of_nonneg (by omega)
  have hc : checkInt (n : Int) = .ok (n : Int) := by
    unfold checkInt
    rw [if_pos ⟨by omega, hn⟩]
  have hneg : ¬ ((n : Int) < 0) := by omega
  simp only [rowPlan, hh, habs, hc, hneg, bind, Except.bind, pure, Except.pure, if_false]

theorem rowPlan_top_down (fileHead : FileHeader) (infoHead : InfoHeader) (s n : Nat)
    (hh : infoHead._bmpHeight_px = -(n : Int)) (hpos : 0 < n) (hn : (n : Int) < 2 ^ 31)
    (hoff : 0 ≤ toInt32 fileHead._pixelOffset_bytes)
    (hend : toInt32 fileHead._pixelOffset_bytes + (n : Int) * (s : Int) < 2 ^ 31) :
    rowPlan fileHead infoHead (s : Int) =
      .ok ((n : Int), toInt32 fileHead._pixelOffset_bytes + ((n : Int) - 1) * (s : Int),
        -(s : Int)) := by
  have habs : |(-(n : Int))| = (n : Int) := by
    rw [abs_neg]
    exact abs_of_nonneg (by omega)
  have hc : checkInt (n : Int) = .ok (n : Int) := by
    unfold checkInt
    rw [if_pos ⟨by omega, hn⟩]
  have hneg : -(n : Int) < 0 := by omega
  have hs0 : (0 : Int) ≤ ((n : Int) - 1) * (s : Int) :=
    mul_nonneg (by omega) (by omega)
  have hs1 : ((n : Int) - 1) * (s : Int) ≤ (n : Int) * (s : Int) := by nlinarith
  have hs2 : (s : Int) ≤ (n : Int) * (s : Int) := by nlinarith
  have hc1 : checkInt (((n : Int) - 1) * (s : Int)) = .ok (((n : Int) - 1) * (s : Int)) := by
    unfold checkInt
    rw [if_pos ⟨by omega, by omega⟩]
  have hc2 : checkInt (toInt32 fileHead._pixelOffset_bytes + ((n : Int) - 1) * (s : Int)) =
      .ok (toInt32 fileHead._pixelOffset_bytes + ((n : Int) - 1) * (s : Int)) := by
    unfold checkInt
    rw [if_pos ⟨by omega, by omega⟩]
  have hm1 : (s : Int) * -1 = -(s : Int) := mul_neg_one _
  have hc3 : checkInt ((s : Int) * -1) = .ok (-(s : Int)) := by
    rw [hm1]
    unfold checkInt
    rw [if_pos ⟨by omega, by omega⟩]
  simp only [rowPlan, hh, habs, hc, hneg, hc1, hc2, hc3, bind, Except.bind, pure, Except.pure,
    if_true]

theorem allocate_length (infoHead : InfoHeader) (numRows rowSize_bytes : Int)
    (row : List (Option Nat)) (h : allocate infoHead numRows rowSize_bytes = .ok row) :
    row.length = rowSize_bytes.toNat := by
  unfold allocate at h
  split at h
  · cases h
  · split_ifs at h
    cases h
    simp [newRow]

theorem directRow_masks (infoHead infoHead2 : InfoHeader)
    (hr : infoHead2._redMask = infoHead._redMask) (hg : infoHead2._greenMask = infoHead._greenMask)
    (hb : infoHead2._blueMask = infoHead._blueMask) (ha : infoHead2._alphaMask = infoHead._alphaMask)
    (pixelSize_bytes redShift greenShift blueShift alphaShift : Nat) (row : List (Option Nat))
    (n : Nat) :
    ∀ (j : Nat) (pixels : List Color4u),
      directRow infoHead2 pixelSize_bytes redShift greenShift blueShift alphaShift row n j pixels =
        directRow infoHead pixelSize_bytes redShift greenShift blueShift alphaShift row n j pixels := by
  induction n with
  | zero => intro j pixels; simp [directRow]
  | succ n ih =>
    intro j pixels
    simp only [directRow]
    cases rawPixelBytes row pixelSize_bytes j with
    | error e => rfl
    | ok raw =>
      simp only [maskedColor, hr, hg, hb, ha]
      exact ih _ _

theorem extractPixels_complete (bytes : List Nat) (pos : Nat) (fileHead : FileHeader)
    (infoHead : InfoHeader) (pixels : List Color4u) (s n : Nat) (start step : Int)
    (hsize : rowSizeBytes infoHead._bitsPerPixel infoHead._bmpWidth_px = .ok (s : Int))
    (hplan : rowPlan fileHead infoHead (s : Int) = .ok ((n : Int), start, step))
    (hiter : ∀ i : Nat, i < n → 0 ≤ start + i * step ∧
        (start + i * step).toNat + s ≤ bytes.length ∧
        -(2 : Int) ^ 31 ≤ start + (i + 1) * step ∧ start + (i + 1) * step < (2 : Int) ^ 31) :
    extractPixels ⟨bytes, pos, false⟩ fileHead infoHead pixels =
      (do
        let redShift ← scanShift infoHead._redMask 32 0
        let greenShift ← scanShift infoHead._greenMask 32 0
        let blueShift ← scanShift infoHead._blueMask 32 0
        let alphaShift ← scanAlphaShift infoHead._alphaMask
        let _ ← allocate infoHead (n : Int) (s : Int)
        foldRows
          (directRowBody infoHead (infoHead._bitsPerPixel / 8) redShift greenShift blueShift
            alphaShift)
          (rowsRead bytes s start step n) pixels) := by
  unfold extractPixels
  simp only [hsize, hplan, bind, Except.bind, pure, Except.pure]
  cases scanShift infoHead._redMask 32 0 with
  | error e => rfl
  | ok r =>
    cases scanShift infoHead._greenMask 32 0 with
    | error e => rfl
    | ok g =>
      cases scanShift infoHead._blueMask 32 0 with
      | error e => rfl
      | ok b =>
        cases scanAlphaShift infoHead._alphaMask with
        | error e => rfl
        | ok a =>
          cases hal : allocate infoHead (n : Int) (s : Int) with
          | error e => rfl
          | ok row =>
            simp only [Int.toNat_ofNat]
            have hlen := allocate_length _ _ _ _ hal
            rw [Int.toNat_ofNat] at hlen
            exact rowLoop_complete _ bytes s step n start pos row pixels hlen hiter

theorem seekg_ofNat (bytes : List Nat) (pos m : Nat) :
    (⟨bytes, pos, false⟩ : IFStream).seekg ((m : Nat) : Int) = ⟨bytes, m, false⟩ := by
  have : ¬ ((m : Int) < 0) := by omega
  simp [IFStream.seekg, this]

theorem extractIndexedPixels_complete (c : BmpConsts) (bytes : List Nat) (pos : Nat)
    (fileHead : FileHeader) (infoHead : InfoHeader) (pixels : List Color4u) (s n : Nat)
    (start step : Int)
    (hcount : infoHead._numPaletteColors ≤ 255)
    (hpal : (c.FILEHEADER_SIZE_BYTES + infoHead._headerSize_bytes) % 2 ^ 32 +
      4 * infoHead._numPaletteColors ≤ bytes.length)
    (hsize : rowSizeBytes infoHead._bitsPerPixel infoHead._bmpWidth_px = .ok (s : Int))
    (hplan : rowPlan fileHead infoHead (s : Int) = .ok ((n : Int), start, step))
    (hiter : ∀ i : Nat, i < n → 0 ≤ start + i * step ∧
        (start + i * step).toNat + s ≤ bytes.length ∧
        -(2 : Int) ^ 31 ≤ start + (i + 1) * step ∧ start + (i + 1) * step < (2 : Int) ^ 31) :
    extractIndexedPixels c ⟨bytes, pos, false⟩ fileHead infoHead pixels =
      match allocate infoHead (n : Int) (s : Int) with
      | .error e => .error e
      | .ok _ =>
        foldRows
          (indexedRowBody infoHead._bitsPerPixel (8 / infoHead._bitsPerPixel)
            (indexMask infoHead._bitsPerPixel)
            ((List.range infoHead._numPaletteColors).map (fun j => paletteEntryAt bytes
              ((c.FILEHEADER_SIZE_BYTES + infoHead._headerSize_bytes) % 2 ^ 32 + 4 * j)))
            infoHead._bmpWidth_px.toNat)
          (rowsRead bytes s start step n) pixels := by
  unfold extractIndexedPixels
  have hp := readPalette_entries infoHead._numPaletteColors hcount infoHead._numPaletteColors 0 []
    ⟨bytes, (c.FILEHEADER_SIZE_BYTES + infoHead._headerSize_bytes) % 2 ^ 32, false⟩
    (bytes.length + 1) rfl (by omega) hpal (by omega)
  simp only [List.nil_append] at hp
  simp only [seekg_ofNat, hp, hsize, hplan, bind, Except.bind, pure, Except.pure]
  cases hal : allocate infoHead (n : Int) (s : Int) with
  | error e => rfl
  | ok row =>
    simp only [Int.toNat_ofNat]
    have hlen := allocate_length _ _ _ _ hal
    rw [Int.toNat_ofNat] at hlen
    exact rowLoop_complete _ bytes s step n start _ row pixels hlen hiter

theorem paletteEntryAt_append (pre rest : List Nat) (q : Nat) (h : q + 3 < pre.length) :
    paletteEntryAt (pre ++ rest) q = paletteEntryAt pre q := by
  unfold paletteEntryAt
  rw [List.getD_append _ _ _ _ (by omega), List.getD_append _ _ _ _ (by omega),
    List.getD_append _ _ _ _ (by omega), List.getD_append _ _ _ _ (by omega)]

theorem flatten_length_of_rows (s : Nat) (rows : List (List Nat))
    (hrows : ∀ r ∈ rows, r.length = s) : rows.flatten.length = rows.length * s := by
  induction rows with
  | nil => simp
  | cons r rs ih =>
    have hr : r.length = s := hrows r (List.mem_cons_self _ _)
    have hrs : ∀ r' ∈ rs, r'.length = s := fun r' h => hrows r' (List.mem_cons_of_mem _ h)
    simp only [List.flatten_cons, List.length_append, List.length_cons, ih hrs, hr]
    ring

theorem range_map_getD (rows : List (List Nat)) :
    (List.range rows.length).map (fun i => (rows.getD i []).map (fun b => b % 256)) =
      rows.map (fun r => r.map (fun b => b % 256)) := by
  apply List.ext_getElem
  · simp
  · intro i h1 h2
    simp only [List.length_map, List.length_range] at h1
    simp [List.getD_eq_getElem?_getD, List.getElem?_eq_getElem h1]

theorem bottom_up_iter (pre post : List Nat) (rows : List (List Nat)) (s : Nat)
    (hrows : ∀ r ∈ rows, r.length = s)
    (hend : (pre.length : Int) + (rows.length : Int) * (s : Int) < 2 ^ 31) :
    ∀ i : Nat, i < rows.length → 0 ≤ (pre.length : Int) + i * (s : Int) ∧
      ((pre.length : Int) + i * (s : Int)).toNat + s ≤ (pre ++ rows.flatten ++ post).length ∧
      -(2 : Int) ^ 31 ≤ (pre.length : Int) + (i + 1) * (s : Int) ∧
      (pre.length : Int) + (i + 1) * (s : Int) < (2 : Int) ^ 31 := by
  intro i hi
  have hmul : (i + 1) * s ≤ rows.length * s := Nat.mul_le_mul_right s hi
  have hmulZ : ((i : Int) + 1) * (s : Int) ≤ (rows.length : Int) * (s : Int) := by
    exact_mod_cast hmul
  have hnn : (0 : Int) ≤ (i : Int) * (s : Int) := mul_nonneg (by omega) (by omega)
  have hnn1 : (0 : Int) ≤ ((i : Int) + 1) * (s : Int) := mul_nonneg (by omega) (by omega)
  have e : ((pre.length : Int) + (i : Int) * (s : Int)).toNat = pre.length + i * s := by
    have : (pre.length : Int) + (i : Int) * (s : Int) = ((pre.length + i * s : Nat) : Int) := by
      push_cast; ring
    rw [this, Int.toNat_ofNat]
  refine ⟨by linarith, ?_, by linarith, by linarith⟩
  rw [e]
  simp only [List.length_append, flatten_length_of_rows s rows hrows]
  have : i * s + s = (i + 1) * s := by ring
  omega

theorem top_down_iter (pre post : List Nat) (rows : List (List Nat)) (s : Nat)
    (hrows : ∀ r ∈ rows, r.length = s)
    (hend : (pre.length : Int) + (rows.length : Int) * (s : Int) < 2 ^ 31) :
    ∀ i : Nat, i < rows.length →
      0 ≤ (pre.length : Int) + ((rows.length : Int) - 1) * (s : Int) + i * (-(s : Int)) ∧
      ((pre.length : Int) + ((rows.length : Int) - 1) * (s : Int) + i * (-(s : Int))).toNat + s ≤
        (pre ++ rows.reverse.flatten ++ post).length ∧
      -(2 : Int) ^ 31 ≤
        (pre.length : Int) + ((rows.length : Int) - 1) * (s : Int) + (i + 1) * (-(s : Int)) ∧
      (pre.length : Int) + ((rows.length : Int) - 1) * (s : Int) + (i + 1) * (-(s : Int)) <
        (2 : Int) ^ 31 := by
  intro i hi
  have hrev : ∀ r ∈ rows.reverse, r.length = s := fun r h => hrows r (List.mem_reverse.1 h)
  have hk : ((rows.length - 1 - i : Nat) : Int) = (rows.length : Int) - 1 - i := by omega
  have e0 : (pre.length : Int) + ((rows.length : Int) - 1) * (s : Int) + (i : Int) * (-(s : Int)) =
      ((pre.length + (rows.length - 1 - i) * s : Nat) : Int) := by
    push_cast
    rw [hk]
    ring
  have hmul : (rows.length - 1 - i + 1) * s ≤ rows.length * s :=
    Nat.mul_le_mul_right s (by omega)
  have hmulZ : (((rows.length - 1 - i : Nat) : Int) + 1) * (s : Int) ≤ (rows.length : Int) * (s : Int) := by
    exact_mod_cast hmul
  have hnn : (0 : Int) ≤ ((rows.length - 1 - i : Nat) : Int) * (s : Int) :=
    mul_nonneg (by omega) (by omega)
  have e1 : (pre.length : Int) + ((rows.length : Int) - 1) * (s : Int) +
      ((i : Int) + 1) * (-(s : Int)) =
      (pre.length : Int) + ((rows.length - 1 - i : Nat) : Int) * (s : Int) - (s : Int) := by
    rw [hk]
    ring
  have hs : (s : Int) ≤ (rows.length : Int) * (s : Int) := by
    have : 1 * s ≤ rows.length * s := Nat.mul_le_mul_right s (by omega)
    have h2 : ((1 * s : Nat) : Int) ≤ ((rows.length * s : Nat) : Int) := by exact_mod_cast this
    simpa using h2
  refine ⟨by rw [e0]; omega, ?_, by rw [e1]; linarith, by rw [e1]; linarith⟩
  rw [e0, Int.toNat_ofNat]
  simp only [List.length_append, flatten_length_of_rows s rows.reverse hrev, List.length_reverse]
  have : (rows.length - 1 - i) * s + s = (rows.length - 1 - i + 1) * s := by ring
  omega

/-- C8: origin normalization.  Take any header, any row size `s` it yields and any rows
`r0, ..., r(n-1)` of `s` bytes, `n > 0`.  The file with height `+n` that stores the rows in
this order behind `pre` and the file with height `-n` that stores them in reverse order
decode to the same result, with the direct-colour extractor and (when the palette lies in
front of the pixel data) with the indexed extractor.  In both files the row loop builds
buffer row `i` from `ri`: it equals the pixel loop run over `r0, ..., r(n-1)` in this order. -/
theorem origin_normalization (c : BmpConsts) (fileHead : FileHeader) (infoHead : InfoHeader)
    (pre post : List Nat) (rows : List (List Nat)) (s pos : Nat) (pixels : List Color4u)
    (hsize : rowSizeBytes infoHead._bitsPerPixel infoHead._bmpWidth_px = .ok (s : Int))
    (hrows : ∀ r ∈ rows, r.length = s)
    (hn : 0 < rows.length)
    (hoff : toInt32 fileHead._pixelOffset_bytes = (pre.length : Int))
    (hcount : (rows.length : Int) < 2 ^ 31)
    (hend : (pre.length : Int) + (rows.length : Int) * (s : Int) < 2 ^ 31) :
    extractPixels ⟨pre ++ rows.flatten ++ post, pos, false⟩ fileHead
        { infoHead with _bmpHeight_px := (rows.length : Int) } pixels =
      extractPixels ⟨pre ++ rows.reverse.flatten ++ post, pos, false⟩ fileHead
        { infoHead with _bmpHeight_px := -(rows.length : Int) } pixels ∧
    (infoHead._numPaletteColors ≤ 255 →
      (c.FILEHEADER_SIZE_BYTES + infoHead._headerSize_bytes) % 2 ^ 32 +
        4 * infoHead._numPaletteColors ≤ pre.length →
      extractIndexedPixels c ⟨pre ++ rows.flatten ++ post, pos, false⟩ fileHead
          { infoHead with _bmpHeight_px := (rows.length : Int) } pixels =
        extractIndexedPixels c ⟨pre ++ rows.reverse.flatten ++ post, pos, false⟩ fileHead
          { infoHead with _bmpHeight_px := -(rows.length : Int) } pixels) ∧
    ∀ body : List (Option Nat) → List Color4u → Except Fault (List Color4u),
      rowLoop body s (s : Int) rows.length (pre.length : Int)
          ⟨pre ++ rows.flatten ++ post, pos, false⟩ (newRow s) pixels =
        foldRows body (rows.map (fun r => r.map (fun b => b % 256))) pixels ∧
      rowLoop body s (-(s : Int)) rows.length
          ((pre.length : Int) + ((rows.length : Int) - 1) * (s : Int))
          ⟨pre ++ rows.reverse.flatten ++ post, pos, false⟩ (newRow s) pixels =
        foldRows body (rows.map (fun r => r.map (fun b => b % 256))) pixels := by
  have hup := bottom_up_iter pre post rows s hrows hend
  have hdown := top_down_iter pre post rows s hrows hend
  have hplanUp : rowPlan fileHead { infoHead with _bmpHeight_px := (rows.length : Int) } (s : Int) =
      .ok ((rows.length : Int), (pre.length : Int), (s : Int)) := by
    rw [rowPlan_bottom_up fileHead _ (s : Int) rows.length rfl hcount, hoff]
  have hplanDown : rowPlan fileHead { infoHead with _bmpHeight_px := -(rows.length : Int) } (s : Int) =
      .ok ((rows.length : Int), (pre.length : Int) + ((rows.length : Int) - 1) * (s : Int),
        -(s : Int)) := by
    rw [rowPlan_top_down fileHead _ s rows.length rfl hn hcount (by rw [hoff]; omega)
      (by rw [hoff]; exact hend), hoff]
  refine ⟨?_, fun hcol hpal => ?_, fun body => ⟨?_, ?_⟩⟩
  · rw [extractPixels_complete (pre ++ rows.flatten ++ post) pos fileHead
        { infoHead with _bmpHeight_px := (rows.length : Int) } pixels s rows.length _ _
        hsize hplanUp hup,
      extractPixels_complete (pre ++ rows.reverse.flatten ++ post) pos fileHead
        { infoHead with _bmpHeight_px := -(rows.length : Int) } pixels s rows.length _ _
        hsize hplanDown hdown,
      rowsRead_bottom_up s rows pre post hrows, rowsRead_top_down s rows pre post hrows]
    have hbody : ∀ r g b a : Nat,
        directRowBody { infoHead with _bmpHeight_px := (rows.length : Int) }
            (infoHead._bitsPerPixel / 8) r g b a =
          directRowBody { infoHead with _bmpHeight_px := -(rows.length : Int) }
            (infoHead._bitsPerPixel / 8) r g b a := by
      intro r g b a
      funext row px
      unfold directRowBody
      exact directRow_masks { infoHead with _bmpHeight_px := -(rows.length : Int) }
        { infoHead with _bmpHeight_px := (rows.length : Int) } rfl rfl rfl rfl _ _ _ _ _ _ _ _ _
    simp only [hbody]
    rfl
  · have hlenUp : (c.FILEHEADER_SIZE_BYTES + infoHead._headerSize_bytes) % 2 ^ 32 +
        4 * infoHead._numPaletteColors ≤ (pre ++ rows.flatten ++ post).length := by
      simp only [List.length_append]
      omega
    have hlenDown : (c.FILEHEADER_SIZE_BYTES + infoHead._headerSize_bytes) % 2 ^ 32 +
        4 * infoHead._numPaletteColors ≤ (pre ++ rows.reverse.flatten ++ post).length := by
      simp only [List.length_append]
      omega
    rw [extractIndexedPixels_complete c (pre ++ rows.flatten ++ post) pos fileHead
        { infoHead with _bmpHeight_px := (rows.length : Int) } pixels s rows.length _ _
        hcol hlenUp hsize hplanUp hup,
      extractIndexedPixels_complete c (pre ++ rows.reverse.flatten ++ post) pos fileHead
        { infoHead with _bmpHeight_px := -(rows.length : Int) } pixels s rows.length _ _
        hcol hlenDown hsize hplanDown hdown,
      rowsRead_bottom_up s rows pre post hrows, rowsRead_top_down s rows pre post hrows]
    have hentries : (List.range infoHead._numPaletteColors).map
          (fun j => paletteEntryAt (pre ++ rows.flatten ++ post)
            ((c.FILEHEADER_SIZE_BYTES + infoHead._headerSize_bytes) % 2 ^ 32 + 4 * j)) =
        (List.range infoHead._numPaletteColors).map
          (fun j => paletteEntryAt (pre ++ rows.reverse.flatten ++ post)
            ((c.FILEHEADER_SIZE_BYTES + infoHead._headerSize_bytes) % 2 ^ 32 + 4 * j)) := by
      apply List.map_congr_left
      intro j hj
      rw [List.mem_range] at hj
      rw [List.append_assoc, List.append_assoc, paletteEntryAt_append _ _ _ (by omega),
        paletteEntryAt_append _ _ _ (by omega)]
    simp only [hentries]
    rfl
  · rw [rowLoop_complete body _ s (s : Int) rows.length (pre.length : Int) pos (newRow s) pixels
      (by simp [newRow]) hup, rowsRead_bottom_up s rows pre post hrows, range_map_getD]
  · rw [rowLoop_complete body _ s (-(s : Int)) rows.length _ pos (newRow s) pixels
      (by simp [newRow]) hdown, rowsRead_top_down s rows pre post hrows, range_map_getD]

theorem origin_normalization_witness :
    extractPixels ⟨sampleHeader 40 2 2 24 0 0 54 ++ sample24Rows.flatten ++ [], 54, false⟩
        (fileHeaderOf sample24)
        { (headerStateOf bmpConsts sample24).infoHead with
          _bmpHeight_px := (sample24Rows.length : Int) } [] =
      extractPixels
        ⟨sampleHeader 40 2 2 24 0 0 54 ++ sample24Rows.reverse.flatten ++ [], 54, false⟩
        (fileHeaderOf sample24)
        { (headerStateOf bmpConsts sample24).infoHead with
          _bmpHeight_px := -(sample24Rows.length : Int) } [] ∧
      load bmpConsts (some sample24) usedImage =
        .ok ⟨true, ⟨[⟨3, 2, 1, 0⟩, ⟨6, 5, 4, 0⟩, ⟨9, 8, 7, 0⟩, ⟨12, 11, 10, 0⟩], 2, 2⟩, []⟩ ∧
      load bmpConsts (some sample24TopDown) usedImage =
        .ok ⟨true, ⟨[⟨3, 2, 1, 0⟩, ⟨6, 5, 4, 0⟩, ⟨9, 8, 7, 0⟩, ⟨12, 11, 10, 0⟩], 2, -2⟩, []⟩ :=
  ⟨(origin_normalization bmpConsts (fileHeaderOf sample24)
      (headerStateOf bmpConsts sample24).infoHead (sampleHeader 40 2 2 24 0 0 54) []
      sample24Rows 8 54 [] (by decide) (by decide) (by decide) (by decide) (by decide)
      (by decide)).1,
    by decide, by decide⟩

/-! ## Row padding -/

theorem readRow_map_oob (rowBytes : List Nat) (k : Nat) (h : ¬ k < rowBytes.length) :
    readRow (rowBytes.map some) k = .error .outOfBounds := by
  unfold readRow
  have : (rowBytes.map some).get? k = none := by
    simp [List.getElem?_eq_none (show rowBytes.length ≤ k by omega)]
  rw [this]

theorem readRow_map_congr (r1 r2 : List Nat) (k : Nat) (hlen : r1.length = r2.length)
    (h : r1.getD k 0 = r2.getD k 0) :
    readRow (r1.map some) k = readRow (r2.map some) k := by
  by_cases hk : k < r1.length
  · rw [readRow_map_some r1 k hk, readRow_map_some r2 k (by omega), h]
  · rw [readRow_map_oob r1 k hk, readRow_map_oob r2 k (by omega)]

theorem foldlM_congr {α β : Type} (f g : β → α → Except Fault β) (l : List α) :
    ∀ init : β, (∀ x ∈ l, ∀ acc, f acc x = g acc x) → l.foldlM f init = l.foldlM g init := by
  induction l with
  | nil => intro init _; rfl
  | cons a l ih =>
    intro init h
    simp only [List.foldlM_cons]
    rw [h a (List.mem_cons_self _ _) init]
    cases g init a with
    | error e => rfl
    | ok b =>
      simp only [bind, Except.bind]
      exact ih b (fun x hx acc => h x (List.mem_cons_of_mem _ hx) acc)

theorem rawPixelBytes_congr (row1 row2 : List (Option Nat)) (pixelSize_bytes j : Nat)
    (h : ∀ k, k < pixelSize_bytes →
      readRow row1 (j * pixelSize_bytes + k) = readRow row2 (j * pixelSize_bytes + k)) :
    rawPixelBytes row1 pixelSize_bytes j = rawPixelBytes row2 pixelSize_bytes j := by
  unfold rawPixelBytes
  apply foldlM_congr
  intro k hk acc
  rw [List.mem_range] at hk
  rw [h k hk]

theorem directRow_congr (infoHead : InfoHeader)
    (pixelSize_bytes redShift greenShift blueShift alphaShift used : Nat)
    (row1 row2 : List (Option Nat)) (hrow : ∀ k, k < used → readRow row1 k = readRow row2 k)
    (n : Nat) :
    ∀ (j : Nat) (pixels : List Color4u), (j + n) * pixelSize_bytes ≤ used →
      directRow infoHead pixelSize_bytes redShift greenShift blueShift alphaShift row1 n j pixels =
        directRow infoHead pixelSize_bytes redShift greenShift blueShift alphaShift row2 n j pixels := by
  induction n with
  | zero => intro j pixels _; simp [directRow]
  | succ n ih =>
    intro j pixels hle
    have hraw : rawPixelBytes row1 pixelSize_bytes j = rawPixelBytes row2 pixelSize_bytes j := by
      apply rawPixelBytes_congr
      intro k hk
      apply hrow
      have : (j + 1) * pixelSize_bytes ≤ (j + (n + 1)) * pixelSize_bytes :=
        Nat.mul_le_mul_right _ (by omega)
      have e : (j + 1) * pixelSize_bytes = j * pixelSize_bytes + pixelSize_bytes := by ring
      omega
    simp only [directRow, hraw]
    cases rawPixelBytes row2 pixelSize_bytes j with
    | error e => rfl
    | ok raw =>
      simp only []
      exact ih (j + 1) _ (by rw [show j + 1 + n = j + (n + 1) by omega]; exact hle)

theorem specIndexedRow_congr (b used : Nat) (palette : List Color4u)
    (row1 row2 : List (Option Nat)) (hrow : ∀ k, k < used → readRow row1 k = readRow row2 k)
    (n : Nat) :
    ∀ (x : Nat) (pixels : List Color4u), (∀ y, y < x + n → y / (8 / b) < used) →
      specIndexedRow b palette row1 n x pixels = specIndexedRow b palette row2 n x pixels := by
  induction n with
  | zero => intro x pixels _; simp [specIndexedRow]
  | succ n ih =>
    intro x pixels hused
    simp only [specIndexedRow, hrow _ (hused x (by omega))]
    cases readRow row2 (x / (8 / b)) with
    | error e => rfl
    | ok v =>
      simp only []
      cases palette.get? ((v >>> (b * (8 / b - 1 - x % (8 / b)))) &&& (2 ^ b - 1)) with
      | none => rfl
      | some color =>
        simp only []
        exact ih (x + 1) _ (fun y hy => hused y (by omega))

theorem indexedRowBody_congr (b : Nat) (hb : IndexedDepth b) (palette : List Color4u)
    (width used : Nat) (r1 r2 : List Nat) (pixels : List Color4u)
    (hlen : r1.length = r2.length) (hagree : ∀ k, k < used → r1.getD k 0 = r2.getD k 0)
    (hused : ∀ y, y < width → y / (8 / b) < used) :
    indexedRowBody b (8 / b) (indexMask b) palette width (r1.map some) pixels =
      indexedRowBody b (8 / b) (indexMask b) palette width (r2.map some) pixels := by
  unfold indexedRowBody
  rcases Nat.eq_zero_or_pos width with h0 | hpos
  · subst h0
    by_cases hk : 0 < r1.length
    · rw [readRow_map_some r1 0 hk, readRow_map_some r2 0 (by omega)]
      simp [indexedRow]
    · rw [readRow_map_oob r1 0 hk, readRow_map_oob r2 0 (by omega)]
  · have h00 : 0 / (8 / b) < used := hused 0 hpos
    have hu : 0 < used := by simpa using h00
    have hrow : ∀ k, k < used → readRow (r1.map some) k = readRow (r2.map some) k :=
      fun k hk => readRow_map_congr r1 r2 k hlen (hagree k hk)
    rw [hrow 0 hu]
    cases hr : readRow (r2.map some) 0 with
    | error e => rfl
    | ok byte =>
      simp only []
      rw [indexedRow_eq_spec b hb _ _ _ 0 0 byte pixels (Nat.zero_le _)
          (fun _ => by rw [hrow 0 hu]; exact hr),
        indexedRow_eq_spec b hb _ _ _ 0 0 byte pixels (Nat.zero_le _) (fun _ => hr)]
      exact specIndexedRow_congr b used palette _ _ hrow width _ pixels
        (fun y hy => hused y (by omega))

theorem foldRows_congr (body : List (Option Nat) → List Color4u → Except Fault (List Color4u))
    (rs1 : List (List Nat)) :
    ∀ (rs2 : List (List Nat)) (pixels : List Color4u), rs1.length = rs2.length →
      (∀ i, i < rs1.length → ∀ px,
        body ((rs1.getD i []).map some) px = body ((rs2.getD i []).map some) px) →
      foldRows body rs1 pixels = foldRows body rs2 pixels := by
  induction rs1 with
  | nil =>
    intro rs2 pixels hlen _
    cases rs2 with
    | nil => rfl
    | cons _ _ => simp at hlen
  | cons r rs ih =>
    intro rs2 pixels hlen h
    cases rs2 with
    | nil => simp at hlen
    | cons r2 rs2 =>
      have h0 := h 0 (by simp) pixels
      simp only [List.getD_cons_zero] at h0
      simp only [foldRows, h0]
      cases body (r2.map some) pixels with
      | error e => rfl
      | ok px =>
        simp only []
        apply ih rs2 px (by simpa using hlen)
        intro i hi px2
        have := h (i + 1) (by simp; omega) px2
        simpa using this

theorem rowChunk_getD (bytes : List Nat) (s q k : Nat) (hk : k < s)
    (hlen : q + s ≤ bytes.length) :
    (rowChunk bytes s q).getD k 0 = bytes.getD (q + k) 0 % 256 := by
  unfold rowChunk
  simp only [List.getD_eq_getElem?_getD, List.getElem?_map, List.getElem?_take, hk, if_true,
    List.getElem?_drop]
  rw [List.getElem?_eq_getElem (show q + k < bytes.length by omega)]
  rfl

theorem rowsRead_getD (bytes : List Nat) (s off n i : Nat) (hi : i < n) :
    (rowsRead bytes s (off : Int) (s : Int) n).getD i [] = rowChunk bytes s (off + i * s) := by
  unfold rowsRead
  rw [List.getD_eq_getElem?_getD, List.getElem?_map,
    List.getElem?_eq_getElem (by rw [List.length_range]; exact hi)]
  simp only [List.getElem_range, Option.map_some', Option.getD_some]
  have : (off : Int) + (i : Int) * (s : Int) = ((off + i * s : Nat) : Int) := by push_cast; ring
  rw [this, Int.toNat_ofNat]

theorem rowsRead_length (bytes : List Nat) (s : Nat) (start step : Int) (n : Nat) :
    (rowsRead bytes s start step n).length = n := by
  simp [rowsRead]

theorem forward_iter (len off s n : Nat) (hcomplete : off + n * s ≤ len)
    (hend : (off : Int) + (n : Int) * (s : Int) < 2 ^ 31) :
    ∀ i : Nat, i < n → 0 ≤ (off : Int) + i * (s : Int) ∧
      ((off : Int) + i * (s : Int)).toNat + s ≤ len ∧
      -(2 : Int) ^ 31 ≤ (off : Int) + (i + 1) * (s : Int) ∧
      (off : Int) + (i + 1) * (s : Int) < (2 : Int) ^ 31 := by
  intro i hi
  have hmul : (i + 1) * s ≤ n * s := Nat.mul_le_mul_right s hi
  have hmulZ : ((i : Int) + 1) * (s : Int) ≤ (n : Int) * (s : Int) := by exact_mod_cast hmul
  have hnn : (0 : Int) ≤ (i : Int) * (s : Int) := mul_nonneg (by omega) (by omega)
  have hnn1 : (0 : Int) ≤ ((i : Int) + 1) * (s : Int) := mul_nonneg (by omega) (by omega)
  have e : ((off : Int) + (i : Int) * (s : Int)).toNat = off + i * s := by
    have : (off : Int) + (i : Int) * (s : Int) = ((off + i * s : Nat) : Int) := by
      push_cast; ring
    rw [this, Int.toNat_ofNat]
  refine ⟨by linarith, ?_, by linarith, by linarith⟩
  rw [e]
  have : i * s + s = (i + 1) * s := by ring
  omega

theorem chunks_agree (bytes bytes2 : List Nat) (s n off used : Nat)
    (hcomplete : off + n * s ≤ bytes.length) (hlen : bytes2.length = bytes.length)
    (hagree : ∀ q, q < bytes.length → bytes2.getD q 0 % 256 ≠ bytes.getD q 0 % 256 →
      off ≤ q ∧ q < off + n * s ∧ used ≤ (q - off) % s)
    (i : Nat) (hi : i < n) :
    (rowChunk bytes s (off + i * s)).length = (rowChunk bytes2 s (off + i * s)).length ∧
    ∀ k, k < used →
      (rowChunk bytes s (off + i * s)).getD k 0 = (rowChunk bytes2 s (off + i * s)).getD k 0 := by
  have hmul : (i + 1) * s ≤ n * s := Nat.mul_le_mul_right s hi
  have hrow : off + i * s + s ≤ bytes.length := by
    have : i * s + s = (i + 1) * s := by ring
    omega
  have hl1 := rowChunk_length bytes s (off + i * s) hrow
  have hl2 := rowChunk_length bytes2 s (off + i * s) (by omega)
  refine ⟨by rw [hl1, hl2], fun k hk => ?_⟩
  by_cases hks : k < s
  · rw [rowChunk_getD bytes s _ k hks hrow, rowChunk_getD bytes2 s _ k hks (by omega)]
    by_contra hne
    have h := hagree (off + i * s + k) (by omega) (fun e => hne e.symm)
    have hmod : (off + i * s + k - off) % s = k := by
      rw [show off + i * s + k - off = k + i * s by omega, Nat.add_mul_mod_self_right,
        Nat.mod_eq_of_lt hks]
    omega
  · rw [List.getD_eq_default _ _ (by omega), List.getD_eq_default _ _ (by omega)]

theorem direct_used (bitsPerPixel : Nat) (width : Int) :
    (0 + width.toNat) * (bitsPerPixel / 8) ≤ usedRowBytes bitsPerPixel width := by
  unfold usedRowBytes
  rw [Nat.le_div_iff_mul_le (by omega)]
  have h1 : bitsPerPixel / 8 * 8 ≤ bitsPerPixel := Nat.div_mul_le_self _ _
  have h2 : width.toNat * (bitsPerPixel / 8 * 8) ≤ width.toNat * bitsPerPixel :=
    Nat.mul_le_mul_left _ h1
  have e1 : (0 + width.toNat) * (bitsPerPixel / 8) * 8 = width.toNat * (bitsPerPixel / 8 * 8) := by
    ring
  have e2 : bitsPerPixel * width.toNat = width.toNat * bitsPerPixel := by ring
  omega

theorem indexed_used (b : Nat) (hb : IndexedDepth b) (width : Int) :
    ∀ y, y < width.toNat → y / (8 / b) < usedRowBytes b width := by
  intro y hy
  unfold usedRowBytes
  rcases hb with h | h | h | h <;> subst h <;> simp only [Nat.reduceDiv] <;> omega

/-- C10: row padding is skipped.  Take a header with height `n` not below zero, row size `s`
and pixel-data offset `off`, and a file that holds all `n` rows.  The row loop builds buffer row
`i` from the `s` file bytes at `off + i × s`.  A second file of the same length that differs
from the first only in padding bytes (bytes of a row at or behind byte
`ceil(bitsPerPixel × width / 8)` of the row) decodes to the same result, with the
direct-colour extractor and (when the palette lies in front of the pixel data) with the
indexed extractor. -/
theorem row_padding_skipped (c : BmpConsts) (fileHead : FileHeader) (infoHead : InfoHeader)
    (bytes bytes2 : List Nat) (s n off pos : Nat) (pixels : List Color4u)
    (hsize : rowSizeBytes infoHead._bitsPerPixel infoHead._bmpWidth_px = .ok (s : Int))
    (hh : infoHead._bmpHeight_px = (n : Int)) (hcount : (n : Int) < 2 ^ 31)
    (hoff : toInt32 fileHead._pixelOffset_bytes = (off : Int))
    (hcomplete : off + n * s ≤ bytes.length)
    (hend : (off : Int) + (n : Int) * (s : Int) < 2 ^ 31)
    (hlen : bytes2.length = bytes.length)
    (hagree : ∀ q, q < bytes.length → bytes2.getD q 0 % 256 ≠ bytes.getD q 0 % 256 →
      off ≤ q ∧ q < off + n * s ∧
        usedRowBytes infoHead._bitsPerPixel infoHead._bmpWidth_px ≤ (q - off) % s) :
    (∀ body : List (Option Nat) → List Color4u → Except Fault (List Color4u),
      rowLoop body s (s : Int) n (off : Int) ⟨bytes, pos, false⟩ (newRow s) pixels =
        foldRows body
          ((List.range n).map (fun i => rowChunk bytes s (off + i * s))) pixels) ∧
    extractPixels ⟨bytes, pos, false⟩ fileHead infoHead pixels =
      extractPixels ⟨bytes2, pos, false⟩ fileHead infoHead pixels ∧
    (IndexedDepth infoHead._bitsPerPixel → infoHead._numPaletteColors ≤ 255 →
      (c.FILEHEADER_SIZE_BYTES + infoHead._headerSize_bytes) % 2 ^ 32 +
        4 * infoHead._numPaletteColors ≤ off →
      extractIndexedPixels c ⟨bytes, pos, false⟩ fileHead infoHead pixels =
        extractIndexedPixels c ⟨bytes2, pos, false⟩ fileHead infoHead pixels) := by
  have hit1 := forward_iter bytes.length off s n hcomplete hend
  have hit2 := forward_iter bytes2.length off s n (by omega) hend
  have hplan : rowPlan fileHead infoHead (s : Int) = .ok ((n : Int), (off : Int), (s : Int)) := by
    rw [rowPlan_bottom_up fileHead infoHead (s : Int) n hh hcount, hoff]
  have hchunks := chunks_agree bytes bytes2 s n off
    (usedRowBytes infoHead._bitsPerPixel infoHead._bmpWidth_px) hcomplete hlen hagree
  have hrows : ∀ (body : List (Option Nat) → List Color4u → Except Fault (List Color4u)),
      (∀ (r1 r2 : List Nat) (px : List Color4u), r1.length = r2.length →
        (∀ k, k < usedRowBytes infoHead._bitsPerPixel infoHead._bmpWidth_px →
          r1.getD k 0 = r2.getD k 0) → body (r1.map some) px = body (r2.map some) px) →
      foldRows body (rowsRead bytes s (off : Int) (s : Int) n) pixels =
        foldRows body (rowsRead bytes2 s (off : Int) (s : Int) n) pixels := by
    intro body hbody
    apply foldRows_congr
    · rw [rowsRead_length, rowsRead_length]
    · intro i hi px
      rw [rowsRead_length] at hi
      rw [rowsRead_getD bytes s off n i hi, rowsRead_getD bytes2 s off n i hi]
      exact hbody _ _ px (hchunks i hi).1 (hchunks i hi).2
  refine ⟨fun body => ?_, ?_, fun hb hcol hpal => ?_⟩
  · rw [rowLoop_complete body bytes s (s : Int) n (off : Int) pos (newRow s) pixels
      (by simp [newRow]) hit1]
    rfl
  · rw [extractPixels_complete bytes pos fileHead infoHead pixels s n _ _ hsize hplan hit1,
      extractPixels_complete bytes2 pos fileHead infoHead pixels s n _ _ hsize hplan hit2]
    have hfold : ∀ r g b a : Nat,
        foldRows (directRowBody infoHead (infoHead._bitsPerPixel / 8) r g b a)
            (rowsRead bytes s (off : Int) (s : Int) n) pixels =
          foldRows (directRowBody infoHead (infoHead._bitsPerPixel / 8) r g b a)
            (rowsRead bytes2 s (off : Int) (s : Int) n) pixels := by
      intro r g b a
      apply hrows
      intro r1 r2 px hl hk
      unfold directRowBody
      exact directRow_congr infoHead _ r g b a _ _ _
        (fun k hk2 => readRow_map_congr r1 r2 k hl (hk k hk2)) _ 0 px
        (direct_used infoHead._bitsPerPixel infoHead._bmpWidth_px)
    simp only [hfold]
  · rw [extractIndexedPixels_complete c bytes pos fileHead infoHead pixels s n _ _ hcol
        (by omega) hsize hplan hit1,
      extractIndexedPixels_complete c bytes2 pos fileHead infoHead pixels s n _ _ hcol
        (by omega) hsize hplan hit2]
    have hentries : (List.range infoHead._numPaletteColors).map
          (fun j => paletteEntryAt bytes
            ((c.FILEHEADER_SIZE_BYTES + infoHead._headerSize_bytes) % 2 ^ 32 + 4 * j)) =
        (List.range infoHead._numPaletteColors).map
          (fun j => paletteEntryAt bytes2
            ((c.FILEHEADER_SIZE_BYTES + infoHead._headerSize_bytes) % 2 ^ 32 + 4 * j)) := by
      apply List.map_congr_left
      intro j hj
      rw [List.mem_range] at hj
      have hsame : ∀ q, q < off → bytes.getD q 0 % 256 = bytes2.getD q 0 % 256 := by
        intro q hq
        by_contra hne
        have := hagree q (by omega) (fun e => hne e.symm)
        omega
      unfold paletteEntryAt
      rw [hsame _ (by omega), hsame _ (by omega), hsame _ (by omega), hsame _ (by omega)]
    rw [hentries]
    have hfold := hrows
      (indexedRowBody infoHead._bitsPerPixel (8 / infoHead._bitsPerPixel)
        (indexMask infoHead._bitsPerPixel)
        ((List.range infoHead._numPaletteColors).map (fun j => paletteEntryAt bytes2
          ((c.FILEHEADER_SIZE_BYTES + infoHead._headerSize_bytes) % 2 ^ 32 + 4 * j)))
        infoHead._bmpWidth_px.toNat)
      (fun r1 r2 px hl hk =>
        indexedRowBody_congr infoHead._bitsPerPixel hb _ _ _ r1 r2 px hl hk
          (indexed_used infoHead._bitsPerPixel hb infoHead._bmpWidth_px))
    rw [hfold]

theorem row_padding_skipped_witness :
    extractIndexedPixels bmpConsts ⟨sample8, 54, false⟩ (fileHeaderOf sample8)
        (headerStateOf bmpConsts sample8).infoHead [] =
      extractIndexedPixels bmpConsts ⟨sample8Padded, 54, false⟩ (fileHeaderOf sample8)
        (headerStateOf bmpConsts sample8).infoHead [] ∧
      rowSizeBytes 8 3 = .ok 4 ∧
      load bmpConsts (some sample8) usedImage =
        .ok ⟨true, ⟨[⟨30, 20, 10, 0⟩, ⟨31, 21, 11, 0⟩, ⟨32, 22, 12, 0⟩,
          ⟨32, 22, 12, 0⟩, ⟨31, 21, 11, 0⟩, ⟨30, 20, 10, 0⟩], 3, 2⟩, []⟩ ∧
      load bmpConsts (some sample8Padded) usedImage =
        .ok ⟨true, ⟨[⟨30, 20, 10, 0⟩, ⟨31, 21, 11, 0⟩, ⟨32, 22, 12, 0⟩,
          ⟨32, 22, 12, 0⟩, ⟨31, 21, 11, 0⟩, ⟨30, 20, 10, 0⟩], 3, 2⟩, []⟩ :=
  ⟨(row_padding_skipped bmpConsts (fileHeaderOf sample8) (headerStateOf bmpConsts sample8).infoHead
      sample8 sample8Padded 4 2 66 54 [] (by decide) (by decide) (by decide) (by decide)
      (by decide) (by decide) (by decide) (by decide)).2.2 (by decide) (by decide) (by decide),
    by decide, by decide, by decide⟩

/-! ## The shift scan -/

theorem land_one_shiftLeft_eq_zero (mask shift : Nat) :
    mask &&& (0x01 <<< shift) = 0 ↔ mask.testBit shift = false := by
  rw [Nat.one_shiftLeft, Nat.and_two_pow]
  cases h : mask.testBit shift
  · simp
  · simp [Nat.pos_pow_of_pos]

theorem scanShift_lowest (mask : Nat) (fuel : Nat) :
    ∀ shift k : Nat, fuel + shift = 32 → shift ≤ k → k < 32 → mask.testBit k = true →
      (∀ j, j < shift → mask.testBit j = false) →
      ∃ s, scanShift mask fuel shift = .ok s ∧ s ≤ 31 ∧ mask.testBit s = true ∧
        ∀ j, j < s → mask.testBit j = false := by
  induction fuel with
  | zero => intro shift k h1 h2 h3; omega
  | succ fuel ih =>
    intro shift k hsum hle hk hbit hlow
    simp only [scanShift]
    by_cases hs : mask.testBit shift = false
    · rw [if_pos ((land_one_shiftLeft_eq_zero mask shift).2 hs)]
      have hne : shift ≠ k := by
        rintro rfl
        rw [hbit] at hs
        cases hs
      apply ih (shift + 1) k (by omega) (by omega) hk hbit
      intro j hj
      rcases Nat.lt_or_ge j shift with h | h
      · exact hlow j h
      · have : j = shift := by omega
        rw [this]
        exact hs
    · rw [if_neg (fun h => hs ((land_one_shiftLeft_eq_zero mask shift).1 h))]
      refine ⟨shift, rfl, by omega, ?_, hlow⟩
      simpa using hs

/-- C19: for every non-zero 32-bit channel mask the shift scan of `extractPixels` ends with a
shift of at most 31 that is the position of the lowest set bit of the mask: that bit is set
and every lower bit is clear. -/
theorem scanShift_nonzero (mask : Nat) (hne : mask ≠ 0) (h32 : mask < 2 ^ 32) :
    ∃ s, scanShift mask 32 0 = .ok s ∧ s ≤ 31 ∧ mask.testBit s = true ∧
      ∀ j, j < s → mask.testBit j = false := by
  obtain ⟨k, hk⟩ := Nat.ne_zero_implies_bit_true hne
  have hk32 : k < 32 := by
    by_contra hge
    have h1 : 2 ^ 32 ≤ 2 ^ k := Nat.pow_le_pow_right (by omega) (by omega)
    have h2 := Nat.testBit_implies_ge hk
    omega
  exact scanShift_lowest mask 32 0 k rfl (Nat.zero_le _) hk32 hk (fun j hj => by omega)

theorem scanShift_nonzero_witness :
    ∃ s, scanShift 0x7c00 32 0 = .ok s ∧ s ≤ 31 ∧ Nat.testBit 0x7c00 s = true ∧
      ∀ j, j < s → Nat.testBit 0x7c00 j = false :=
  scanShift_nonzero 0x7c00 (by decide) (by decide)

/-! ## Direct-colour pixels -/

theorem rawValue_succ (b : Nat → Nat) (n : Nat) :
    rawValue b (n + 1) = rawValue b n + b n * 256 ^ n := by
  simp [rawValue, List.range_succ, List.map_append, List.sum_append]

theorem rawPixel_fold (row : List (Option Nat)) (pixelSize_bytes j : Nat) (b : Nat → Nat)
    (m : Nat) :
    m ≤ 4 →
    (∀ k, k < m → readRow row (j * pixelSize_bytes + k) = .ok (b k) ∧ b k < 256) →
    (List.range m).foldlM
        (fun rawPixelBytes k =>
          match readRow row (j * pixelSize_bytes + k) with
          | .error e => .error e
          | .ok pixelByte => .ok (rawPixelBytes ||| ((pixelByte <<< (k * 8)) % 2 ^ 32)))
        0 = (.ok (rawValue b m) : Except Fault Nat) ∧ rawValue b m < 2 ^ (8 * m) := by
  induction m with
  | zero => intro _ _; simp [rawValue]; rfl
  | succ m ih =>
    intro hm hb
    obtain ⟨hfold, hlt⟩ := ih (by omega) (fun k hk => hb k (by omega))
    obtain ⟨hread, hbyte⟩ := hb m (by omega)
    have hpow : (256 : Nat) ^ m = 2 ^ (8 * m) := by
      rw [show (256 : Nat) = 2 ^ 8 by norm_num, ← Nat.pow_mul]
    have hshift : b m <<< (m * 8) = 2 ^ (8 * m) * b m := by
      rw [Nat.shiftLeft_eq, Nat.mul_comm m 8, Nat.mul_comm]
    have hbound : 2 ^ (8 * m) * b m < 2 ^ (8 * (m + 1)) := by
      have : 2 ^ (8 * (m + 1)) = 2 ^ (8 * m) * 256 := by
        rw [show 8 * (m + 1) = 8 * m + 8 by ring, Nat.pow_add]
      rw [this]
      exact Nat.mul_lt_mul_of_pos_left hbyte (by positivity)
    have h32 : 2 ^ (8 * (m + 1)) ≤ 2 ^ 32 := Nat.pow_le_pow_right (by omega) (by omega)
    have hor : rawValue b m ||| 2 ^ (8 * m) * b m = rawValue b m + b m * 256 ^ m := by
      rw [Nat.or_comm, ← Nat.mul_add_lt_is_or hlt, hpow]
      ring
    refine ⟨?_, ?_⟩
    · rw [List.range_succ, List.foldlM_append, hfold]
      simp only [bind, Except.bind, List.foldlM_cons, List.foldlM_nil, hread, hshift,
        Nat.mod_eq_of_lt (lt_of_lt_of_le hbound h32), hor, rawValue_succ, pure, Except.pure]
    · rw [rawValue_succ, hpow]
      have : 2 ^ (8 * (m + 1)) = 2 ^ (8 * m) * 256 := by
        rw [show 8 * (m + 1) = 8 * m + 8 by ring, Nat.pow_add]
      rw [this]
      nlinarith

theorem rawPixelBytes_value (row : List (Option Nat)) (pixelSize_bytes j : Nat) (b : Nat → Nat)
    (hsize : pixelSize_bytes ≤ 4)
    (hb : ∀ k, k < pixelSize_bytes →
      readRow row (j * pixelSize_bytes + k) = .ok (b k) ∧ b k < 256) :
    rawPixelBytes row pixelSize_bytes j = .ok (rawValue b pixelSize_bytes) :=
  (rawPixel_fold row pixelSize_bytes j b pixelSize_bytes hsize hb).1

theorem exists_bit_below_32 (mask : Nat) (hne : mask ≠ 0) (h32 : mask < 2 ^ 32) :
    ∃ k, k < 32 ∧ mask.testBit k = true := by
  obtain ⟨k, hk⟩ := Nat.ne_zero_implies_bit_true hne
  refine ⟨k, ?_, hk⟩
  by_contra hge
  have h1 : 2 ^ 32 ≤ 2 ^ k := Nat.pow_le_pow_right (by omega) (by omega)
  have h2 := Nat.testBit_implies_ge hk
  omega

theorem scanShift_lowestSetBit (mask : Nat) (hne : mask ≠ 0) (h32 : mask < 2 ^ 32) :
    ∃ s, scanShift mask 32 0 = .ok s ∧ s ≤ 31 ∧ LowestSetBit mask s := by
  obtain ⟨k, hk32, hk⟩ := exists_bit_below_32 mask hne h32
  obtain ⟨s, h1, h2, h3, h4⟩ :=
    scanShift_lowest mask 32 0 k rfl (Nat.zero_le _) hk32 hk (fun j hj => by omega)
  exact ⟨s, h1, h2, h3, h4⟩

/-- C11: a direct-colour pixel of `n = bitsPerPixel / 8` bytes `b 0, ..., b (n-1)` has the raw
value `v = b 0 + b 1 × 256 + ...`; for every non-zero 32-bit mask the shift found by the scan
is the lowest set bit `s` of the mask, and the pixel loop appends the colour whose channels
are `((v & m) >> s) mod 256`, with no rescaling.  With the masks 0x7C00, 0x03E0, 0x001F the
shifts are 10, 5, 0 and the raw value 0x7FFF gives 31 for red, green and blue. -/
theorem direct_channel_formula (infoHead : InfoHeader) (row : List (Option Nat))
    (j m : Nat) (pixels : List Color4u) (b : Nat → Nat)
    (hsize : infoHead._bitsPerPixel / 8 ≤ 4)
    (hb : ∀ k, k < infoHead._bitsPerPixel / 8 →
      readRow row (j * (infoHead._bitsPerPixel / 8) + k) = .ok (b k) ∧ b k < 256)
    (hred : infoHead._redMask ≠ 0 ∧ infoHead._redMask < 2 ^ 32)
    (hgreen : infoHead._greenMask ≠ 0 ∧ infoHead._greenMask < 2 ^ 32)
    (hblue : infoHead._blueMask ≠ 0 ∧ infoHead._blueMask < 2 ^ 32)
    (halpha : infoHead._alphaMask < 2 ^ 32) :
    (∃ redShift greenShift blueShift alphaShift,
      scanShift infoHead._redMask 32 0 = .ok redShift ∧
      LowestSetBit infoHead._redMask redShift ∧
      scanShift infoHead._greenMask 32 0 = .ok greenShift ∧
      LowestSetBit infoHead._greenMask greenShift ∧
      scanShift infoHead._blueMask 32 0 = .ok blueShift ∧
      LowestSetBit infoHead._blueMask blueShift ∧
      scanAlphaShift infoHead._alphaMask = .ok alphaShift ∧
      (infoHead._alphaMask ≠ 0 → LowestSetBit infoHead._alphaMask alphaShift) ∧
      rawPixelBytes row (infoHead._bitsPerPixel / 8) j =
        .ok (rawValue b (infoHead._bitsPerPixel / 8)) ∧
      directRow infoHead (infoHead._bitsPerPixel / 8) redShift greenShift blueShift alphaShift
          row (m + 1) j pixels =
        directRow infoHead (infoHead._bitsPerPixel / 8) redShift greenShift blueShift alphaShift
          row m (j + 1)
          (pixels ++ [⟨channelValue (rawValue b (infoHead._bitsPerPixel / 8)) infoHead._redMask redShift,
            channelValue (rawValue b (infoHead._bitsPerPixel / 8)) infoHead._greenMask greenShift,
            channelValue (rawValue b (infoHead._bitsPerPixel / 8)) infoHead._blueMask blueShift,
            channelValue (rawValue b (infoHead._bitsPerPixel / 8)) infoHead._alphaMask alphaShift⟩])) ∧
    (scanShift 0x7C00 32 0 = .ok 10 ∧ scanShift 0x03E0 32 0 = .ok 5 ∧
      scanShift 0x001F 32 0 = .ok 0 ∧ channelValue 0x7FFF 0x7C00 10 = 31 ∧
      channelValue 0x7FFF 0x03E0 5 = 31 ∧ channelValue 0x7FFF 0x001F 0 = 31) := by
  refine ⟨?_, by decide⟩
  obtain ⟨rs, hrs, _, hrl⟩ := scanShift_lowestSetBit _ hred.1 hred.2
  obtain ⟨gs, hgs, _, hgl⟩ := scanShift_lowestSetBit _ hgreen.1 hgreen.2
  obtain ⟨bs, hbs, _, hbl⟩ := scanShift_lowestSetBit _ hblue.1 hblue.2
  have hraw := rawPixelBytes_value row _ j b hsize hb
  by_cases ha0 : infoHead._alphaMask = 0
  · refine ⟨rs, gs, bs, 0, hrs, hrl, hgs, hgl, hbs, hbl, ?_, fun h => absurd ha0 h, hraw, ?_⟩
    · simp [scanAlphaShift, ha0]
    · simp only [directRow, hraw, maskedColor, channelValue]
  · obtain ⟨as, has, _, hal⟩ := scanShift_lowestSetBit _ ha0 halpha
    refine ⟨rs, gs, bs, as, hrs, hrl, hgs, hgl, hbs, hbl, ?_, fun _ => hal, hraw, ?_⟩
    · simp only [scanAlphaShift, ha0, ne_eq, not_false_eq_true, if_true, has]
    · simp only [directRow, hraw, maskedColor, channelValue]

theorem direct_channel_formula_witness :
    scanShift 0x7C00 32 0 = .ok 10 ∧ channelValue 0x7FFF 0x7C00 10 = 31 ∧
      load bmpConsts (some sample16) usedImage = .ok ⟨true, ⟨[⟨31, 31, 31, 0⟩], 1, 1⟩, []⟩ :=
  ⟨(direct_channel_formula
      (resolveMasks bmpConsts (headerStateOf bmpConsts sample16).infoHead 1)
      ([0xFF, 0x7F, 0, 0].map some) 0 0 [] (fun k => [0xFF, 0x7F].getD k 0)
      (by decide) (by decide) (by decide) (by decide) (by decide) (by decide)).2.1,
    (direct_channel_formula
      (resolveMasks bmpConsts (headerStateOf bmpConsts sample16).infoHead 1)
      ([0xFF, 0x7F, 0, 0].map some) 0 0 [] (fun k => [0xFF, 0x7F].getD k 0)
      (by decide) (by decide) (by decide) (by decide) (by decide) (by decide)).2.2.2.2.1,
    by decide⟩

/-! ## Channel masks -/

/-- C12: for an uncompressed header the masks handed to `extractPixels` are, when the header
revision is below 3 (in particular revision 1, where no mask was read): 16-bit red 0x7C00,
green 0x03E0, blue 0x001F, alpha 0x8000; 32-bit red 0xFF0000, green 0x00FF00, blue 0x0000FF,
alpha 0xFF000000; and 24-bit always red 0xFF0000, green 0x00FF00, blue 0x0000FF, alpha 0.
For 16-bit and 32-bit uncompressed headers of revision 3 or later the alpha mask of the
header (the one read from the file) is kept next to the default colour masks. -/
theorem default_masks (c : BmpConsts) (infoHead : InfoHeader) (infoHeadVersion : Nat)
    (hcomp : infoHead._compression = c.BI_RGB) :
    (infoHead._bitsPerPixel = 16 → infoHeadVersion < 3 →
      (resolveMasks c infoHead infoHeadVersion)._redMask = 0x7C00 ∧
      (resolveMasks c infoHead infoHeadVersion)._greenMask = 0x03E0 ∧
      (resolveMasks c infoHead infoHeadVersion)._blueMask = 0x001F ∧
      (resolveMasks c infoHead infoHeadVersion)._alphaMask = 0x8000) ∧
    (infoHead._bitsPerPixel = 24 →
      (resolveMasks c infoHead infoHeadVersion)._redMask = 0xFF0000 ∧
      (resolveMasks c infoHead infoHeadVersion)._greenMask = 0x00FF00 ∧
      (resolveMasks c infoHead infoHeadVersion)._blueMask = 0x0000FF ∧
      (resolveMasks c infoHead infoHeadVersion)._alphaMask = 0) ∧
    (infoHead._bitsPerPixel = 32 → infoHeadVersion < 3 →
      (resolveMasks c infoHead infoHeadVersion)._redMask = 0xFF0000 ∧
      (resolveMasks c infoHead infoHeadVersion)._greenMask = 0x00FF00 ∧
      (resolveMasks c infoHead infoHeadVersion)._blueMask = 0x0000FF ∧
      (resolveMasks c infoHead infoHeadVersion)._alphaMask = 0xFF000000) ∧
    (infoHead._bitsPerPixel = 16 → 3 ≤ infoHeadVersion →
      (resolveMasks c infoHead infoHeadVersion)._redMask = 0x7C00 ∧
      (resolveMasks c infoHead infoHeadVersion)._greenMask = 0x03E0 ∧
      (resolveMasks c infoHead infoHeadVersion)._blueMask = 0x001F ∧
      (resolveMasks c infoHead infoHeadVersion)._alphaMask = infoHead._alphaMask) ∧
    (infoHead._bitsPerPixel = 32 → 3 ≤ infoHeadVersion →
      (resolveMasks c infoHead infoHeadVersion)._redMask = 0xFF0000 ∧
      (resolveMasks c infoHead infoHeadVersion)._greenMask = 0x00FF00 ∧
      (resolveMasks c infoHead infoHeadVersion)._blueMask = 0x0000FF ∧
      (resolveMasks c infoHead infoHeadVersion)._alphaMask = infoHead._alphaMask) ∧
    ∀ (file : IFStream) (fileHead : FileHeader) (pixels : List Color4u),
      infoHead._bitsPerPixel = 16 ∨ infoHead._bitsPerPixel = 24 ∨ infoHead._bitsPerPixel = 32 →
      extract c file fileHead infoHead infoHeadVersion pixels =
        extractPixels file fileHead (resolveMasks c infoHead infoHeadVersion) pixels := by
  refine ⟨fun h hv => ?_, fun h => ?_, fun h hv => ?_, fun h hv => ?_, fun h hv => ?_,
    fun file fileHead pixels h => ?_⟩
  · simp [resolveMasks, h, hcomp, hv]
  · simp [resolveMasks, h]
  · simp [resolveMasks, h, hcomp, hv]
  · have : ¬ infoHeadVersion < 3 := by omega
    simp [resolveMasks, h, hcomp, this]
  · have : ¬ infoHeadVersion < 3 := by omega
    simp [resolveMasks, h, hcomp, this]
  · have hn : ¬ (infoHead._bitsPerPixel = 1 ∨ infoHead._bitsPerPixel = 2 ∨
        infoHead._bitsPerPixel = 4 ∨ infoHead._bitsPerPixel = 8) := by omega
    simp only [extract, hn, if_false, h, if_true]

theorem default_masks_witness :
    (resolveMasks bmpConsts (headerStateOf bmpConsts sample16).infoHead
        (markVersion5 bmpConsts (headerStateOf bmpConsts sample16)).infoHeadVersion)._redMask =
        0x7C00 ∧
      (resolveMasks bmpConsts (headerStateOf bmpConsts sample16).infoHead
        (markVersion5 bmpConsts (headerStateOf bmpConsts sample16)).infoHeadVersion)._greenMask =
        0x03E0 ∧
      (resolveMasks bmpConsts (headerStateOf bmpConsts sample16).infoHead
        (markVersion5 bmpConsts (headerStateOf bmpConsts sample16)).infoHeadVersion)._blueMask =
        0x001F ∧
      (resolveMasks bmpConsts (headerStateOf bmpConsts sample16).infoHead
        (markVersion5 bmpConsts (headerStateOf bmpConsts sample16)).infoHeadVersion)._alphaMask =
        0x8000 :=
  (default_masks bmpConsts (headerStateOf bmpConsts sample16).infoHead
    (markVersion5 bmpConsts (headerStateOf bmpConsts sample16)).infoHeadVersion
    (by decide)).1 (by decide) (by decide)

/-- C13 as stated fails: a 16-bit uncompressed header of revision 2 supplies the masks
0xF800 and 0x07E0 and the extraction uses 0x7C00 and 0x03E0; a 24-bit header with bit-fields
compression supplies the red mask 0x0000FF and the extraction uses 0xFF0000. -/
theorem supplied_masks_replaced :
    ((markVersion5 bmpConsts (headerStateOf bmpConsts sample16Masks)).infoHeadVersion = 2 ∧
      (headerStateOf bmpConsts sample16Masks).infoHead._redMask = 0xF800 ∧
      (headerStateOf bmpConsts sample16Masks).infoHead._greenMask = 0x07E0 ∧
      (resolveMasks bmpConsts (headerStateOf bmpConsts sample16Masks).infoHead 2)._redMask =
        0x7C00 ∧
      (resolveMasks bmpConsts (headerStateOf bmpConsts sample16Masks).infoHead 2)._greenMask =
        0x03E0) ∧
    ((headerStateOf bmpConsts sample24Bitfields).infoHead._compression = bmpConsts.BI_BITFIELDS ∧
      (headerStateOf bmpConsts sample24Bitfields).infoHead._redMask = 0x0000FF ∧
      (resolveMasks bmpConsts (headerStateOf bmpConsts sample24Bitfields).infoHead 2)._redMask =
        0xFF0000) := by
  decide

/-- C13 (amended): for every 16-bit or 32-bit header with bit-fields compression the masks
handed to `extractPixels` are exactly the masks of the header, that is the ones read from the
file; for every 24-bit header, and for every 16-bit or 32-bit header with uncompressed
compression, they are the default colour masks, whatever the file supplied. -/
theorem bitfields_masks_kept (c : BmpConsts) (infoHead : InfoHeader) (infoHeadVersion : Nat)
    (hdepth : infoHead._bitsPerPixel = 16 ∨ infoHead._bitsPerPixel = 32)
    (hcomp : infoHead._compression = c.BI_BITFIELDS) (hconst : c.BI_BITFIELDS ≠ c.BI_RGB) :
    resolveMasks c infoHead infoHeadVersion = infoHead ∧
    (∀ other : InfoHeader, other._bitsPerPixel = 24 →
      (resolveMasks c other infoHeadVersion)._redMask = 0xFF0000 ∧
      (resolveMasks c other infoHeadVersion)._greenMask = 0x00FF00 ∧
      (resolveMasks c other infoHeadVersion)._blueMask = 0x0000FF) ∧
    (∀ other : InfoHeader, other._bitsPerPixel = 16 → other._compression = c.BI_RGB →
      (resolveMasks c other infoHeadVersion)._redMask = 0x7C00 ∧
      (resolveMasks c other infoHeadVersion)._greenMask = 0x03E0 ∧
      (resolveMasks c other infoHeadVersion)._blueMask = 0x001F) ∧
    (∀ other : InfoHeader, other._bitsPerPixel = 32 → other._compression = c.BI_RGB →
      (resolveMasks c other infoHeadVersion)._redMask = 0xFF0000 ∧
      (resolveMasks c other infoHeadVersion)._greenMask = 0x00FF00 ∧
      (resolveMasks c other infoHeadVersion)._blueMask = 0x0000FF) := by
  have hne : ¬ infoHead._compression = c.BI_RGB := by
    rw [hcomp]
    exact hconst
  refine ⟨?_, fun other h => ?_, fun other h hc => ?_, fun other h hc => ?_⟩
  · rcases hdepth with h | h <;> simp [resolveMasks, h, hne]
  · simp [resolveMasks, h]
  · simp [resolveMasks, h, hc]
  · simp [resolveMasks, h, hc]

theorem bitfields_masks_kept_witness :
    resolveMasks bmpConsts (headerStateOf bmpConsts sample16Bitfields).infoHead 2 =
        (headerStateOf bmpConsts sample16Bitfields).infoHead ∧
      (headerStateOf bmpConsts sample16Bitfields).infoHead._redMask = 0xF800 ∧
      load bmpConsts (some sample16Bitfields) usedImage =
        .ok ⟨true, ⟨[⟨31, 63, 31, 0⟩], 1, 1⟩, []⟩ :=
  ⟨(bitfields_masks_kept bmpConsts (headerStateOf bmpConsts sample16Bitfields).infoHead 2
      (by decide) (by decide) (by decide)).1,
    by decide, by decide⟩

/-! ## Images without an alpha channel -/

theorem directRow_alpha_zero (infoHead : InfoHeader) (ha : infoHead._alphaMask = 0)
    (pixelSize_bytes redShift greenShift blueShift alphaShift : Nat) (row : List (Option Nat))
    (n : Nat) :
    ∀ (j : Nat) (pixels out : List Color4u), (∀ p ∈ pixels, p.alpha = 0) →
      directRow infoHead pixelSize_bytes redShift greenShift blueShift alphaShift row n j pixels
        = .ok out → ∀ p ∈ out, p.alpha = 0 := by
  induction n with
  | zero =>
    intro j pixels out hp h
    simp only [directRow] at h
    cases h
    exact hp
  | succ n ih =>
    intro j pixels out hp h
    simp only [directRow] at h
    split at h
    · cases h
    · apply ih _ _ _ _ h
      intro p hmem
      rw [List.mem_append] at hmem
      rcases hmem with hmem | hmem
      · exact hp p hmem
      · rw [List.mem_singleton] at hmem
        rw [hmem]
        simp [maskedColor, ha]

theorem rowLoop_invariant (P : List Color4u → Prop)
    (body : List (Option Nat) → List Color4u → Except Fault (List Color4u))
    (hbody : ∀ row pixels out, P pixels → body row pixels = .ok out → P out)
    (rowSize_bytes : Nat) (rowOffset_bytes : Int) (n : Nat) :
    ∀ (seekPos : Int) (file : IFStream) (row : List (Option Nat)) (pixels out : List Color4u),
      P pixels →
      rowLoop body rowSize_bytes rowOffset_bytes n seekPos file row pixels = .ok out → P out := by
  induction n with
  | zero =>
    intro seekPos file row pixels out hp h
    simp only [rowLoop] at h
    cases h
    exact hp
  | succ n ih =>
    intro seekPos file row pixels out hp h
    simp only [rowLoop] at h
    split at h
    · cases h
    · rename_i px hrow
      split at h
      · cases h
      · exact ih _ _ _ _ _ (hbody _ _ _ hp hrow) h

theorem extractPixels_alpha_zero (file : IFStream) (fileHead : FileHeader)
    (infoHead : InfoHeader) (pixels out : List Color4u) (ha : infoHead._alphaMask = 0)
    (hp : ∀ p ∈ pixels, p.alpha = 0)
    (h : extractPixels file fileHead infoHead pixels = .ok out) :
    ∀ p ∈ out, p.alpha = 0 := by
  unfold extractPixels at h
  simp only [bind_eq_ok] at h
  obtain ⟨rowSize, _, ⟨numRows, seekPos, step⟩, _, rs, _, gs, _, bs, _, as, _, row, _, h⟩ := h
  exact rowLoop_invariant (fun px => ∀ p ∈ px, p.alpha = 0) _
    (fun row px out hpx hb =>
      directRow_alpha_zero infoHead ha _ _ _ _ _ row _ 0 px out hpx hb)
    _ _ _ _ _ _ _ _ hp h

/-- C14: when the alpha mask handed to `extractPixels` is zero, every pixel it decodes has
alpha 0; and every 24-bit image for which `load` returns true has alpha 0 in every pixel,
whatever its header revision, its compression and the alpha mask its file supplies. -/
theorem zero_alpha_mask (c : BmpConsts) (bytes : List Nat) (self : BmpImage) (r : LoadResult)
    (h : load c (some bytes) self = .ok r) (hok : r.ok = true)
    (hd : (headerStateOf c bytes).infoHead._bitsPerPixel = 24) :
    (∀ p ∈ r.image._pixels, p.alpha = 0) ∧
    ∀ (file : IFStream) (fileHead : FileHeader) (infoHead : InfoHeader) (out : List Color4u),
      infoHead._alphaMask = 0 → extractPixels file fileHead infoHead [] = .ok out →
      ∀ p ∈ out, p.alpha = 0 := by
  refine ⟨?_, fun file fileHead infoHead out ha hex =>
    extractPixels_alpha_zero file fileHead infoHead [] out ha (by simp) hex⟩
  unfold load at h
  simp only at h
  split_ifs at h with h1 h2 h3
  · cases h; simp at hok
  · cases h; simp at hok
  · cases h; simp at hok
  · split at h
    · cases h
    · rename_i pixels hex
      cases h
      rw [(markVersion5_infoHead c _).1] at hex
      have hn : ¬ ((headerStateOf c bytes).infoHead._bitsPerPixel = 1 ∨
          (headerStateOf c bytes).infoHead._bitsPerPixel = 2 ∨
          (headerStateOf c bytes).infoHead._bitsPerPixel = 4 ∨
          (headerStateOf c bytes).infoHead._bitsPerPixel = 8) := by omega
      simp only [extract, hn, if_false, hd, Nat.reduceEqDiff, or_true, or_false, if_true,
        true_or] at hex
      apply extractPixels_alpha_zero _ _ _ [] pixels ?_ (by simp) hex
      simp [resolveMasks, hd]

theorem zero_alpha_mask_witness :
    load bmpConsts (some sample24Bitfields) usedImage =
        .ok ⟨true, ⟨[⟨3, 2, 1, 0⟩], 1, 1⟩, []⟩ ∧
      ∀ p ∈ [(⟨3, 2, 1, 0⟩ : Color4u)], p.alpha = 0 :=
  ⟨by decide,
    (zero_alpha_mask bmpConsts sample24Bitfields usedImage ⟨true, ⟨[⟨3, 2, 1, 0⟩], 1, 1⟩, []⟩
      (by decide) rfl (by decide)).1⟩

/-! ## The palette loop and its 8-bit counter -/

theorem readPalette_never_ok (n : Nat) (hn : 256 ≤ n) (fuel : Nat) :
    ∀ (i : Nat) (file : IFStream) (palette : List Color4u) (res : List Color4u × IFStream),
      i < 256 → readPalette n fuel i file palette ≠ .ok res := by
  induction fuel with
  | zero =>
    intro i file palette res _ h
    simp [readPalette] at h
  | succ fuel ih =>
    intro i file palette res hi h
    have hlt : i < n := by omega
    simp only [readPalette, if_pos hlt] at h
    split at h
    · exact ih _ _ _ res (Nat.mod_lt _ (by omega)) h
    · cases h

theorem extractIndexedPixels_256 (c : BmpConsts) (file : IFStream) (fileHead : FileHeader)
    (infoHead : InfoHeader) (pixels out : List Color4u)
    (hn : 256 ≤ infoHead._numPaletteColors) :
    extractIndexedPixels c file fileHead infoHead pixels ≠ .ok out := by
  intro h
  unfold extractIndexedPixels at h
  rw [bind_eq_ok] at h
  obtain ⟨res, hres, _⟩ := h
  exact readPalette_never_ok _ hn _ 0 _ [] res (by omega) hres

theorem load_palette_256 (c : BmpConsts) (bytes : List Nat) (self : BmpImage)
    (hm : (readMagic bytes).1 = c.BMPMAGIC)
    (hcs : (headerStateOf c bytes).infoHead._headerSize_bytes < c.V4INFOHEADER_SIZE_BYTES ∨
      (headerStateOf c bytes).infoHead._colorSpaceMagic = c.SRGBMAGIC)
    (hcomp : (headerStateOf c bytes).infoHead._compression = c.BI_RGB ∨
      (headerStateOf c bytes).infoHead._compression = c.BI_BITFIELDS)
    (hd : IndexedDepth (headerStateOf c bytes).infoHead._bitsPerPixel)
    (hn : 256 ≤ (headerStateOf c bytes).infoHead._numPaletteColors) :
    ∀ r, load c (some bytes) self ≠ .ok r := by
  intro r h
  have h4 : ¬ ((headerStateOf c bytes).infoHead._headerSize_bytes ≥ c.V4INFOHEADER_SIZE_BYTES ∧
      (headerStateOf c bytes).infoHead._colorSpaceMagic ≠ c.SRGBMAGIC) := by
    rintro ⟨h1, h2⟩
    rcases hcs with h | h
    · omega
    · exact h2 h
  have h5 : ¬ ((headerStateOf c bytes).infoHead._compression ≠ c.BI_RGB ∧
      (headerStateOf c bytes).infoHead._compression ≠ c.BI_BITFIELDS) := by
    rintro ⟨h1, h2⟩
    rcases hcomp with h | h
    · exact h1 h
    · exact h2 h
  unfold load at h
  simp only [hm, ne_eq, not_true_eq_false, if_false, h4, h5] at h
  split at h
  · cases h
  · rename_i pixels hex
    rw [(markVersion5_infoHead c _).1] at hex
    unfold IndexedDepth at hd
    simp only [extract, hd, if_true] at hex
    exact extractIndexedPixels_256 c _ _ _ _ _ hn hex

/-- C15 at its failing input.  For up to 255 declared colours the palette loop returns exactly
that many entries, entry `j` built from the four file bytes at the start offset plus `4 × j`.
With 256 declared colours the loop never returns a palette, whatever the file holds, because
its 8-bit counter stays below 256; the run of `load` on `sample256`, an 8-bit image that holds
all 256 palette entries, does not return. -/
theorem palette_256_never_read :
    (∀ (n : Nat) (file : IFStream), n ≤ 255 → file.failbit = false →
      file.pos + 4 * n ≤ file.bytes.length →
      readPalette n (file.bytes.length + 1) 0 file [] =
        .ok ((List.range n).map (fun j => paletteEntryAt file.bytes (file.pos + 4 * j)),
          ⟨file.bytes, file.pos + 4 * n, false⟩)) ∧
    (∀ (fuel : Nat) (file : IFStream) (res : List Color4u × IFStream),
      readPalette 256 fuel 0 file [] ≠ .ok res) ∧
    (headerStateOf bmpConsts sample256).infoHead._numPaletteColors = 256 ∧
    (fileHeaderOf sample256)._pixelOffset_bytes = 54 + 4 * 256 ∧
    ∀ r, load bmpConsts (some sample256) usedImage ≠ .ok r := by
  refine ⟨fun n file hn hf hlen => ?_,
    fun fuel file res => readPalette_never_ok 256 (Nat.le_refl _) fuel 0 file [] res (by omega),
    by decide, by decide,
    load_palette_256 bmpConsts sample256 usedImage (by decide) (by decide) (by decide)
      (by decide) (by decide)⟩
  have := readPalette_entries n hn n 0 [] file (file.bytes.length + 1) hf (by omega) hlen
    (by omega)
  simpa using this

/-! ## The row size and single precision -/

theorem roundF32Nat_small (m : Nat) (h : m < 2 ^ 24) : roundF32Nat m = m := by
  have he : f32Exponent m = 0 := by
    unfold f32Exponent
    rw [if_pos h]
  unfold roundF32Nat
  simp only [he, Nat.pow_zero, Nat.mod_one, Nat.mul_zero, Nat.div_one, Nat.mul_one]
  rw [if_neg (by omega)]

theorem rowSizeBytes_small (b : Nat) (w : Int) (hw : 0 ≤ w) (h : (b : Int) * w < 2 ^ 24) :
    rowSizeBytes b w = .ok ((((b : Int) * w + 31) / 32) * 4) := by
  have h0 : (0 : Int) ≤ (b : Int) * w := mul_nonneg (by omega) hw
  have hc : checkInt ((b : Int) * w) = .ok ((b : Int) * w) := by
    unfold checkInt
    rw [if_pos ⟨by omega, by omega⟩]
  have hr : roundF32 ((b : Int) * w) = (b : Int) * w := by
    unfold roundF32
    rw [if_neg (by omega), roundF32Nat_small _ (by omega)]
    omega
  simp only [rowSizeBytes, hc, bind, Except.bind, pure, Except.pure, hr]

/-- C16 at its failing input.  As long as `bitsPerPixel × width` is below 2^24 the row size
is `ceil(bitsPerPixel × width / 32) × 4` exactly.  For 1 bit per pixel and width 16777217
(2^24 + 1, far below 2^31) the product is rounded to 2^24 when it is converted to `float`, and
the row size is 2097152 instead of 2097156; it is smaller than the 2097153 bytes that hold the
pixels of a row. -/
theorem row_size_float_rounding :
    (∀ (b : Nat) (w : Int), 0 ≤ w → (b : Int) * w < 2 ^ 24 →
      rowSizeBytes b w = .ok ((((b : Int) * w + 31) / 32) * 4)) ∧
    rowSizeBytes 1 16777217 = .ok 2097152 ∧
    ((((1 : Nat) : Int) * 16777217 + 31) / 32) * 4 = 2097156 ∧
    usedRowBytes 1 16777217 = 2097153 := by
  refine ⟨rowSizeBytes_small, by decide, by decide, by decide⟩

/-! ## Header revision -/

theorem readColorMasks_fields (c : BmpConsts) (st : HeaderState) :
    (readColorMasks c st).infoHead._headerSize_bytes = st.infoHead._headerSize_bytes ∧
    (readColorMasks c st).infoHead._compression = st.infoHead._compression := by
  unfold readColorMasks
  split_ifs <;> simp

theorem readAlphaMask_fields (c : BmpConsts) (st : HeaderState) :
    (readAlphaMask c st).infoHead._headerSize_bytes = st.infoHead._headerSize_bytes ∧
    (readAlphaMask c st).infoHead._compression = st.infoHead._compression := by
  unfold readAlphaMask
  split_ifs <;> simp

theorem readColorSpace_fields (c : BmpConsts) (st : HeaderState) :
    (readColorSpace c st).infoHead._headerSize_bytes = st.infoHead._headerSize_bytes ∧
    (readColorSpace c st).infoHead._compression = st.infoHead._compression := by
  unfold readColorSpace
  split_ifs <;> simp

/-- C17: with the revision sizes in ascending order, the revision that `load` arrives at is
the function `specRevision` of the declared size and the compression alone; the red, green
and blue masks are read exactly when it is at least 2 (otherwise the step leaves header and
stream as they are), the alpha mask exactly when it is at least 3, the colour-space tag
exactly when it is at least 4, and the step for revision 5 reads nothing. -/
theorem revision_of_size (c : BmpConsts) (st : HeaderState)
    (h23 : c.V2INFOHEADER_SIZE_BYTES ≤ c.V3INFOHEADER_SIZE_BYTES)
    (h34 : c.V3INFOHEADER_SIZE_BYTES ≤ c.V4INFOHEADER_SIZE_BYTES)
    (h45 : c.V4INFOHEADER_SIZE_BYTES ≤ c.V5INFOHEADER_SIZE_BYTES)
    (hv : st.infoHeadVersion = 1) :
    (markVersion5 c (readColorSpace c (readAlphaMask c (readColorMasks c st)))).infoHeadVersion =
      specRevision c st.infoHead._headerSize_bytes st.infoHead._compression ∧
    (2 ≤ specRevision c st.infoHead._headerSize_bytes st.infoHead._compression →
      readColorMasks c st =
        { infoHead :=
            { st.infoHead with
              _redMask := (st.file.readField 4).1
              _greenMask := ((st.file.readField 4).2.readField 4).1
              _blueMask := (((st.file.readField 4).2.readField 4).2.readField 4).1 }
          file := (((st.file.readField 4).2.readField 4).2.readField 4).2
          infoHeadVersion := 2 }) ∧
    (specRevision c st.infoHead._headerSize_bytes st.infoHead._compression < 2 →
      readColorMasks c st = st) ∧
    (3 ≤ specRevision c st.infoHead._headerSize_bytes st.infoHead._compression →
      readAlphaMask c (readColorMasks c st) =
        { infoHead :=
            { (readColorMasks c st).infoHead with
              _alphaMask := ((readColorMasks c st).file.readField 4).1 }
          file := ((readColorMasks c st).file.readField 4).2
          infoHeadVersion := 3 }) ∧
    (specRevision c st.infoHead._headerSize_bytes st.infoHead._compression < 3 →
      readAlphaMask c (readColorMasks c st) = readColorMasks c st) ∧
    (4 ≤ specRevision c st.infoHead._headerSize_bytes st.infoHead._compression →
      readColorSpace c (readAlphaMask c (readColorMasks c st)) =
        { infoHead :=
            { (readAlphaMask c (readColorMasks c st)).infoHead with
              _colorSpaceMagic := ((readAlphaMask c (readColorMasks c st)).file.readField 4).1 }
          file := ((readAlphaMask c (readColorMasks c st)).file.readField 4).2
          infoHeadVersion := 4 }) ∧
    (specRevision c st.infoHead._headerSize_bytes st.infoHead._compression < 4 →
      readColorSpace c (readAlphaMask c (readColorMasks c st)) =
        readAlphaMask c (readColorMasks c st)) ∧
    (∀ st5 : HeaderState, (markVersion5 c st5).infoHead = st5.infoHead ∧
      (markVersion5 c st5).file = st5.file) := by
  have hs1 := (readColorMasks_fields c st).1
  have hs2 := (readAlphaMask_fields c (readColorMasks c st)).1
  have hs3 := (readColorSpace_fields c (readAlphaMask c (readColorMasks c st))).1
  refine ⟨?_, fun h => ?_, fun h => ?_, fun h => ?_, fun h => ?_, fun h => ?_, fun h => ?_,
    fun st5 => markVersion5_infoHead c st5⟩
  · unfold markVersion5
    rw [hs3, hs2, hs1]
    unfold specRevision
    by_cases h5 : st.infoHead._headerSize_bytes ≥ c.V5INFOHEADER_SIZE_BYTES
    · simp [h5]
    · rw [if_neg h5, if_neg h5]
      unfold readColorSpace
      rw [hs2, hs1]
      by_cases h4 : st.infoHead._headerSize_bytes ≥ c.V4INFOHEADER_SIZE_BYTES
      · simp [h4]
      · rw [if_neg h4, if_neg h4]
        unfold readAlphaMask
        rw [hs1]
        by_cases h3 : st.infoHead._headerSize_bytes ≥ c.V3INFOHEADER_SIZE_BYTES
        · simp [h3]
        · rw [if_neg h3, if_neg h3]
          unfold readColorMasks
          split_ifs
          · rfl
          · exact hv
  · unfold readColorMasks
    unfold specRevision at h
    split_ifs at h ⊢ with a1 a2 a3 a4 a5
    all_goals first | rfl | omega
  · unfold readColorMasks
    unfold specRevision at h
    split_ifs at h ⊢ with a1 a2 a3 a4 a5
    all_goals first | rfl | omega
  · unfold readAlphaMask
    rw [hs1]
    unfold specRevision at h
    split_ifs at h ⊢ with a1 a2 a3 a4 a5
    all_goals first | rfl | omega
  · unfold readAlphaMask
    rw [hs1]
    unfold specRevision at h
    split_ifs at h ⊢ with a1 a2 a3 a4 a5
    all_goals first | rfl | omega
  · unfold readColorSpace
    rw [hs2, hs1]
    unfold specRevision at h
    split_ifs at h ⊢ with a1 a2 a3 a4 a5
    all_goals first | rfl | omega
  · unfold readColorSpace
    rw [hs2, hs1]
    unfold specRevision at h
    split_ifs at h ⊢ with a1 a2 a3 a4 a5
    all_goals first | rfl | omega

theorem revision_of_size_witness :
    (markVersion5 bmpConsts (headerStateOf bmpConsts sample16Masks)).infoHeadVersion =
        specRevision bmpConsts 52 0 ∧
      specRevision bmpConsts 52 0 = 2 ∧ specRevision bmpConsts 40 3 = 2 ∧
      specRevision bmpConsts 40 0 = 1 ∧ specRevision bmpConsts 56 0 = 3 ∧
      specRevision bmpConsts 108 0 = 4 ∧ specRevision bmpConsts 124 0 = 5 :=
  ⟨(revision_of_size bmpConsts
      { infoHead := (readInfoHeader (readFileHeader (readMagic sample16Masks).1
          (readMagic sample16Masks).2).2).1
        file := (readInfoHeader (readFileHeader (readMagic sample16Masks).1
          (readMagic sample16Masks).2).2).2
        infoHeadVersion := 1 }
      (by decide) (by decide) (by decide) rfl).1,
    by decide, by decide, by decide, by decide, by decide, by decide⟩

/-! ## Repeated loads -/

/-- C18: the result of a successful `load` does not depend on what the object held before:
the same input loaded into any other object state gives the same pixels, width and height,
and loading it again into the object it just filled gives the same result once more.  A run
that ends in a fault does so for every prior state. -/
theorem load_repeatable (c : BmpConsts) (file : Option (List Nat)) :
    (∀ (self other : BmpImage) (r : LoadResult), load c file self = .ok r → r.ok = true →
      load c file other = .ok r) ∧
    (∀ (self : BmpImage) (r : LoadResult), load c file self = .ok r → r.ok = true →
      load c file r.image = .ok r) ∧
    (∀ (self other : BmpImage) (e : Fault), load c file self = .error e →
      load c file other = .error e) := by
  have key : ∀ (self other : BmpImage) (r : LoadResult), load c file self = .ok r →
      r.ok = true → load c file other = .ok r := by
    intro self other r h hok
    unfold load at h ⊢
    cases file with
    | none =>
      simp only at h
      cases h
      simp at hok
    | some bytes =>
      simp only at h ⊢
      split_ifs at h ⊢ with h1 h2 h3
      · cases h; simp at hok
      · cases h; simp at hok
      · cases h; simp at hok
      · exact h
  refine ⟨key, fun self r h hok => key self r.image r h hok, fun self other e h => ?_⟩
  unfold load at h ⊢
  cases file with
  | none => simp only at h; cases h
  | some bytes =>
    simp only at h ⊢
    split_ifs at h ⊢ with h1 h2 h3
    exact h

/-! ## Pixels under the default masks -/

theorem byte_channel (v k : Nat) :
    ((v &&& (0xff <<< k)) >>> k) % 256 = (v / 2 ^ k) % 256 := by
  rw [land_shift_eq, Nat.shiftRight_eq_div_pow,
    show (0xff : Nat) = 2 ^ 8 - 1 by norm_num, Nat.and_pow_two_sub_one_eq_mod]
  norm_num

theorem rawValue_three (b0 b1 b2 : Nat) :
    rawValue (fun k => [b0, b1, b2].getD k 0) 3 = b0 + b1 * 256 + b2 * 65536 := by
  simp [rawValue, List.range_succ]
  omega

theorem rawValue_four (b0 b1 b2 b3 : Nat) :
    rawValue (fun k => [b0, b1, b2, b3].getD k 0) 4 =
      b0 + b1 * 256 + b2 * 65536 + b3 * 16777216 := by
  simp [rawValue, List.range_succ]
  omega

/-- C20: end to end for the default masks.  In a 24-bit image the shifts found are 16, 8, 0
and 0, and the pixel stored as bytes (b0, b1, b2) is appended as (red, green, blue, alpha) =
(b2, b1, b0, 0).  In a 32-bit uncompressed image with a header revision below 3 the shifts
are 16, 8, 0 and 24, and the pixel stored as (b0, b1, b2, b3) is appended as
(b2, b1, b0, b3). -/
theorem default_mask_pixels (c : BmpConsts) (infoHead : InfoHeader) (infoHeadVersion : Nat)
    (row : List (Option Nat)) (j m : Nat) (pixels : List Color4u) (b0 b1 b2 b3 : Nat)
    (h0 : b0 < 256) (h1 : b1 < 256) (h2 : b2 < 256) (h3 : b3 < 256) :
    (infoHead._bitsPerPixel = 24 →
      readRow row (j * 3) = .ok b0 → readRow row (j * 3 + 1) = .ok b1 →
      readRow row (j * 3 + 2) = .ok b2 →
      (resolveMasks c infoHead infoHeadVersion)._bitsPerPixel / 8 = 3 ∧
      scanShift (resolveMasks c infoHead infoHeadVersion)._redMask 32 0 = .ok 16 ∧
      scanShift (resolveMasks c infoHead infoHeadVersion)._greenMask 32 0 = .ok 8 ∧
      scanShift (resolveMasks c infoHead infoHeadVersion)._blueMask 32 0 = .ok 0 ∧
      scanAlphaShift (resolveMasks c infoHead infoHeadVersion)._alphaMask = .ok 0 ∧
      directRow (resolveMasks c infoHead infoHeadVersion) 3 16 8 0 0 row (m + 1) j pixels =
        directRow (resolveMasks c infoHead infoHeadVersion) 3 16 8 0 0 row m (j + 1)
          (pixels ++ [⟨b2, b1, b0, 0⟩])) ∧
    (infoHead._bitsPerPixel = 32 → infoHead._compression = c.BI_RGB → infoHeadVersion < 3 →
      readRow row (j * 4) = .ok b0 → readRow row (j * 4 + 1) = .ok b1 →
      readRow row (j * 4 + 2) = .ok b2 → readRow row (j * 4 + 3) = .ok b3 →
      (resolveMasks c infoHead infoHeadVersion)._bitsPerPixel / 8 = 4 ∧
      scanShift (resolveMasks c infoHead infoHeadVersion)._redMask 32 0 = .ok 16 ∧
      scanShift (resolveMasks c infoHead infoHeadVersion)._greenMask 32 0 = .ok 8 ∧
      scanShift (resolveMasks c infoHead infoHeadVersion)._blueMask 32 0 = .ok 0 ∧
      scanAlphaShift (resolveMasks c infoHead infoHeadVersion)._alphaMask = .ok 24 ∧
      directRow (resolveMasks c infoHead infoHeadVersion) 4 16 8 0 24 row (m + 1) j pixels =
        directRow (resolveMasks c infoHead infoHeadVersion) 4 16 8 0 24 row m (j + 1)
          (pixels ++ [⟨b2, b1, b0, b3⟩])) := by
  constructor
  · intro hd r0 r1 r2
    have hr : (resolveMasks c infoHead infoHeadVersion)._redMask = 0xff <<< 16 := by
      simp [resolveMasks, hd]
    have hg : (resolveMasks c infoHead infoHeadVersion)._greenMask = 0xff <<< 8 := by
      simp [resolveMasks, hd]
    have hb : (resolveMasks c infoHead infoHeadVersion)._blueMask = 0xff <<< 0 := by
      simp [resolveMasks, hd]
    have ha : (resolveMasks c infoHead infoHeadVersion)._alphaMask = 0 := by
      simp [resolveMasks, hd]
    have hraw : rawPixelBytes row 3 j = .ok (b0 + b1 * 256 + b2 * 65536) := by
      rw [← rawValue_three]
      apply rawPixelBytes_value row 3 j _ (by omega)
      intro k hk
      have hk3 : k = 0 ∨ k = 1 ∨ k = 2 := by omega
      rcases hk3 with rfl | rfl | rfl
      · exact ⟨by simpa using r0, by simpa using h0⟩
      · exact ⟨by simpa using r1, by simpa using h1⟩
      · exact ⟨by simpa using r2, by simpa using h2⟩
    refine ⟨by rw [(resolveMasks_size c infoHead infoHeadVersion).2.2, hd],
      by rw [hr]; decide, by rw [hg]; decide, by rw [hb]; decide, by rw [ha]; decide, ?_⟩
    simp only [directRow, hraw, maskedColor, hr, hg, hb, ha, byte_channel]
    have e1 : (b0 + b1 * 256 + b2 * 65536) / 2 ^ 16 % 256 = b2 := by omega
    have e2 : (b0 + b1 * 256 + b2 * 65536) / 2 ^ 8 % 256 = b1 := by omega
    have e3 : (b0 + b1 * 256 + b2 * 65536) / 2 ^ 0 % 256 = b0 := by omega
    rw [e1, e2, e3]
    simp
  · intro hd hcomp hv r0 r1 r2 r3
    have hr : (resolveMasks c infoHead infoHeadVersion)._redMask = 0xff <<< 16 := by
      simp [resolveMasks, hd, hcomp]
    have hg : (resolveMasks c infoHead infoHeadVersion)._greenMask = 0xff <<< 8 := by
      simp [resolveMasks, hd, hcomp]
    have hb : (resolveMasks c infoHead infoHeadVersion)._blueMask = 0xff <<< 0 := by
      simp [resolveMasks, hd, hcomp]
    have ha : (resolveMasks c infoHead infoHeadVersion)._alphaMask = 0xff <<< 24 := by
      simp [resolveMasks, hd, hcomp, hv]
    have hraw : rawPixelBytes row 4 j = .ok (b0 + b1 * 256 + b2 * 65536 + b3 * 16777216) := by
      rw [← rawValue_four]
      apply rawPixelBytes_value row 4 j _ (by omega)
      intro k hk
      have hk4 : k = 0 ∨ k = 1 ∨ k = 2 ∨ k = 3 := by omega
      rcases hk4 with rfl | rfl | rfl | rfl
      · exact ⟨by simpa using r0, by simpa using h0⟩
      · exact ⟨by simpa using r1, by simpa using h1⟩
      · exact ⟨by simpa using r2, by simpa using h2⟩
      · exact ⟨by simpa using r3, by simpa using h3⟩
    refine ⟨by rw [(resolveMasks_size c infoHead infoHeadVersion).2.2, hd],
      by rw [hr]; decide, by rw [hg]; decide, by rw [hb]; decide, by rw [ha]; decide, ?_⟩
    simp only [directRow, hraw, maskedColor, hr, hg, hb, ha, byte_channel]
    have e1 : (b0 + b1 * 256 + b2 * 65536 + b3 * 16777216) / 2 ^ 16 % 256 = b2 := by omega
    have e2 : (b0 + b1 * 256 + b2 * 65536 + b3 * 16777216) / 2 ^ 8 % 256 = b1 := by omega
    have e3 : (b0 + b1 * 256 + b2 * 65536 + b3 * 16777216) / 2 ^ 0 % 256 = b0 := by omega
    have e4 : (b0 + b1 * 256 + b2 * 65536 + b3 * 16777216) / 2 ^ 24 % 256 = b3 := by omega
    rw [e1, e2, e3, e4]

theorem default_mask_pixels_witness :
    directRow (resolveMasks bmpConsts (headerStateOf bmpConsts sample24).infoHead 1) 3 16 8 0 0
        ([1, 2, 3, 4, 5, 6, 0, 0].map some) (0 + 1) 0 [] =
      directRow (resolveMasks bmpConsts (headerStateOf bmpConsts sample24).infoHead 1) 3 16 8 0 0
        ([1, 2, 3, 4, 5, 6, 0, 0].map some) 0 (0 + 1) ([] ++ [⟨3, 2, 1, 0⟩]) ∧
      load bmpConsts (some sample24) usedImage =
        .ok ⟨true, ⟨[⟨3, 2, 1, 0⟩, ⟨6, 5, 4, 0⟩, ⟨9, 8, 7, 0⟩, ⟨12, 11, 10, 0⟩], 2, 2⟩, []⟩ ∧
      load bmpConsts (some sample32) usedImage = .ok ⟨true, ⟨[⟨3, 2, 1, 4⟩], 1, 1⟩, []⟩ :=
  ⟨((default_mask_pixels bmpConsts (headerStateOf bmpConsts sample24).infoHead 1
      ([1, 2, 3, 4, 5, 6, 0, 0].map some) 0 0 [] 1 2 3 0 (by decide) (by decide) (by decide)
      (by decide)).1 (by decide) (by decide) (by decide) (by decide)).2.2.2.2.2,
    by decide, by decide⟩

/-! ## Zero masks, other depths and the stored size -/

theorem scanShift_zero (fuel shift : Nat) : scanShift 0 fuel shift = .error .shiftTooLarge := by
  induction fuel generalizing shift with
  | zero => rfl
  | succ n ih => simp [scanShift, ih]

theorem readRow_oob (row : List (Option Nat)) (k : Nat) (h : row.length ≤ k) :
    readRow row k = .error .outOfBounds := by
  unfold readRow
  have : row.get? k = none := by simp [List.getElem?_eq_none h]
  rw [this]

/-- C21 at its failing input.  The scan `while((mask & (0x01 << shift)) == 0) ++shift;` of a
zero mask finds no set bit: whatever the number of steps allowed and the shift it starts at,
it ends in the shift by 32 or more and never with a shift.  The file `sample16ZeroMask` has a
valid magic, a base-size header (no colour-space check), bit-fields compression, 16 bits per
pixel and a red mask of zero read from the file; `load` passes it to `extractPixels` and the
run ends in that fault.  For every non-zero 32-bit mask the scan does end with a shift of at
most 31. -/
theorem zero_mask_scan_faults :
    (∀ fuel shift, scanShift 0 fuel shift = .error .shiftTooLarge) ∧
    (readMagic sample16ZeroMask).1 = bmpConsts.BMPMAGIC ∧
    (headerStateOf bmpConsts sample16ZeroMask).infoHead._headerSize_bytes <
      bmpConsts.V4INFOHEADER_SIZE_BYTES ∧
    (headerStateOf bmpConsts sample16ZeroMask).infoHead._compression = bmpConsts.BI_BITFIELDS ∧
    (headerStateOf bmpConsts sample16ZeroMask).infoHead._bitsPerPixel = 16 ∧
    (headerStateOf bmpConsts sample16ZeroMask).infoHead._redMask = 0 ∧
    load bmpConsts (some sample16ZeroMask) usedImage = .error .shiftTooLarge ∧
    (∀ mask, mask ≠ 0 → mask < 2 ^ 32 → ∃ s, scanShift mask 32 0 = .ok s ∧ s ≤ 31) := by
  refine ⟨scanShift_zero, by decide, by decide, by decide, by decide, by decide, by decide, ?_⟩
  intro mask hne h32
  obtain ⟨s, h1, h2, _⟩ := scanShift_lowestSetBit mask hne h32
  exact ⟨s, h1, h2⟩

/-- C22: for every file with a valid magic, an accepted colour space (the tag is sRGB whenever
the header is large enough to hold one) and a supported compression whose bits per pixel are
none of 1, 2, 4, 8, 16, 24, 32, `load` returns true with nothing logged, the pixel buffer is
empty and width and height are the header's fields; so the buffer length differs from
width × |height| whenever both are non-zero. -/
theorem load_other_depth (c : BmpConsts) (bytes : List Nat) (self : BmpImage)
    (hmagic : (readMagic bytes).1 = c.BMPMAGIC)
    (hspace : (headerStateOf c bytes).infoHead._headerSize_bytes ≥ c.V4INFOHEADER_SIZE_BYTES →
      (headerStateOf c bytes).infoHead._colorSpaceMagic = c.SRGBMAGIC)
    (hcomp : (headerStateOf c bytes).infoHead._compression = c.BI_RGB ∨
      (headerStateOf c bytes).infoHead._compression = c.BI_BITFIELDS)
    (hd : ¬ SupportedDepth (headerStateOf c bytes).infoHead._bitsPerPixel) :
    ∃ r, load c (some bytes) self = .ok r ∧ r.ok = true ∧ r.log = [] ∧ r.image._pixels = [] ∧
      r.image._width_px = (headerStateOf c bytes).infoHead._bmpWidth_px ∧
      r.image._height_px = (headerStateOf c bytes).infoHead._bmpHeight_px ∧
      (r.image._width_px ≠ 0 → r.image._height_px ≠ 0 →
        (r.image._pixels.length : Int) ≠ r.image._width_px * |r.image._height_px|) := by
  have hex : extract c (markVersion5 c (headerStateOf c bytes)).file (fileHeaderOf bytes)
      (markVersion5 c (headerStateOf c bytes)).infoHead
      (markVersion5 c (headerStateOf c bytes)).infoHeadVersion [] = .ok [] := by
    rw [(markVersion5_infoHead c _).1]
    unfold extract
    unfold SupportedDepth at hd
    rw [if_neg (by omega), if_neg (by omega)]
  refine ⟨⟨true, ⟨[], (headerStateOf c bytes).infoHead._bmpWidth_px,
    (headerStateOf c bytes).infoHead._bmpHeight_px⟩, []⟩, ?_, rfl, rfl, rfl, rfl, rfl, ?_⟩
  · unfold load
    simp only
    rw [if_neg (by simpa using hmagic), if_neg (by
      rintro ⟨h1, h2⟩
      exact h2 (hspace h1)), if_neg (by
      rintro ⟨h1, h2⟩
      rcases hcomp with h | h
      · exact h1 h
      · exact h2 h), hex]
  · intro hw hh
    simp only [List.length_nil, Nat.cast_zero]
    intro h0
    rcases mul_eq_zero.mp h0.symm with h | h
    · exact hw h
    · exact hh (abs_eq_zero.mp h)

theorem load_other_depth_witness :
    load bmpConsts (some sampleDepth3) usedImage = .ok ⟨true, ⟨[], 2, 2⟩, []⟩ ∧
    ∃ r, load bmpConsts (some sampleDepth3) usedImage = .ok r ∧ r.ok = true ∧ r.log = [] ∧
      r.image._pixels = [] ∧
      r.image._width_px = (headerStateOf bmpConsts sampleDepth3).infoHead._bmpWidth_px ∧
      r.image._height_px = (headerStateOf bmpConsts sampleDepth3).infoHead._bmpHeight_px ∧
      (r.image._width_px ≠ 0 → r.image._height_px ≠ 0 →
        (r.image._pixels.length : Int) ≠ r.image._width_px * |r.image._height_px|) :=
  ⟨by decide, load_other_depth bmpConsts sampleDepth3 usedImage (by decide) (by decide)
    (by decide) (by decide)⟩

/-- C23 at its failing inputs.  For width 0 the row size is 0 for every bit depth, so the row
buffer has no byte, and the row body of `extractIndexedPixels` reads `row[0]` (line 180) before
the pixel loop tests the width: the index 0 is not below the row size 0.  `load` of the 8-bit
file `sample8NoWidth` (width 0, height 1) ends in that read outside the buffer, whereas the
24-bit file `sample24NoWidth` of the same size is decoded (the pixel loop of `extractPixels`
reads nothing).  For 16 bits per pixel and width 16777217 the row size is 33554432 (the product
is rounded when it is converted to `float`), and the first byte of the last pixel has the index
16777216 × 2 = 33554432, which is outside every row buffer of that size. -/
theorem row_index_beyond_stride :
    (∀ (b numPixelsPerByte mask : Nat) (palette pixels : List Color4u),
      rowSizeBytes b 0 = .ok 0 ∧
      indexedRowBody b numPixelsPerByte mask palette 0 (newRow 0) pixels =
        .error .outOfBounds) ∧
    load bmpConsts (some sample8NoWidth) usedImage = .error .outOfBounds ∧
    load bmpConsts (some sample24NoWidth) usedImage = .ok ⟨true, ⟨[], 0, 1⟩, []⟩ ∧
    rowSizeBytes 16 16777217 = .ok 33554432 ∧
    (∀ row : List (Option Nat), row.length = 33554432 →
      rawPixelBytes row (16 / 8) 16777216 = .error .outOfBounds) := by
  refine ⟨fun b n m palette pixels => ⟨?_, rfl⟩, by decide, by decide, by decide, ?_⟩
  · have := rowSizeBytes_small b 0 (le_refl 0) (by simp)
    simpa using this
  · intro row hrow
    have h0 : readRow row (16777216 * (16 / 8) + 0) = .error .outOfBounds :=
      readRow_oob row _ (by omega)
    simp only [rawPixelBytes] at h0 ⊢
    rw [show List.range (16 / 8) = 0 :: [1] from rfl, List.foldlM_cons, h0]
    rfl

/-- C24: whenever `load` returns true the file was opened and the stored width and height are
the signed width and height fields of the header, unchanged; so for a negative height field
(top-down image) the stored height is negative, while for each of the depths 1, 2, 4, 8, 16,
24, 32 the pixel buffer holds |height| rows of width pixels. -/
theorem load_signed_size (c : BmpConsts) (file : Option (List Nat)) (self : BmpImage)
    (r : LoadResult) (h : load c file self = .ok r) (hok : r.ok = true) :
    ∃ bytes, file = some bytes ∧
      r.image._width_px = (headerStateOf c bytes).infoHead._bmpWidth_px ∧
      r.image._height_px = (headerStateOf c bytes).infoHead._bmpHeight_px ∧
      ((headerStateOf c bytes).infoHead._bmpHeight_px < 0 →
        r.image._height_px < 0 ∧
        (SupportedDepth (headerStateOf c bytes).infoHead._bitsPerPixel →
          r.image._pixels.length =
            |(headerStateOf c bytes).infoHead._bmpHeight_px|.toNat *
              (headerStateOf c bytes).infoHead._bmpWidth_px.toNat)) := by
  unfold load at h
  split at h
  · cases h; simp at hok
  · rename_i bytes
    refine ⟨bytes, rfl, ?_⟩
    split_ifs at h with h1 h2 h3
    · cases h; simp at hok
    · cases h; simp at hok
    · cases h; simp at hok
    · split at h
      · cases h
      · rename_i pixels hex
        cases h
        refine ⟨rfl, rfl, fun hneg => ⟨hneg, fun hd => ?_⟩⟩
        rw [(markVersion5_infoHead c _).1] at hex
        have := extract_length c _ _ _ _ _ _ hd hex
        simpa using this

theorem load_signed_size_witness :
    load bmpConsts (some sample24TopDown) usedImage =
      .ok ⟨true, ⟨[⟨3, 2, 1, 0⟩, ⟨6, 5, 4, 0⟩, ⟨9, 8, 7, 0⟩, ⟨12, 11, 10, 0⟩], 2, -2⟩, []⟩ ∧
    ∃ bytes, some sample24TopDown = some bytes ∧
      (2 : Int) = (headerStateOf bmpConsts bytes).infoHead._bmpWidth_px ∧
      (-2 : Int) = (headerStateOf bmpConsts bytes).infoHead._bmpHeight_px ∧
      ((headerStateOf bmpConsts bytes).infoHead._bmpHeight_px < 0 →
        (-2 : Int) < 0 ∧
        (SupportedDepth (headerStateOf bmpConsts bytes).infoHead._bitsPerPixel →
          4 =
            |(headerStateOf bmpConsts bytes).infoHead._bmpHeight_px|.toNat *
              (headerStateOf bmpConsts bytes).infoHead._bmpWidth_px.toNat)) :=
  ⟨by decide, load_signed_size bmpConsts (some sample24TopDown) usedImage
    ⟨true, ⟨[⟨3, 2, 1, 0⟩, ⟨6, 5, 4, 0⟩, ⟨9, 8, 7, 0⟩, ⟨12, 11, 10, 0⟩], 2, -2⟩, []⟩
    (by decide) rfl⟩

/-- C25: whenever `load` returns false the stored width and height are the values the object
had before the call and the pixel buffer is empty; so if the object held a non-empty buffer of
width × |height| pixels before, the buffer length differs from width × |height| afterwards. -/
theorem load_failure_keeps_size (c : BmpConsts) (file : Option (List Nat)) (self : BmpImage)
    (r : LoadResult) (h : load c file self = .ok r) (hf : r.ok = false) :
    r.image._width_px = self._width_px ∧ r.image._height_px = self._height_px ∧
      r.image._pixels = [] ∧
      (self._pixels ≠ [] → (self._pixels.length : Int) = self._width_px * |self._height_px| →
        (r.image._pixels.length : Int) ≠ r.image._width_px * |r.image._height_px|) := by
  have key : r.image = { self with _pixels := [] } := by
    unfold load at h
    split at h
    · cases h; rfl
    · split_ifs at h
      · cases h; rfl
      · cases h; rfl
      · cases h; rfl
      · split at h
        · cases h
        · cases h; simp at hf
  rw [key]
  refine ⟨rfl, rfl, rfl, fun hne hlen => ?_⟩
  simp only [List.length_nil, Nat.cast_zero]
  rw [← hlen]
  intro h0
  exact hne (List.length_eq_zero.mp (by exact_mod_cast h0.symm))

theorem load_failure_keeps_size_witness :
    load bmpConsts (some sample24) usedImage = .ok ⟨true, loadedImage, []⟩ ∧
    load bmpConsts (some [0x42]) loadedImage =
      .ok ⟨false, ⟨[], 2, 2⟩, [LogMsg.msg_bmp_corrupted]⟩ ∧
    ((2 : Int) = loadedImage._width_px ∧ (2 : Int) = loadedImage._height_px ∧
      ([] : List Color4u) = [] ∧
      (loadedImage._pixels ≠ [] →
        (loadedImage._pixels.length : Int) = loadedImage._width_px * |loadedImage._height_px| →
        ((([] : List Color4u).length : Nat) : Int) ≠ (2 : Int) * |(2 : Int)|)) :=
  ⟨by decide, by decide, load_failure_keeps_size bmpConsts (some [0x42]) loadedImage
    ⟨false, ⟨[], 2, 2⟩, [LogMsg.msg_bmp_corrupted]⟩ (by decide) rfl⟩

/-! ## Cutscene playback -/

theorem animation_update_bound {F : Type} (ops : FloatOps F) (a : Animation F) (dt : F)
    (h0 : 0 ≤ a._frame) (h1 : a._frame ≤ a._frameCount) (hc : a._frameCount < 2 ^ 31 - 1) :
    ∃ r, Animation.update ops a dt = .ok r ∧ 0 ≤ r.2._frame ∧ r.2._frame ≤ r.2._frameCount ∧
      r.2._frameCount = a._frameCount := by
  have hci : checkInt (a._frame + 1) = .ok (a._frame + 1) := by
    unfold checkInt
    rw [if_pos (by constructor <;> omega)]
  unfold Animation.update
  split_ifs with hm hg hl hr
  · exact ⟨_, rfl, h0, h1, rfl⟩
  · rw [hci]
    refine ⟨_, rfl, ?_, ?_, rfl⟩ <;> simp only [wrapFrame] <;> split_ifs <;> omega
  · rw [hci]
    refine ⟨_, rfl, ?_, ?_, rfl⟩ <;> simp only [wrapFrame] <;> split_ifs <;> omega
  · refine ⟨_, rfl, ?_, ?_, rfl⟩ <;> simp only [wrapFrame] <;> split_ifs <;> omega
  · refine ⟨_, rfl, ?_, ?_, rfl⟩ <;> simp only [wrapFrame] <;> split_ifs <;> omega

theorem animation_updates_bound {F : Type} (ops : FloatOps F) (dts : List F) (a : Animation F)
    (h0 : 0 ≤ a._frame) (h1 : a._frame ≤ a._frameCount) (hc : a._frameCount < 2 ^ 31 - 1) :
    ∃ b, Animation.updates ops a dts = .ok b ∧ 0 ≤ b._frame ∧ b._frame ≤ b._frameCount ∧
      b._frameCount = a._frameCount := by
  induction dts generalizing a with
  | nil => exact ⟨a, rfl, h0, h1, rfl⟩
  | cons dt rest ih =>
    obtain ⟨r, hr, r0, r1, rc⟩ := animation_update_bound ops a dt h0 h1 hc
    obtain ⟨b, hb, b0, b1, bc⟩ := ih r.2 r0 r1 (by rw [rc]; exact hc)
    refine ⟨b, ?_, b0, b1, by rw [bc, rc]⟩
    unfold Animation.updates at hb ⊢
    rw [List.foldlM_cons, hr]
    exact hb

/-- C26 at its failing input.  Line 67 resets the frame only when it is greater than the frame
count (`_frame > _frameCount`), so what every sequence of updates keeps, for every arithmetic,
every mode and every time step, is 0 ≤ frame ≤ frameCount (the frame count being below the
largest `int`).  The frame does reach the frame count: an animation of a sprite with 2 frames,
start frame 0, frequency 1 and mode `LOOP` has the frame 2 after two updates with time step
2, which is no valid frame index. -/
theorem animation_frame_reaches_count :
    (∀ (F : Type) (ops : FloatOps F) (getSpriteFrameCount : Int → Int)
        (spriteKey startFrame layer : Int) (frameFrequency : F) (mode : Mode)
        (a : Animation F) (dts : List F),
      newAnimation ops getSpriteFrameCount spriteKey startFrame layer frameFrequency
        mode = some a →
      0 ≤ startFrame → getSpriteFrameCount spriteKey < 2 ^ 31 - 1 →
      a._frameCount = getSpriteFrameCount spriteKey ∧ startFrame < a._frameCount ∧
      ∃ b, Animation.updates ops a dts = .ok b ∧ 0 ≤ b._frame ∧ b._frame ≤ a._frameCount) ∧
    (∃ a b, newAnimation fracOps (fun _ => 2) 0 0 0 ⟨1, 1⟩ Mode.LOOP = some a ∧
      Animation.updates fracOps a [⟨2, 1⟩, ⟨2, 1⟩] = .ok b ∧ a._frameCount = 2 ∧
      b._frameCount = 2 ∧ b._frame = 2 ∧ ¬ b._frame < b._frameCount) := by
  constructor
  · intro F ops g key start layer freq mode a dts hmk hs hc
    unfold newAnimation at hmk
    by_cases hlt : start < g key
    swap
    · rw [if_neg hlt] at hmk
      cases hmk
    rw [if_pos hlt] at hmk
    cases hmk
    refine ⟨rfl, hlt, ?_⟩
    obtain ⟨b, hb, b0, b1, bc⟩ := animation_updates_bound ops dts
      (⟨if ops.eq freq ops.zero then Mode.STATIC else mode, key, start, start, layer, g key,
        ops.div ops.one freq, freq, ops.zero⟩ : Animation F) hs (le_of_lt hlt) hc
    exact ⟨b, hb, b0, by rw [← bc]; exact b1⟩
  · exact ⟨⟨Mode.LOOP, 0, 0, 0, 0, 2, ⟨1, 1⟩, ⟨1, 1⟩, ⟨0, 1⟩⟩,
      ⟨Mode.LOOP, 0, 2, 0, 0, 2, ⟨1, 1⟩, ⟨1, 1⟩, ⟨0, 1⟩⟩, by decide, by decide, rfl, rfl, rfl,
      by decide⟩

theorem insertPoint_length {F : Type} (ops : FloatOps F) (p : TPoint F) (l : List (TPoint F)) :
    (insertPoint ops p l).length = l.length + 1 := by
  induction l with
  | nil => rfl
  | cons q rest ih =>
    unfold insertPoint
    split_ifs
    · rfl
    · simp [ih]

theorem sortPoints_length {F : Type} (ops : FloatOps F) (l : List (TPoint F)) :
    (sortPoints ops l).length = l.length := by
  induction l with
  | nil => rfl
  | cons p rest ih => simp [sortPoints, insertPoint_length, ih]

theorem newTransition_some {F : Type} (ops : FloatOps F) (points : List (TPoint F))
    (duration : F) (h : points ≠ []) :
    ∃ t, newTransition ops points duration = some t ∧ t._points = sortPoints ops points := by
  have hl : points.length ≠ 0 := fun h0 => h (List.length_eq_zero.mp h0)
  have hs := sortPoints_length ops points
  unfold newTransition
  rw [if_neg hl]
  cases hsort : sortPoints ops points with
  | nil => rw [hsort] at hs; exact absurd hs.symm hl
  | cons front rest =>
    simp only
    split_ifs
    · exact ⟨_, rfl, rfl⟩
    · exact ⟨_, rfl, rfl⟩

theorem newTransition_inRange {F : Type} (ops : FloatOps F) (points : List (TPoint F))
    (duration : F) (t : Transition F) (h : newTransition ops points duration = some t) :
    t.InRange := by
  unfold newTransition at h
  split_ifs at h with h0
  split at h
  · cases h
  · rename_i front rest hsort
    split_ifs at h with h1
    · cases h
      exact ⟨by simp, by simp, by simp⟩
    · cases h
      have : rest.length ≠ 0 := by
        intro hr
        exact h1 (Or.inl (by simp [hr]))
      refine ⟨by simp, ?_, fun _ => by simp⟩
      simp only [List.length_cons]
      omega

theorem readPoint_ok {F : Type} (points : List (TPoint F)) (i : Nat) (h : i < points.length) :
    readPoint points i = .ok (points.get ⟨i, h⟩) := by
  unfold readPoint
  rw [List.get?_eq_get h]

theorem transition_update_inRange {F : Type} (ops : FloatOps F) (t : Transition F) (dt : F)
    (hin : t.InRange)
    (hlast : ∀ p, t._points.getLast? = some p → ops.eq p._phase ops.one = true) :
    ∃ r, Transition.update ops t dt = .ok r ∧ r.2._points = t._points ∧ r.2.InRange := by
  obtain ⟨hf, ht, hft⟩ := hin
  unfold Transition.update
  by_cases hd : t._isDone = true
  · rw [if_pos hd]
    exact ⟨_, rfl, rfl, hf, ht, hft⟩
  rw [if_neg hd, readPoint_ok _ _ ht]
  simp only
  have hd' : t._isDone = false := by simpa using hd
  have hadv : (advance ops t (ops.div (ops.add t._clock dt) t._duration)
        (t._points.get ⟨t._to, ht⟩)).2.1 < t._points.length ∧
      (advance ops t (ops.div (ops.add t._clock dt) t._duration)
        (t._points.get ⟨t._to, ht⟩)).2.2.1 < t._points.length ∧
      ((advance ops t (ops.div (ops.add t._clock dt) t._duration)
        (t._points.get ⟨t._to, ht⟩)).2.2.2 = false →
        (advance ops t (ops.div (ops.add t._clock dt) t._duration)
          (t._points.get ⟨t._to, ht⟩)).2.1 <
        (advance ops t (ops.div (ops.add t._clock dt) t._duration)
          (t._points.get ⟨t._to, ht⟩)).2.2.1) := by
    unfold advance
    split_ifs with hg he
    · exact ⟨hf, ht, fun h => by simp at h⟩
    · have hne : t._to + 1 ≠ t._points.length := by
        intro hlen
        apply he
        apply hlast
        rw [List.getLast?_eq_getElem?]
        have : t._points.length - 1 = t._to := by omega
        rw [this, List.getElem?_eq_getElem ht]
        rfl
      have := hft hd'
      exact ⟨by simp only; omega, by simp only; omega, fun _ => by simp only; omega⟩
    · exact ⟨hf, ht, fun _ => hft hd'⟩
  obtain ⟨a1, a2, a3⟩ := hadv
  rw [readPoint_ok _ _ a1, readPoint_ok _ _ a2]
  exact ⟨_, rfl, rfl, a1, a2, a3⟩

theorem transition_updates_inRange {F : Type} (ops : FloatOps F) (dts : List F)
    (t : Transition F) (hin : t.InRange)
    (hlast : ∀ p, t._points.getLast? = some p → ops.eq p._phase ops.one = true) :
    ∃ r, Transition.updates ops t dts = .ok r ∧ r._points = t._points ∧ r.InRange := by
  induction dts generalizing t with
  | nil => exact ⟨t, rfl, rfl, hin⟩
  | cons dt rest ih =>
    obtain ⟨r, hr, hp, hri⟩ := transition_update_inRange ops t dt hin hlast
    obtain ⟨b, hb, hbp, hbi⟩ := ih r.2 hri (by rw [hp]; exact hlast)
    refine ⟨b, ?_, by rw [hbp, hp], hbi⟩
    unfold Transition.updates at hb ⊢
    rw [List.foldlM_cons, hr]
    exact hb

/-- C27, amended: when the last point of the sorted point list has a phase equal to 1, every
sequence of updates of a constructed transition, with whatever time steps, returns without a
read outside `_points`, the point list stays as it is and both `_from` and `_to` are below the
number of points afterwards. -/
theorem transition_indices_in_range {F : Type} (ops : FloatOps F) (points : List (TPoint F))
    (duration : F) (t : Transition F) (dts : List F)
    (hnew : newTransition ops points duration = some t)
    (hlast : ∀ p, t._points.getLast? = some p → ops.eq p._phase ops.one = true) :
    ∃ r, Transition.updates ops t dts = .ok r ∧ r._points = t._points ∧
      r._from < r._points.length ∧ r._to < r._points.length := by
  obtain ⟨r, hr, hp, hin⟩ :=
    transition_updates_inRange ops dts t (newTransition_inRange ops points duration t hnew) hlast
  exact ⟨r, hr, hp, hin.1, hin.2.1⟩

theorem transition_indices_in_range_witness :
    (Transition.updates fracOps ⟨samplePointsToOne, ⟨⟨0, 1⟩, ⟨0, 1⟩⟩, ⟨1, 1⟩, ⟨0, 1⟩, 0, 1, false⟩
        [⟨1, 2⟩, ⟨1, 1⟩]).map (fun t => (t._from, t._to, t._isDone)) = .ok (0, 1, true) ∧
    ∃ r, Transition.updates fracOps
        ⟨samplePointsToOne, ⟨⟨0, 1⟩, ⟨0, 1⟩⟩, ⟨1, 1⟩, ⟨0, 1⟩, 0, 1, false⟩ [⟨1, 2⟩, ⟨1, 1⟩] =
          .ok r ∧
      r._points = samplePointsToOne ∧ r._from < r._points.length ∧ r._to < r._points.length :=
  ⟨by decide, transition_indices_in_range fracOps samplePointsToOne ⟨1, 1⟩
    ⟨samplePointsToOne, ⟨⟨0, 1⟩, ⟨0, 1⟩⟩, ⟨1, 1⟩, ⟨0, 1⟩, 0, 1, false⟩ [⟨1, 2⟩, ⟨1, 1⟩]
    (by decide) (by decide)⟩

/-- C27 as stated fails: for the two points with the phases 0 and 1/2 and the duration 1, the
first update with time step 1 finds the phase 1 above the phase 1/2 of the last point, which
is not 1, so it increments `_to` to 2, the number of points, and reads `_points[2]`. -/
theorem transition_index_beyond_points :
    newTransition fracOps samplePoints ⟨1, 1⟩ =
      some ⟨samplePoints, ⟨⟨0, 1⟩, ⟨0, 1⟩⟩, ⟨1, 1⟩, ⟨0, 1⟩, 0, 1, false⟩ ∧
    samplePoints.length = 2 ∧
    (advance fracOps ⟨samplePoints, ⟨⟨0, 1⟩, ⟨0, 1⟩⟩, ⟨1, 1⟩, ⟨0, 1⟩, 0, 1, false⟩
      (fracOps.div (fracOps.add ⟨0, 1⟩ ⟨1, 1⟩) ⟨1, 1⟩) ⟨⟨⟨8, 1⟩, ⟨8, 1⟩⟩, ⟨1, 2⟩⟩).2.2.1 = 2 ∧
    Transition.update fracOps ⟨samplePoints, ⟨⟨0, 1⟩, ⟨0, 1⟩⟩, ⟨1, 1⟩, ⟨0, 1⟩, 0, 1, false⟩
      ⟨1, 1⟩ = .error .outOfBounds := by
  refine ⟨by decide, by decide, by decide, by decide⟩

end pxr
